import Mathlib

/-!
# openvpn-aws: policy, authentication, packet filter, sessions and certificates

A shallow embedding of `internal/config/parser.go`, `internal/config/configfile.go`,
`internal/vpn/config.go`, `internal/fw/firewall.go`, `internal/ca/ca.go`, the
client events of `internal/vpn/openvpn.go` and the session handling and watch
tick of `internal/vpn/manager.go`, together with the parts of the Go standard
library (`net`, `strconv`, `strings`, `path/filepath`) those files call.

Conventions of the embedding:

* a Go `string` is a `List Char` (valid UTF-8 text); byte-level operations of the
  source that only look for ASCII bytes are performed on characters;
* a Go byte slice is a `List Nat` of values below 256, `nil` being `[]`;
* a Go `map` is an association list in insertion order; the order in which a
  `range` loop visits a map, and the order in which `sort.Slice` leaves elements
  that compare equal, are not fixed by Go and are supplied as parameters;
* pointers to sections are replaced by writing the updated section back into
  the configuration; the session records of the supervisor, which two tables
  share by pointer, live in a heap and the tables hold indices of it;
* what the program does to the outside (the `iptables` runs, the commands sent
  to the daemon, the file operations of the certificate manager) is recorded in
  the state; what the outside answers (the backend, the cryptographic library,
  the file system, the exit status of `iptables`) is a parameter.
-/

set_option autoImplicit false

namespace OpenvpnAws

/-- Go strings. -/
abbrev Str := List Char

deriving instance DecidableEq for Except

/-! ## Package `net` -/

namespace net

/-- Go `net.IPNet`: an address and a mask, both byte slices. -/
structure IPNet where
  IP : List Nat
  Mask : List Nat
deriving DecidableEq, Repr

/-- The 12-byte header of an IPv4 address stored in 16 bytes. -/
def v4InV6Header : List Nat := [0, 0, 0, 0, 0, 0, 0, 0, 0, 0, 0xff, 0xff]

/-- Go `IP.To16`: 4-byte addresses are widened, 16-byte addresses kept, anything else is nil. -/
def To16 (ip : List Nat) : List Nat :=
  if ip.length = 4 then v4InV6Header ++ ip
  else if ip.length = 16 then ip
  else []

/-- Go `IP.To4`: the 4-byte form of an IPv4 or IPv4-mapped address, nil otherwise. -/
def To4 (ip : List Nat) : List Nat :=
  if ip.length = 4 then ip
  else if ip.length = 16 ∧ ip.take 12 = v4InV6Header then ip.drop 12
  else []

/-- Inner loop of `simpleMaskLength`: counts the leading one bits of a byte by
shifting it left; returns the count and what is left of the byte. -/
def countOnes : Nat → Nat → Nat × Nat
  | 0, v => (0, v)
  | fuel + 1, v =>
    if v / 128 % 2 = 1 then
      let r := countOnes fuel (v * 2 % 256)
      (r.1 + 1, r.2)
    else (0, v)

/-- Go `simpleMaskLength`: the number of leading ones of a mask made of ones
followed by zeros; `none` stands for the result `-1`. -/
def simpleMaskLength : List Nat → Option Nat
  | [] => some 0
  | v :: rest =>
    if v = 0xff then (simpleMaskLength rest).map (· + 8)
    else
      let r := countOnes 8 v
      if r.2 ≠ 0 then none
      else if rest.all (· == 0) then some r.1
      else none

/-- Go `IPMask.Size`: `(ones, bits)`, or `(0, 0)` for a mask that is not canonical. -/
def Size (m : List Nat) : Nat × Nat :=
  match simpleMaskLength m with
  | none => (0, 0)
  | some ones => (ones, m.length * 8)

/-- The byte loop of `CIDRMask`: `l` bytes holding `n` leading one bits. -/
def cidrBytes : Nat → Nat → List Nat
  | 0, _ => []
  | l + 1, n =>
    if 8 ≤ n then 0xff :: cidrBytes l (n - 8)
    else (255 - 255 / 2 ^ n) :: cidrBytes l 0

/-- Go `net.CIDRMask`; nil unless `bits` is 32 or 128 and `ones ≤ bits`. -/
def CIDRMask (ones bits : Nat) : List Nat :=
  if bits ≠ 32 ∧ bits ≠ 128 then []
  else if bits < ones then []
  else cidrBytes (bits / 8) ones

/-- One decimal digit. -/
def digitChar (d : Nat) : Char := Char.ofNat (48 + d)

/-- Digits of `n`, most significant first, in front of `acc`. -/
def uitoaAux : Nat → Nat → Str → Str
  | 0, _, acc => acc
  | fuel + 1, n, acc =>
    if n < 10 then digitChar n :: acc
    else uitoaAux fuel (n / 10) (digitChar (n % 10) :: acc)

/-- Go `uitoa` / `strconv.Itoa` on a non-negative number. -/
def uitoa (n : Nat) : Str := uitoaAux (n + 1) n []

/-- One lower-case hexadecimal digit. -/
def hexDigit (d : Nat) : Char :=
  if d < 10 then Char.ofNat (48 + d) else Char.ofNat (87 + d)

/-- Go `hexString`: two lower-case hex digits per byte. -/
def hexString (b : List Nat) : Str :=
  b.flatMap (fun v => [hexDigit (v / 16 % 16), hexDigit (v % 16)])

/-- Dotted-quad text of a 4-byte address. -/
def string4 (ip : List Nat) : Str :=
  uitoa (ip.getD 0 0) ++ ['.'] ++ uitoa (ip.getD 1 0) ++ ['.'] ++ uitoa (ip.getD 2 0)
    ++ ['.'] ++ uitoa (ip.getD 3 0)

/-- The eight 16-bit groups of a 16-byte address. -/
def groups16 : List Nat → List Nat
  | hi :: lo :: rest => (hi * 256 + lo) :: groups16 rest
  | _ => []

/-- Go `appendHex`: a 16-bit group in hex without leading zeros. -/
def appendHex (x : Nat) : Str :=
  let ds := [x / 4096 % 16, x / 256 % 16, x / 16 % 16, x % 16].dropWhile (· == 0)
  if ds = [] then ['0'] else ds.map hexDigit

/-- Number of zero groups at the head of a group list. -/
def zeroRun : List Nat → Nat
  | 0 :: rest => zeroRun rest + 1
  | _ => 0

/-- First loop of `appendTo6`: the longest run of at least two zero groups,
the leftmost one on ties, as `(zeroStart, zeroEnd)`; `(255, 255)` when there is none. -/
def bestZeroRun : List Nat → Nat → Nat × Nat → Nat × Nat
  | [], _, best => best
  | g :: gs, i, best =>
    let l := zeroRun (g :: gs)
    bestZeroRun gs (i + 1) (if 2 ≤ l ∧ best.2 - best.1 < l then (i, i + l) else best)

/-- Second loop of `appendTo6`: prints the groups from index `i` on. -/
def emit6 (groups : List Nat) (zs ze : Nat) : Nat → Nat → Str
  | 0, _ => []
  | fuel + 1, i =>
    if 8 ≤ i then []
    else if i = zs then
      if 8 ≤ ze then [':', ':']
      else [':', ':'] ++ appendHex (groups.getD ze 0) ++ emit6 groups zs ze fuel (ze + 1)
    else
      (if 0 < i then [':'] else []) ++ appendHex (groups.getD i 0) ++ emit6 groups zs ze fuel (i + 1)

/-- Text of a 16-byte address that is not IPv4-mapped. -/
def string6 (ip : List Nat) : Str :=
  let gs := groups16 ip
  let z := bestZeroRun gs 0 (255, 255)
  emit6 gs z.1 z.2 9 0

/-- Go `IP.String`. -/
def ipString (ip : List Nat) : Str :=
  if ip.length = 0 then "<nil>".toList
  else if ip.length ≠ 4 ∧ ip.length ≠ 16 then '?' :: hexString ip
  else if (To4 ip).length = 4 then string4 (To4 ip)
  else string6 ip

/-- Go `IPMask.String`. -/
def maskString (m : List Nat) : Str :=
  if m.length = 0 then "<nil>".toList else hexString m

/-- Go `networkNumberAndMask`; `none` stands for the pair of nils. -/
def networkNumberAndMask (n : IPNet) : Option (List Nat × List Nat) :=
  let ip := if To4 n.IP = [] then n.IP else To4 n.IP
  if To4 n.IP = [] ∧ ip.length ≠ 16 then none
  else if n.Mask.length = 4 then
    if ip.length ≠ 4 then none else some (ip, n.Mask)
  else if n.Mask.length = 16 then
    if ip.length = 4 then some (ip, n.Mask.drop 12) else some (ip, n.Mask)
  else none

/-- Go `(*IPNet).String`: the CIDR text of a network. -/
def IPNet.String (n : IPNet) : Str :=
  match networkNumberAndMask n with
  | none => "<nil>".toList
  | some (nn, m) =>
    match simpleMaskLength m with
    | none => ipString nn ++ ['/'] ++ maskString m
    | some l => ipString nn ++ ['/'] ++ uitoa l

/-- An ASCII decimal digit. -/
def isDigit (c : Char) : Bool := 48 ≤ c.toNat && c.toNat ≤ 57

/-- An ASCII hexadecimal digit. -/
def isHex (c : Char) : Bool :=
  isDigit c || (97 ≤ c.toNat && c.toNat ≤ 102) || (65 ≤ c.toNat && c.toNat ≤ 70)

/-- Value of a hexadecimal digit. -/
def hexVal (c : Char) : Nat :=
  if isDigit c then c.toNat - 48
  else if 97 ≤ c.toNat then c.toNat - 87
  else c.toNat - 55

/-- Go `parseIPv4Fields`: four decimal fields of at most 255 without leading
zeros, separated by single dots. `val`, `pos`, `digLen` are the loop variables,
`first` says that the loop is at index 0, `prevDot` that the previous byte was a
dot, `acc` holds the finished fields in reverse. -/
def parseIPv4Fields : Str → Nat → Nat → Nat → Bool → Bool → List Nat → Option (List Nat)
  | [], val, pos, _, _, _, acc => if pos < 3 then none else some (val :: acc).reverse
  | c :: cs, val, pos, digLen, first, prevDot, acc =>
    if isDigit c then
      if digLen = 1 ∧ val = 0 then none
      else if 255 < val * 10 + (c.toNat - 48) then none
      else parseIPv4Fields cs (val * 10 + (c.toNat - 48)) pos (digLen + 1) false false acc
    else if c = '.' then
      if first ∨ cs = [] ∨ prevDot then none
      else if pos = 3 then none
      else parseIPv4Fields cs 0 (pos + 1) 0 false true (val :: acc)
    else none

/-- Go `parseIPv4`. -/
def parseIPv4 (s : Str) : Option (List Nat) := parseIPv4Fields s 0 0 0 true false []

/-- The hex-number scan at the head of each round of `parseIPv6`: returns the
number of digits, their value and the text after them; `none` when a group has
more than four digits. -/
def scanHex : Str → Nat → Nat → Option (Nat × Nat × Str)
  | [], off, acc => some (off, acc, [])
  | c :: cs, off, acc =>
    if isHex c then
      if 3 < off then none
      else if 65535 < acc * 16 + hexVal c then none
      else scanHex cs (off + 1) (acc * 16 + hexVal c)
    else some (off, acc, c :: cs)

/-- The main loop of Go `parseIPv6`. `ip` holds the bytes written so far (the
loop index `i` is its length), `ellipsis` the position of `::` if seen. Returns
the unread text, the bytes and the ellipsis when the loop ends. -/
def parseIPv6Loop : Nat → Str → List Nat → Option Nat → Option (Str × List Nat × Option Nat)
  | 0, s, ip, ellipsis => some (s, ip, ellipsis)
  | fuel + 1, s, ip, ellipsis =>
    if 16 ≤ ip.length then some (s, ip, ellipsis)
    else
      match scanHex s 0 0 with
      | none => none
      | some (off, acc, rest) =>
        if off = 0 then none
        else if rest.head? = some '.' then
          if ellipsis = none ∧ ip.length ≠ 12 then none
          else if 16 < ip.length + 4 then none
          else
            match parseIPv4 s with
            | none => none
            | some v4 => some ([], ip ++ v4, ellipsis)
        else
          let ip2 := ip ++ [acc / 256, acc % 256]
          match rest with
          | [] => some ([], ip2, ellipsis)
          | c :: rest1 =>
            if c ≠ ':' then none
            else
              match rest1 with
              | [] => none
              | c1 :: rest2 =>
                if c1 = ':' then
                  if ellipsis ≠ none then none
                  else if rest2 = [] then some ([], ip2, some ip2.length)
                  else parseIPv6Loop fuel rest2 ip2 (some ip2.length)
                else parseIPv6Loop fuel rest1 ip2 ellipsis

/-- What `parseIPv6` does after its loop: all text must be used, and a short
address is filled with zeros at the ellipsis. -/
def finishIPv6 : Str × List Nat × Option Nat → Option (List Nat)
  | (s, ip, ellipsis) =>
    if s ≠ [] then none
    else if ip.length < 16 then
      match ellipsis with
      | none => none
      | some e => some (ip.take e ++ List.replicate (16 - ip.length) 0 ++ ip.drop e)
    else if ellipsis ≠ none then none
    else some ip

/-- Go `parseIPv6`, for the callers `net.ParseIP` and `net.ParseCIDR`, which
reject every address that carries a zone: text with a `%` gives `none`. -/
def parseIPv6 (s : Str) : Option (List Nat) :=
  if '%' ∈ s then none
  else
    match s with
    | ':' :: ':' :: rest =>
      if rest = [] then some (List.replicate 16 0)
      else (parseIPv6Loop 9 rest [] (some 0)).bind finishIPv6
    | _ => (parseIPv6Loop 9 s [] none).bind finishIPv6

/-- Go `netip.ParseAddr` restricted to addresses without zone: the first of
`.`, `:` and `%` in the text selects the syntax. The result is the 16-byte
form together with the flag telling that the text was dotted IPv4. -/
def ParseAddr (s : Str) : Option (Bool × List Nat) :=
  match s.find? (fun c => c = '.' || c = ':' || c = '%') with
  | some '.' => (parseIPv4 s).map (fun b => (true, v4InV6Header ++ b))
  | some ':' => (parseIPv6 s).map (fun b => (false, b))
  | _ => none

/-- Go `net.ParseIP`: the 16-byte form of the address, `none` for nil. -/
def ParseIP (s : Str) : Option (List Nat) := (ParseAddr s).map (·.2)

/-- Value of a string of decimal digits. -/
def decimalValue (s : Str) : Nat := s.foldl (fun n c => n * 10 + (c.toNat - 48)) 0

/-- Go `IP.Mask`: the address with the mask applied, nil when the lengths do not fit. -/
def applyMask (ip mask : List Nat) : List Nat :=
  let mask1 := if mask.length = 16 ∧ ip.length = 4 ∧ mask.take 12 = List.replicate 12 0xff
    then mask.drop 12 else mask
  let ip1 := if mask1.length = 4 ∧ ip.length = 16 ∧ ip.take 12 = v4InV6Header
    then ip.drop 12 else ip
  if ip1.length ≠ mask1.length then []
  else List.zipWith (fun a b => Nat.land a b) ip1 mask1

/-- Go `net.ParseCIDR`, second result: the network of `addr/len`. The length is
a non-empty string of digits with value at most 32 for dotted IPv4 text and at
most 128 otherwise. -/
def ParseCIDR (s : Str) : Option IPNet :=
  if '/' ∉ s then none
  else
    let addr := s.takeWhile (· ≠ '/')
    let mask := (s.dropWhile (· ≠ '/')).drop 1
    match ParseAddr addr with
    | none => none
    | some (is4, ip16) =>
      let bitLen := if is4 then 32 else 128
      if mask = [] ∨ ¬ mask.all isDigit ∨ bitLen < decimalValue mask then none
      else
        let m := CIDRMask (decimalValue mask) bitLen
        some ⟨applyMask ip16 m, m⟩

end net

/-! ## Packages `strconv` and `strings` -/

/-- Go `strconv.ParseUint(s, 10, 16)`: a non-empty string of decimal digits
with value at most 65535; `none` for every error. -/
def ParseUint16 (s : Str) : Option Nat :=
  if s = [] ∨ ¬ s.all net.isDigit then none
  else if 65535 < net.decimalValue s then none
  else some (net.decimalValue s)

/-- Go `strconv.Atoi` on a 64-bit platform: an optional sign and a non-empty
string of decimal digits, the value fitting in an `int64`. -/
def Atoi (s : Str) : Option Int :=
  let neg := s.head? = some '-'
  let digits := if s.head? = some '-' ∨ s.head? = some '+' then s.drop 1 else s
  if digits = [] ∨ ¬ digits.all net.isDigit then none
  else if neg then
    if 2 ^ 63 < net.decimalValue digits then none else some (- (net.decimalValue digits : Int))
  else
    if 2 ^ 63 ≤ net.decimalValue digits then none else some (net.decimalValue digits : Int)

/-- Go `unicode.IsSpace`. -/
def isSpace (c : Char) : Bool :=
  let n := c.toNat
  (9 ≤ n && n ≤ 13) || n = 32 || n = 0x85 || n = 0xA0 || n = 0x1680
    || (0x2000 ≤ n && n ≤ 0x200a) || n = 0x2028 || n = 0x2029 || n = 0x202f
    || n = 0x205f || n = 0x3000

/-- Worker of `Fields`; `cur` is the field being read, reversed. -/
def fieldsAux : Str → Str → List Str
  | [], cur => if cur = [] then [] else [cur.reverse]
  | c :: cs, cur =>
    if isSpace c then
      if cur = [] then fieldsAux cs [] else cur.reverse :: fieldsAux cs []
    else fieldsAux cs (c :: cur)

/-- Go `strings.Fields`: the maximal runs of non-space characters. -/
def Fields (s : Str) : List Str := fieldsAux s []

/-- Go `strings.HasPrefix`. -/
def startsWith (s pre : Str) : Bool := pre.isPrefixOf s

/-! ## Go maps and `sort.Slice` -/

section GoMap

variable {K V : Type} [DecidableEq K]

/-- Map lookup `m[k]`; `none` when the key is absent. -/
def mapGet : List (K × V) → K → Option V
  | [], _ => none
  | (k1, v) :: rest, k => if k1 = k then some v else mapGet rest k

/-- Map assignment `m[k] = v`: replaces the binding of `k` or adds one. -/
def mapSet : List (K × V) → K → V → List (K × V)
  | [], k, v => [(k, v)]
  | (k1, v1) :: rest, k, v => if k1 = k then (k, v) :: rest else (k1, v1) :: mapSet rest k v

/-- Worker of `rangeMap`: drops the pairs whose key was already seen. -/
def rangeAux : List K → List (K × V) → List (K × V)
  | _, [] => []
  | seen, (k, v) :: rest =>
    if k ∈ seen then rangeAux seen rest else (k, v) :: rangeAux (k :: seen) rest

/-- The bindings of a map (one per key, the one `mapGet` finds), in the order of
the association list. -/
def rangeMap (m : List (K × V)) : List (K × V) := rangeAux [] m

end GoMap

/-- Go `sort.Slice(l, less)` on a list that has already been put in the order
in which the sort will leave equal elements: a stable insertion sort. -/
def sortSlice {α : Type} (less : α → α → Bool) (l : List α) : List α :=
  l.insertionSort (fun a b => less b a = false)

/-- Go `<` on strings. -/
def strLess : Str → Str → Bool
  | [], [] => false
  | [], _ :: _ => true
  | _ :: _, [] => false
  | a :: as, b :: bs =>
    if a.toNat < b.toNat then true
    else if b.toNat < a.toNat then false
    else strLess as bs

/-! ## `internal/config/configfile.go`: data model -/

/-- Section type `GLOBAL`. -/
def GLOBAL : Nat := 0
/-- Section type `GROUP`. -/
def GROUP : Nat := 1
/-- Section type `USER`. -/
def USER : Nat := 2

/-- Flag value `NOT_SET`. -/
def NOT_SET : Nat := 0
/-- Flag value `OFF`. -/
def OFF : Nat := 1
/-- Flag value `ON`. -/
def ON : Nat := 2
/-- Flag value `ALL`. -/
def ALL : Nat := 3

/-- Go `Route`; ports are `uint16` values. -/
structure Route where
  Network : net.IPNet
  Ports : List Nat
deriving DecidableEq, Repr

/-- Go `Subnet`. -/
structure Subnet where
  Name : Str
  Ports : List Nat
deriving DecidableEq, Repr

/-- Go `SectionConfig`; the field `Type` of the source is called `Kind` here. -/
structure SectionConfig where
  Kind : Nat
  Name : Str
  Order : Nat
  Subnets : List Subnet
  Routes : List Route
  NATRoutes : List Route
  NATSetting : Nat
  DNSSetting : Nat
deriving DecidableEq, Repr

/-- Go `ConfigFile`; `WatchTime` in nanoseconds. -/
structure ConfigFile where
  WatchTime : Option Int
  Network : Option net.IPNet
  Route53Zone : Str
  DomainName : Str
  Route53Weighted : Bool
  KeyStrength : Int
  GlobalConfig : SectionConfig
  Groups : List (Str × SectionConfig)
  Users : List (Str × SectionConfig)
deriving DecidableEq, Repr

/-- Go `NetworkInfo` of `backend.go`. -/
structure NetworkInfo where
  Subnets : List (Str × net.IPNet)
  NAT : List net.IPNet
deriving DecidableEq, Repr

/-- Go `UserRoute`. -/
structure UserRoute where
  Network : net.IPNet
  Ports : List Nat
deriving DecidableEq, Repr

/-- Go `UserConfig`. -/
structure UserConfig where
  DNSSetting : Nat
  Routes : List UserRoute
deriving DecidableEq, Repr

/-- Go `networkKey`: the 16-byte address, `size` the bits of the mask length
(32 or 128) and `mask` the number of leading ones. -/
structure networkKey where
  ip : List Nat
  size : Nat
  mask : Nat
deriving DecidableEq, Repr

/-- An error value: the line it is reported for and its message. The messages
of the parser are given without the position and the text they quote; the
messages of `GetUserConfig` and `authenticateUser` are the text of the source,
built by `Errorf`. -/
structure Error where
  line : Nat
  msg : String
deriving DecidableEq, Repr

/-- Go `fmt.Errorf` for an error without a line: the formatted text is given. -/
def Errorf (text : Str) : Error := ⟨0, String.mk text⟩

/-! ## `internal/config/parser.go` -/

/-- Go `Parser` without its reader. -/
structure Parser where
  sectionType : Str
  sectionName : Str
  line : Nat
deriving DecidableEq, Repr

/-- Go `ConfigStatement`. -/
structure ConfigStatement where
  SectionType : Str
  SectionName : Str
  Word : Str
  Fields : List Str
  Line : Nat
deriving DecidableEq, Repr

/-- The lines `ReadString` returns without error before the end of the input:
the text before each line feed. Text after the last line feed is returned
together with `io.EOF` and is not among them. `cur` is the line being read,
reversed. -/
def readLinesAux : Str → Str → List Str
  | [], _ => []
  | c :: cs, cur =>
    if c = Char.ofNat 10 then cur.reverse :: readLinesAux cs []
    else readLinesAux cs (c :: cur)

/-- The lines offered to `Parser.Read` by the reader. -/
def readLines (text : Str) : List Str := readLinesAux text []

/-- Outcome of one round of the loop of `Parser.Read`. -/
inductive Step where
  | skip (p : Parser)
  | fail (p : Parser) (e : Error)
  | stmt (p : Parser) (s : ConfigStatement)
deriving DecidableEq, Repr

/-- One round of the loop of `Parser.Read` on a line that was read without
error: an empty line is skipped, an indented line is a statement of the current
section, any other line opens a section. -/
def Parser.step (p : Parser) (raw : Str) : Step :=
  let p1 : Parser := ⟨p.sectionType, p.sectionName, p.line + 1⟩
  let line := raw.takeWhile (· ≠ '#')
  match Fields line with
  | [] => .skip p1
  | f0 :: fs =>
    if line.head? = some ' ' ∨ line.head? = some (Char.ofNat 9) then
      if p1.sectionType = [] then .fail p1 ⟨p1.line, "illegal line outside section"⟩
      else .stmt p1 ⟨p1.sectionType, p1.sectionName, f0, fs, p1.line⟩
    else if f0 = "global".toList then
      .stmt ⟨"global".toList, [], p1.line⟩ ⟨"global".toList, [], [], [], p1.line⟩
    else
      match fs with
      | [name] => .stmt ⟨f0, name, p1.line⟩ ⟨f0, name, [], [], p1.line⟩
      | _ => .fail p1 ⟨p1.line, "illegal section declaration"⟩

/-! ## `internal/config/configfile.go`: parsing -/

/-- Go `parsePorts`. -/
def parsePorts (line : Nat) : List Str → Except Error (List Nat)
  | [] => .ok []
  | portStr :: rest =>
    match ParseUint16 portStr with
    | none => .error ⟨line, "unable to parse port number"⟩
    | some port =>
      match parsePorts line rest with
      | .error e => .error e
      | .ok ports => .ok (port :: ports)

/-- Go `parseRoute`. -/
def parseRoute (stmt : ConfigStatement) : Except Error Route :=
  match stmt.Fields with
  | [] => .error ⟨stmt.Line, "must have at least one argument"⟩
  | netString :: rest =>
    let network : Option net.IPNet :=
      if '/' ∉ netString then (net.ParseIP netString).map (fun ip => ⟨ip, net.CIDRMask 32 32⟩)
      else net.ParseCIDR netString
    match network with
    | none => .error ⟨stmt.Line, "cannot parse net"⟩
    | some n =>
      match parsePorts stmt.Line rest with
      | .error e => .error e
      | .ok ports => .ok ⟨n, ports⟩

/-- Go `parseSection`: the section after the statement and the error returned.
The section is unchanged whenever an error is returned. -/
def parseSection (sec : SectionConfig) (stmt : ConfigStatement) : SectionConfig × Option Error :=
  if startsWith stmt.Word "subnet-".toList || startsWith stmt.Word "pcx-".toList then
    match parsePorts stmt.Line stmt.Fields with
    | .error e => (sec, some e)
    | .ok ports => ({ sec with Subnets := sec.Subnets ++ [⟨stmt.Word, ports⟩] }, none)
  else if stmt.Word = "nat".toList then
    match stmt.Fields with
    | [] => (sec, some ⟨stmt.Line, "nat must have at least one argument"⟩)
    | f0 :: rest =>
      if f0 = "on".toList then
        if rest ≠ [] then (sec, some ⟨stmt.Line, "nat cannot have arguments after on"⟩)
        else ({ sec with NATSetting := ALL }, none)
      else if f0 = "off".toList then
        if rest ≠ [] then (sec, some ⟨stmt.Line, "nat cannot have arguments after off"⟩)
        else ({ sec with NATSetting := OFF }, none)
      else
        match parseRoute stmt with
        | .error e => (sec, some e)
        | .ok route => ({ sec with NATSetting := ON, NATRoutes := sec.NATRoutes ++ [route] }, none)
  else if stmt.Word = "route".toList then
    match parseRoute stmt with
    | .error e => (sec, some e)
    | .ok route => ({ sec with Routes := sec.Routes ++ [route] }, none)
  else if stmt.Word = "dns".toList then
    match stmt.Fields with
    | [f0] =>
      if f0 = "on".toList then ({ sec with DNSSetting := ON }, none)
      else if f0 = "off".toList then ({ sec with DNSSetting := OFF }, none)
      else (sec, some ⟨stmt.Line, "dns setting must be on or off"⟩)
    | _ => (sec, some ⟨stmt.Line, "dns must have exactly one argument"⟩)
  else (sec, none)

/-- Go `parseGlobal`: `isglobal` and the configuration after the statement, or
the error. The parameter `parseDuration` stands for `time.ParseDuration`, which
computes with floating point numbers and is not modelled. -/
def parseGlobal (parseDuration : Str → Option Int) (configFile : ConfigFile)
    (stmt : ConfigStatement) : Except Error (Bool × ConfigFile) :=
  if stmt.Word = "watch".toList then
    match stmt.Fields with
    | [f0] =>
      match parseDuration f0 with
      | none => .error ⟨stmt.Line, "cannot parse watch duration"⟩
      | some watchTime => .ok (true, { configFile with WatchTime := some watchTime })
    | _ => .error ⟨stmt.Line, "watch must have exactly one argument"⟩
  else if stmt.Word = "net".toList then
    match stmt.Fields with
    | [netString] =>
      if '/' ∉ netString then
        match net.ParseIP netString with
        | none => .error ⟨stmt.Line, "cannot parse net"⟩
        | some ip => .ok (true, { configFile with Network := some ⟨ip, net.CIDRMask 24 32⟩ })
      else
        match net.ParseCIDR netString with
        | none => .error ⟨stmt.Line, "cannot parse net"⟩
        | some n => .ok (true, { configFile with Network := some n })
    | _ => .error ⟨stmt.Line, "net must have exactly one argument"⟩
  else if stmt.Word = "route53".toList then
    match stmt.Fields with
    | [zone, name] => .ok (true, { configFile with Route53Zone := zone, DomainName := name })
    | [zone, name, mode] =>
      if mode = "weighted".toList then
        .ok (true, { configFile with Route53Zone := zone, DomainName := name, Route53Weighted := true })
      else if mode ≠ "simple".toList then .error ⟨stmt.Line, "invalid route53 entry type"⟩
      else .ok (true, { configFile with Route53Zone := zone, DomainName := name })
    | _ => .error ⟨stmt.Line, "route53 must have 2 or 3 arguments"⟩
  else if stmt.Word = "key-strength".toList then
    match stmt.Fields with
    | [f0] =>
      match Atoi f0 with
      | none => .error ⟨stmt.Line, "invalid key-strength"⟩
      | some strength => .ok (true, { configFile with KeyStrength := strength })
    | _ => .error ⟨stmt.Line, "key-strength must have exactly 1 argument"⟩
  else .ok (false, configFile)

/-- The body of the loop of `ParseConfig` for one statement: the configuration
after it and the value left in the variable `err`, or the error with which
`ParseConfig` returns from inside the loop. -/
def parseStatement (parseDuration : Str → Option Int) (configFile : ConfigFile)
    (stmt : ConfigStatement) : Except Error (ConfigFile × Option Error) :=
  if stmt.SectionType = "global".toList then
    match parseGlobal parseDuration configFile stmt with
    | .error e => .error e
    | .ok (true, configFile1) => .ok (configFile1, none)
    | .ok (false, configFile1) =>
      let r := parseSection configFile1.GlobalConfig stmt
      .ok ({ configFile1 with GlobalConfig := r.1 }, r.2)
  else if stmt.SectionType = "group".toList then
    let sec : SectionConfig :=
      match mapGet configFile.Groups stmt.SectionName with
      | some sec => sec
      | none => ⟨GROUP, stmt.SectionName, configFile.Groups.length, [], [], [], NOT_SET, NOT_SET⟩
    let r := parseSection sec stmt
    .ok ({ configFile with Groups := mapSet configFile.Groups stmt.SectionName r.1 }, r.2)
  else if stmt.SectionType = "user".toList then
    let sec : SectionConfig :=
      match mapGet configFile.Users stmt.SectionName with
      | some sec => sec
      | none => ⟨USER, stmt.SectionName, 0, [], [], [], NOT_SET, NOT_SET⟩
    let r := parseSection sec stmt
    .ok ({ configFile with Users := mapSet configFile.Users stmt.SectionName r.1 }, r.2)
  else .error ⟨stmt.Line, "unrecognized section type"⟩

/-- The loop of `ParseConfig` over the lines of the reader, with the loop of
`Parser.Read` unfolded into it. `Read` assigns the variable `err` at the start
of every round, so the value `parseStatement` left in it is overwritten; when
the lines are used up `Read` returns no statement and no error. -/
def parseLoop (parseDuration : Str → Option Int) :
    Parser → ConfigFile → List Str → Except Error (Parser × ConfigFile)
  | p, configFile, [] => .ok (⟨p.sectionType, p.sectionName, p.line + 1⟩, configFile)
  | p, configFile, l :: ls =>
    match p.step l with
    | .skip p1 => parseLoop parseDuration p1 configFile ls
    | .fail _ e => .error e
    | .stmt p1 stmt =>
      match parseStatement parseDuration configFile stmt with
      | .error e => .error e
      | .ok (configFile1, _) => parseLoop parseDuration p1 configFile1 ls

/-- The configuration `ParseConfig` starts from. -/
def emptyConfig : ConfigFile :=
  ⟨none, none, [], [], false, 0, ⟨GLOBAL, [], 0, [], [], [], NOT_SET, NOT_SET⟩, [], []⟩

/-- Go `ParseConfig` on a reader that delivers `text` without read error. -/
def ParseConfig (parseDuration : Str → Option Int) (text : Str) : Except Error ConfigFile :=
  match parseLoop parseDuration ⟨[], [], 0⟩ emptyConfig (readLines text) with
  | .error e => .error e
  | .ok r => .ok r.2

/-! ## `internal/config/configfile.go`: resolving a user -/

/-- The orders Go leaves open in `GetUserConfig`: how `sort.Slice` arranges the
sections before sorting them (it is not stable), and in which order `range`
visits the route map, the port set of each route and the subnet map. -/
structure MapOrder where
  sections : List SectionConfig → List SectionConfig
  routes : List (networkKey × List Nat) → List (networkKey × List Nat)
  ports : networkKey → List Nat → List Nat
  subnets : List (Str × net.IPNet) → List (Str × net.IPNet)

/-- Every order of a `MapOrder` only rearranges what it is given. -/
structure MapOrder.Valid (ord : MapOrder) : Prop where
  sections : ∀ l, (ord.sections l).Perm l
  routes : ∀ l, (ord.routes l).Perm l
  ports : ∀ k l, (ord.ports k l).Perm l
  subnets : ∀ l, (ord.subnets l).Perm l

/-- The order that visits every map in insertion order. -/
def insertionOrder : MapOrder := ⟨id, id, fun _ l => l, id⟩

/-- Go `toNetworkKey`. -/
def toNetworkKey (network : net.IPNet) : networkKey :=
  let ip16 := net.To16 network.IP
  ⟨if ip16 = [] then List.replicate 16 0 else ip16, (net.Size network.Mask).2,
    (net.Size network.Mask).1⟩

/-- Go `toIPNet`. -/
def toIPNet (network : networkKey) : net.IPNet :=
  ⟨network.ip, net.CIDRMask network.mask network.size⟩

/-- The loop `for _, port := range ports { currentPorts[port] = true }` on a
port set kept as a duplicate-free list. -/
def addPorts (currentPorts : List Nat) (ports : List Nat) : List Nat :=
  ports.foldl (fun cur port => if port ∈ cur then cur else cur ++ [port]) currentPorts

/-- Go `addRoute`. -/
def addRoute (network : net.IPNet) (ports : List Nat)
    (routes : List (networkKey × List Nat)) : List (networkKey × List Nat) :=
  match mapGet routes (toNetworkKey network) with
  | none => mapSet routes (toNetworkKey network) (addPorts [] ports)
  | some currentPorts => mapSet routes (toNetworkKey network) (addPorts currentPorts ports)

/-- The body of `for _, route := range section.Routes` in `GetUserConfig`:
`addRoute`, then the same insertion once more. -/
def walkRoute (routes : List (networkKey × List Nat)) (route : Route) :
    List (networkKey × List Nat) :=
  let routes1 := addRoute route.Network route.Ports routes
  match mapGet routes1 (toNetworkKey route.Network) with
  | none => mapSet routes1 (toNetworkKey route.Network) (addPorts [] route.Ports)
  | some ports => mapSet routes1 (toNetworkKey route.Network) (addPorts ports route.Ports)

/-- The body of `for _, subnet := range section.Subnets` in `GetUserConfig`. -/
def walkSubnet (netinfo : NetworkInfo) (routes : List (networkKey × List Nat))
    (subnet : Subnet) : List (networkKey × List Nat) :=
  match mapGet netinfo.Subnets subnet.Name with
  | some network => addRoute network subnet.Ports routes
  | none => routes

/-- The local variables of `GetUserConfig` that its section loop updates. -/
structure Walk where
  dns : Nat
  nat : Nat
  natRoutes : List Route
  routes : List (networkKey × List Nat)
  allSubnets : Bool
deriving DecidableEq, Repr

/-- The body of `for _, section := range sections` in `GetUserConfig`. -/
def walkSection (netinfo : NetworkInfo) (w : Walk) (sec : SectionConfig) : Walk :=
  { dns := if sec.DNSSetting ≠ NOT_SET then sec.DNSSetting else w.dns
    nat := if sec.NATSetting ≠ NOT_SET then sec.NATSetting else w.nat
    natRoutes := w.natRoutes ++ sec.NATRoutes
    routes := sec.Subnets.foldl (walkSubnet netinfo) (sec.Routes.foldl walkRoute w.routes)
    allSubnets := if sec.Subnets.length ≠ 0 then false else w.allSubnets }

/-- The comparison `GetUserConfig` sorts the sections with. -/
def sectionLess (a b : SectionConfig) : Bool :=
  if a.Kind ≠ b.Kind then decide (a.Kind < b.Kind) else decide (a.Order < b.Order)

/-- The slice `sections` of `GetUserConfig` before it is sorted: the global
section and the sections of the groups of the list that the policy has. -/
def groupSections (config : ConfigFile) (groups : List Str) : List SectionConfig :=
  config.GlobalConfig :: groups.filterMap (mapGet config.Groups)

/-- The slice `sections` of `GetUserConfig` when its loop starts: sorted, with
the section of the user at the end. -/
def userSections (ord : MapOrder) (config : ConfigFile) (user : Str) (groups : List Str) :
    List SectionConfig :=
  sortSlice sectionLess (ord.sections (groupSections config groups))
    ++ (mapGet config.Users user).toList

/-- The variables of `GetUserConfig` after its section loop. -/
def walkSections (ord : MapOrder) (config : ConfigFile) (user : Str) (groups : List Str)
    (netinfo : NetworkInfo) : Walk :=
  (userSections ord config user groups).foldl (walkSection netinfo) ⟨NOT_SET, ALL, [], [], true⟩

/-- The route map of `GetUserConfig` after the NAT block (`if nat != OFF`). -/
def natBlock (netinfo : NetworkInfo) (w : Walk) : List (networkKey × List Nat) :=
  if w.nat ≠ OFF then
    w.natRoutes.foldl (fun routes route => addRoute route.Network route.Ports routes)
      (if w.nat = ALL then netinfo.NAT.foldl (fun routes network => addRoute network [] routes) w.routes
        else w.routes)
  else w.routes

/-- The route map of `GetUserConfig` when the result is built: after the NAT
block and the block `if allSubnets`. -/
def finalRoutes (ord : MapOrder) (netinfo : NetworkInfo) (w : Walk) :
    List (networkKey × List Nat) :=
  if w.allSubnets then
    (ord.subnets (rangeMap netinfo.Subnets)).foldl
      (fun routes kv => addRoute kv.2 [] routes) (natBlock netinfo w)
  else natBlock netinfo w

/-- The comparison `GetUserConfig` sorts the resulting routes with. -/
def routeLess (a b : UserRoute) : Bool :=
  strLess (net.IPNet.String a.Network) (net.IPNet.String b.Network)

/-- Go `ConfigFile.GetUserConfig`. -/
def GetUserConfig (ord : MapOrder) (config : ConfigFile) (user : Str) (groups : List Str)
    (netinfo : NetworkInfo) : Except Error UserConfig :=
  if (mapGet config.Users user).isNone ∧ (groupSections config groups).length = 1 then
    .error (Errorf ("User ".toList ++ user ++ " does not have access".toList))
  else
    let w := walkSections ord config user groups netinfo
    .ok ⟨w.dns, sortSlice routeLess
      ((ord.routes (finalRoutes ord netinfo w)).map
        (fun kv => ⟨toIPNet kv.1, ord.ports kv.1 kv.2⟩))⟩

/-! ## `internal/vpn/config.go`: authentication -/

/-- Go `userKeys`: alias to hash and hash to alias. -/
structure userKeys where
  keyById : List (Str × Str)
  keyByHash : List (Str × Str)
deriving DecidableEq, Repr

/-- The fields of Go `userManager` that `authenticateUser` uses. -/
structure userManager where
  confFile : ConfigFile
  netinfo : NetworkInfo
  users : List (Str × userKeys)
  userGroups : List (Str × List Str)
deriving DecidableEq, Repr

/-- The two calls of `ConfigurationBackend` that `authenticateUser` makes; each
returns a slice (`none` for nil) and an error (`none` for nil). -/
structure Backend where
  FetchKeys : Str → Option (List Str) × Option Error
  FetchGroupsForUser : Str → Option (List Str) × Option Error

/-- The three results of `authenticateUser`. -/
structure AuthResult where
  config : Option UserConfig
  keyId : Str
  err : Option Error
deriving DecidableEq, Repr

/-- Go `userManager.authenticateUser`, with the manager after the call. -/
def authenticateUser (ord : MapOrder) (backend : Backend) (c : userManager)
    (user keyHash : Str) : AuthResult × userManager :=
  let keyId : Str :=
    match mapGet c.users user with
    | some userInfo => (mapGet userInfo.keyByHash keyHash).getD []
    | none => []
  if keyId = [] then (⟨none, keyId, some (Errorf ("User ".toList ++ user ++ " not found".toList))⟩, c)
  else
    let fetched := backend.FetchKeys user
    if fetched.1 = none ∧ fetched.2 = none then
      (⟨none, keyId, some (Errorf ("User ".toList ++ user ++ " does not exist".toList))⟩, c)
    else if keyId ∉ fetched.1.getD [] then
      (⟨none, keyId, some (Errorf ("Key ".toList ++ keyId ++ " does not exist for user ".toList ++ user))⟩, c)
    else
      let fetchedGroups := backend.FetchGroupsForUser user
      let groups : List Str :=
        if fetchedGroups.2 ≠ none then (mapGet c.userGroups user).getD []
        else fetchedGroups.1.getD []
      let c1 : userManager :=
        if fetchedGroups.2 ≠ none then c
        else { c with userGroups := mapSet c.userGroups user (fetchedGroups.1.getD []) }
      match GetUserConfig ord c1.confFile user groups c1.netinfo with
      | .ok config => (⟨some config, keyId, none⟩, c1)
      | .error e => (⟨none, keyId, some e⟩, c1)

/-! ## `internal/config/configfile.go`: printing -/

/-- Go `strconv.Itoa` and the verb `%d` on a signed number. -/
def Itoa (n : Int) : Str :=
  if n < 0 then '-' :: net.uitoa n.natAbs else net.uitoa n.natAbs

/-- The loop of `Subnet.String` and `Route.String` that writes the ports with a
blank before every port but the first. -/
def portsString (ports : List Nat) : Str :=
  ports.foldl (fun text port => (if text ≠ [] then text ++ [' '] else text) ++ net.uitoa port) []

/-- Go `ConfigFlag.String`. -/
def ConfigFlag.String (flag : Nat) : Str :=
  if flag = NOT_SET then []
  else if flag = ON then "on".toList
  else if flag = OFF then "off".toList
  else if flag = ALL then "all".toList
  else []

/-- Go `Subnet.String`. -/
def Subnet.String (subnet : Subnet) : Str :=
  if subnet.Ports.length = 0 then subnet.Name
  else subnet.Name ++ [' '] ++ portsString subnet.Ports

/-- Go `Route.String`. -/
def Route.String (route : Route) : Str :=
  if route.Ports.length = 0 then net.IPNet.String route.Network
  else "route ".toList ++ net.IPNet.String route.Network ++ [' '] ++ portsString route.Ports

/-- Go `SectionConfig.String`. -/
def SectionConfig.String (sec : SectionConfig) : Str :=
  (if sec.Kind = GLOBAL then "global\n".toList
    else if sec.Kind = GROUP then "group ".toList ++ sec.Name ++ "\n".toList
    else if sec.Kind = USER then "user ".toList ++ sec.Name ++ "\n".toList
    else [])
  ++ (if sec.DNSSetting ≠ NOT_SET then
        "\tdns ".toList ++ ConfigFlag.String sec.DNSSetting ++ "\n".toList else [])
  ++ (if sec.NATSetting = ON ∨ sec.NATSetting = OFF then
        "\tnat ".toList ++ ConfigFlag.String sec.NATSetting ++ "\n".toList else [])
  ++ sec.Subnets.flatMap (fun subnet => "\t".toList ++ subnet.String ++ "\n".toList)
  ++ sec.NATRoutes.flatMap (fun nat => "\tnat ".toList ++ nat.String ++ "\n".toList)
  ++ sec.Routes.flatMap (fun route => "\troute ".toList ++ route.String ++ "\n".toList)

/-- Go `ConfigFile.String`. The parameter `seconds` stands for
`int(d.Seconds())`, which is computed with floating point numbers; a duration
has `Seconds() > 0` exactly when it is positive. The parameter `order` is the
order in which `range` visits the maps of the groups and of the users. -/
def ConfigFile.String (seconds : Int → Int)
    (order : List (Str × SectionConfig) → List (Str × SectionConfig))
    (config : ConfigFile) : Str :=
  config.GlobalConfig.String
  ++ (match config.WatchTime with
      | some d => if 0 < d then "\twatch ".toList ++ Itoa (seconds d) ++ "s\n".toList else []
      | none => [])
  ++ (if config.DomainName ≠ [] then
        "\troute53 ".toList ++ config.Route53Zone ++ [' '] ++ config.DomainName ++ [' ']
          ++ (if config.Route53Weighted then "weighted".toList else "simple".toList) ++ "\n".toList
      else [])
  ++ (match config.Network with
      | some network => "\tnet ".toList ++ net.IPNet.String network ++ "\n".toList
      | none => [])
  ++ (if config.KeyStrength ≠ 0 then
        "\tkey-strength ".toList ++ Itoa config.KeyStrength ++ "\n".toList else [])
  ++ (order (rangeMap config.Groups)).flatMap (fun kv => kv.2.String)
  ++ (order (rangeMap config.Users)).flatMap (fun kv => kv.2.String)

/-! ## `internal/fw/firewall.go` -/

/-- Go `FirewallRule`; the port is a `uint16`, 0 for all ports. -/
structure FirewallRule where
  Network : net.IPNet
  Port : Nat
deriving DecidableEq, Repr

/-- Go `userAddress`: the 16-byte address, `size` and `mask` as `ConnectUser`
fills them. -/
structure userAddress where
  ip : List Nat
  size : Nat
  mask : Nat
deriving DecidableEq, Repr

/-- Go `chainRule`: the 16-byte address, `size` and `mask` as `UpdateUser` fills
them, and the port. -/
structure chainRule where
  ip : List Nat
  size : Nat
  mask : Nat
  port : Nat
deriving DecidableEq, Repr

/-- Go `Firewall`. A chain of `userChains` is the slice stored for the user, an
absent user has the nil slice. The field `calls` is not in the source: it
records the argument lists of the `iptables` runs made so far. -/
structure Firewall where
  vpnInterface : Str
  wanInterface : Str
  userChains : List (Str × List chainRule)
  connections : List (userAddress × Str)
  calls : List (List Str)
deriving DecidableEq, Repr

/-- The outcome of running the `iptables` program: the error, if any, for an
argument list, given the runs made before. -/
abbrev Iptables := List (List Str) → List Str → Option Error

/-- Go `delete(m, k)`. -/
def mapDelete {K V : Type} [DecidableEq K] (m : List (K × V)) (k : K) : List (K × V) :=
  m.filter (fun kv => decide (kv.1 ≠ k))

/-- Go `iptables`: runs the program and returns its error. -/
def iptables (run : Iptables) (fw : Firewall) (a : List Str) : Firewall × Option Error :=
  ({ fw with calls := fw.calls ++ [a] }, run fw.calls a)

/-- Go `to16` of `firewall.go`: the 16-byte form in a zeroed array. -/
def to16 (ip : List Nat) : List Nat :=
  if net.To16 ip = [] then List.replicate 16 0 else net.To16 ip

/-- Go `Firewall.ConnectUser`. -/
def Firewall.ConnectUser (run : Iptables) (fw : Firewall) (user : Str) (ip : net.IPNet) :
    Firewall × Option Error :=
  let addr : userAddress := ⟨to16 ip.IP, (net.Size ip.Mask).2, (net.Size ip.Mask).1⟩
  match mapGet fw.connections addr with
  | some existingUser =>
    let r := iptables run fw ["--delete".toList, "FORWARD".toList, "--in-interface".toList,
      fw.vpnInterface, "--source".toList, net.IPNet.String ip, "--jump".toList,
      "user-".toList ++ existingUser]
    match r.2 with
    | some err => (r.1, some err)
    | none =>
      iptables run { r.1 with connections := mapSet r.1.connections addr user }
        ["--append".toList, "FORWARD".toList, "--in-interface".toList, fw.vpnInterface,
          "--source".toList, net.IPNet.String ip, "--jump".toList, "user-".toList ++ user]
  | none =>
    iptables run { fw with connections := mapSet fw.connections addr user }
      ["--append".toList, "FORWARD".toList, "--in-interface".toList, fw.vpnInterface,
        "--source".toList, net.IPNet.String ip, "--jump".toList, "user-".toList ++ user]

/-- Go `Firewall.DisconnectUser`. -/
def Firewall.DisconnectUser (run : Iptables) (fw : Firewall) (user : Str) (ip : net.IPNet) :
    Firewall × Option Error :=
  let addr : userAddress := ⟨to16 ip.IP, (net.Size ip.Mask).2, (net.Size ip.Mask).1⟩
  if (mapGet fw.connections addr).getD [] = user then
    iptables run { fw with connections := mapDelete fw.connections addr }
      ["--delete".toList, "FORWARD".toList, "--in-interface".toList, fw.vpnInterface,
        "--source".toList, net.IPNet.String ip, "--jump".toList, "user-".toList ++ user]
  else (fw, none)

/-- Go `Firewall.createChain`. -/
def Firewall.createChain (run : Iptables) (fw : Firewall) (chain : Str) : Firewall × Option Error :=
  iptables run fw ["--new-chain".toList, chain]

/-- Go `Firewall.dropChain`. -/
def Firewall.dropChain (run : Iptables) (fw : Firewall) (chain : Str) : Firewall × Option Error :=
  let r := iptables run fw ["--flush".toList, chain]
  match r.2 with
  | some err => (r.1, some err)
  | none => iptables run r.1 ["--delete-chain".toList, chain]

/-- The text of the network of a chain rule, as `addRule` and `replaceRule` build it. -/
def chainRule.network (rule : chainRule) : Str :=
  net.IPNet.String ⟨rule.ip, net.CIDRMask rule.size rule.mask⟩

/-- Go `Firewall.addRule`. -/
def Firewall.addRule (run : Iptables) (fw : Firewall) (chain : Str) (rule : chainRule) :
    Firewall × Option Error :=
  if rule.port = 0 then
    iptables run fw ["--append".toList, chain, "--destination".toList, rule.network,
      "--in-interface".toList, fw.vpnInterface, "--match".toList, "conntrack".toList,
      "--ctstate".toList, "NEW".toList, "--jump".toList, "ACCEPT".toList]
  else
    iptables run fw ["--append".toList, chain, "--destination".toList, rule.network,
      "--in-interface".toList, fw.vpnInterface, "--protocol".toList, "tcp".toList,
      "--match".toList, "tcp".toList, "--dport".toList, net.uitoa rule.port,
      "--match".toList, "conntrack".toList, "--ctstate".toList, "NEW".toList,
      "--jump".toList, "ACCEPT".toList]

/-- Go `Firewall.deleteRule`. -/
def Firewall.deleteRule (run : Iptables) (fw : Firewall) (chain : Str) (rule : Nat) :
    Firewall × Option Error :=
  iptables run fw ["--delete".toList, chain, net.uitoa rule]

/-- Go `Firewall.replaceRule`. -/
def Firewall.replaceRule (run : Iptables) (fw : Firewall) (chain : Str) (index : Nat)
    (rule : chainRule) : Firewall × Option Error :=
  if rule.port = 0 then
    iptables run fw ["--replace".toList, chain, net.uitoa index, "--destination".toList,
      rule.network, "--in-interface".toList, fw.vpnInterface, "--match".toList,
      "conntrack".toList, "--ctstate".toList, "NEW".toList, "--jump".toList, "ACCEPT".toList]
  else
    iptables run fw ["--append".toList, chain, net.uitoa index, "--destination".toList,
      rule.network, "--in-interface".toList, fw.vpnInterface, "--protocol".toList,
      "tcp".toList, "--match".toList, "tcp".toList, "--dport".toList, net.uitoa rule.port,
      "--match".toList, "conntrack".toList, "--ctstate".toList, "NEW".toList,
      "--jump".toList, "ACCEPT".toList]

/-- The entry `UpdateUser` makes of a rule. -/
def toChainRule (rule : FirewallRule) : chainRule :=
  ⟨to16 rule.Network.IP, (net.Size rule.Network.Mask).1, (net.Size rule.Network.Mask).2, rule.Port⟩

/-- The map `chainRules` of `UpdateUser` after its first loop, as the list of
its keys. -/
def chainRuleSet (rules : List FirewallRule) : List chainRule :=
  rules.foldl (fun set rule => if toChainRule rule ∈ set then set else set ++ [toChainRule rule]) []

/-- The loop of `UpdateUser` that fills a new chain: every entry is added with
`addRule`, the first error ends the call. -/
def addRules (run : Iptables) (chain : Str) : List chainRule → Firewall → Firewall × Option Error
  | [], fw => (fw, none)
  | entry :: rest, fw =>
    let r := Firewall.addRule run fw chain entry
    match r.2 with
    | some err => (r.1, some err)
    | none => addRules run chain rest r.1

/-- The first loop of the diff path of `UpdateUser` over `current` from index
`index` on: an entry found in `chainRules` is deleted from it, the index of any
other entry is appended to `toDelete`. Returns `chainRules` and `toDelete`. -/
def markRetired : List chainRule → Nat → List chainRule → List Nat → List chainRule × List Nat
  | [], _, set, toDelete => (set, toDelete)
  | entry :: rest, index, set, toDelete =>
    if entry ∈ set then markRetired rest (index + 1) (set.erase entry) toDelete
    else markRetired rest (index + 1) set (toDelete ++ [index])

/-- The variables the second and third loop of the diff path work on. -/
structure DiffState where
  fw : Firewall
  current : List chainRule
  deletePointer : Nat
deriving DecidableEq, Repr

/-- The body of the second loop of the diff path of `UpdateUser`: an entry
takes the next retired slot if there is one and is appended otherwise. The
errors of `replaceRule` and `addRule` are not looked at. -/
def placeRule (run : Iptables) (chain : Str) (toDelete : List Nat) (s : DiffState)
    (entry : chainRule) : DiffState :=
  if s.deletePointer < toDelete.length then
    let rulenum := toDelete.getD s.deletePointer 0
    ⟨(Firewall.replaceRule run s.fw chain rulenum entry).1, s.current.set rulenum entry,
      s.deletePointer + 1⟩
  else
    ⟨(Firewall.addRule run s.fw chain entry).1, s.current ++ [entry], s.deletePointer⟩

/-- Go `copy(current[rulenum:], current[rulenum+1:])` for an index `rulenum` of
`current`: the elements after `rulenum` move one place down, the slice keeps
its length and its last element. -/
def copyDown (current : List chainRule) (rulenum : Nat) : List chainRule :=
  current.take rulenum ++ current.drop (rulenum + 1) ++ current.drop (current.length - 1)

/-- The third loop of the diff path of `UpdateUser`, `n` rounds of it: every
round reads `toDelete[deletePointer]`, which the loop does not advance. -/
def deleteSurplus (run : Iptables) (chain : Str) (toDelete : List Nat) : Nat → DiffState → DiffState
  | 0, s => s
  | n + 1, s =>
    let rulenum := toDelete.getD s.deletePointer 0
    deleteSurplus run chain toDelete n
      ⟨(Firewall.deleteRule run s.fw chain rulenum).1, copyDown s.current rulenum, s.deletePointer⟩

/-- Go `Firewall.UpdateUser`. `rules` is `none` for the nil slice. The parameter
`order` is the order in which `range` visits the map `chainRules`. -/
def Firewall.UpdateUser (run : Iptables) (order : List chainRule → List chainRule)
    (fw : Firewall) (user : Str) (rules : Option (List FirewallRule)) : Firewall × Option Error :=
  let chainRules := chainRuleSet (rules.getD [])
  let current := mapGet fw.userChains user
  let update : Bool :=
    (current.isNone && decide ((rules.getD []).length ≠ 0))
      || decide ((current.getD []).length ≠ (rules.getD []).length)
      || (current.getD []).any (fun entry => decide (entry ∉ chainRules))
  if update = false then (fw, none)
  else
    let chain := "user-".toList ++ user
    match rules, current with
    | none, some _ => Firewall.dropChain run { fw with userChains := mapDelete fw.userChains user } chain
    | none, none => (fw, none)
    | some _, none =>
      let r := Firewall.createChain run fw chain
      match r.2 with
      | some err => (r.1, some err)
      | none =>
        let r1 := addRules run chain (order chainRules) r.1
        match r1.2 with
        | some err => (r1.1, some err)
        | none => ({ r1.1 with userChains := mapSet r1.1.userChains user (order chainRules) }, none)
    | some _, some cur =>
      let marked := markRetired cur 0 chainRules []
      let toDelete := marked.2
      let s1 := (order marked.1).foldl (placeRule run chain toDelete) ⟨fw, cur, 0⟩
      let s2 := deleteSurplus run chain toDelete (toDelete.length - s1.deletePointer) s1
      ({ s2.fw with userChains := mapSet s2.fw.userChains user s2.current }, none)

/-! ## `internal/vpn/openvpn.go` and `internal/vpn/manager.go` -/

/-- Go `VPNClientEvent`; the field `Type` of the source is called `Kind` here.
A nil `Environment` is the empty list. -/
structure VPNClientEvent where
  Kind : Str
  ClientId : Nat
  KeyId : Nat
  Primary : Bool
  Address : net.IPNet
  Environment : List (Str × Str)
deriving DecidableEq, Repr

/-- Go `clientConnection`; the address is `none` while the pointer is nil. -/
structure clientConnection where
  user : Str
  clientId : Nat
  address : Option net.IPNet
  key : Str
  conf : UserConfig
deriving DecidableEq, Repr

/-- Go `vpnUser` of `config.go`, with the policy `buildUserConfigs` stores in it. -/
structure vpnUser where
  keys : List Str
  config : UserConfig
deriving DecidableEq, Repr

/-- Go `VPNManager`. The session tables hold pointers: `heap` lists the
`clientConnection` values allocated so far and a pointer is an index of it.
The field `sent` is not in the source: it records the commands handed to
`Server.ExecCommand` so far, each with its flag `expectResponse`. -/
structure VPNManager where
  Firewall : Firewall
  users : userManager
  heap : List clientConnection
  clients : List (Nat × Nat)
  userConnections : List (Str × Nat)
  tunnelIP : List Nat
  sent : List (Str × Bool)
deriving DecidableEq, Repr

/-- The connection a pointer of the session tables points to. Every pointer the
manager stores is an index of the heap; the value for other numbers is not used. -/
def VPNManager.deref (m : VPNManager) (p : Nat) : clientConnection :=
  m.heap.getD p ⟨[], 0, none, [], ⟨NOT_SET, []⟩⟩

/-- Go `OpenVPN.ExecCommand`: hands the command to the daemon. The error it
returns is the answer of the daemon and is not modelled; of its callers only
`authorizeClient` and `DisconnectUser` return it, to callers that drop it. -/
def VPNManager.ExecCommand (m : VPNManager) (command : Str) (expectResponse : Bool) : VPNManager :=
  { m with sent := m.sent ++ [(command, expectResponse)] }

/-- The double quote of the commands. -/
def quote : Str := [Char.ofNat 34]

/-- The command `client-deny <cid> <kid> "<reason>"` of `authorizeClient`. -/
def clientDeny (clientId keyId : Nat) (reason : Str) : Str :=
  "client-deny ".toList ++ net.uitoa clientId ++ [' '] ++ net.uitoa keyId ++ [' '] ++ quote
    ++ reason ++ quote

/-- The command `client-kill <cid>`. -/
def clientKill (clientId : Nat) : Str := "client-kill ".toList ++ net.uitoa clientId

/-- The command `client-auth` that `authorizeClient` builds for a resolved policy. -/
def clientAuth (tunnelIP : List Nat) (clientId keyId : Nat) (conf : UserConfig) : Str :=
  "client-auth ".toList ++ net.uitoa clientId ++ [' '] ++ net.uitoa keyId ++ "\n".toList
    ++ (if conf.DNSSetting ≠ OFF then
          "push ".toList ++ quote ++ "dhcp-option DNS ".toList ++ net.ipString tunnelIP ++ quote
            ++ "\n".toList
        else [])
    ++ conf.Routes.flatMap (fun route =>
        "push ".toList ++ quote ++ "route ".toList ++ net.ipString route.Network.IP ++ [' ']
          ++ net.ipString (net.applyMask (net.v4InV6Header ++ [255, 255, 255, 255]) route.Network.Mask)
          ++ quote ++ "\n".toList)
    ++ "END".toList

/-- The block `if oldConnection != nil` at the head of the locked block of
`authorizeClient`: the record stored under the client id is deleted, and with
it the entry of its user when that entry carries the same client id. -/
def VPNManager.evictClient (m : VPNManager) (clientId : Nat) : VPNManager :=
  match mapGet m.clients clientId with
  | some old =>
    let m2 : VPNManager := { m with clients := mapDelete m.clients clientId }
    match mapGet m2.userConnections (m2.deref old).user with
    | some oldUser =>
      if (m2.deref oldUser).clientId = clientId then
        { m2 with userConnections := mapDelete m2.userConnections (m2.deref old).user }
      else m2
    | none => m2
  | none => m

/-- The session tables after the locked block of `authorizeClient`, and the
pointer left in `oldConnection`. -/
def VPNManager.recordSession (m : VPNManager) (clientId : Nat) (userName keyAlias : Str)
    (conf : UserConfig) (reauth : Bool) : VPNManager × Option Nat :=
  let m1 : VPNManager := if reauth then m else m.evictClient clientId
  let oldConnection : Option Nat := if reauth then none else mapGet m1.userConnections userName
  let connection := m1.heap.length
  ({ m1 with
      heap := m1.heap ++ [⟨userName, clientId, none, keyAlias, conf⟩]
      clients := mapSet m1.clients clientId connection
      userConnections := mapSet m1.userConnections userName connection }, oldConnection)

/-- Go `VPNManager.authorizeClient`. `authenticateUser` returns a policy whenever
it returns no error, so the policy read with `getD` is the one it returned. -/
def VPNManager.authorizeClient (ord : MapOrder) (backend : Backend) (m : VPNManager)
    (clientId keyId : Nat) (env : List (Str × Str)) (reauth : Bool) : VPNManager :=
  let userName := (mapGet env "X509_1_CN".toList).getD []
  let keyHash := (mapGet env "X509_1_OU".toList).getD []
  if (mapGet env "tls_digest_sha256_3".toList).isSome then
    m.ExecCommand (clientDeny clientId keyId
      ("Denying user ".toList ++ userName ++ " with key hash ".toList ++ keyHash
        ++ ", depth too high".toList)) true
  else
    let r := authenticateUser ord backend m.users userName keyHash
    let m1 : VPNManager := { m with users := r.2 }
    match r.1.err with
    | some err => m1.ExecCommand (clientDeny clientId keyId err.msg.toList) true
    | none =>
      let conf := r.1.config.getD ⟨NOT_SET, []⟩
      let s := m1.recordSession clientId userName r.1.keyId conf reauth
      let m2 : VPNManager :=
        match s.2 with
        | some oldConnection => s.1.ExecCommand (clientKill (s.1.deref oldConnection).clientId) false
        | none => s.1
      m2.ExecCommand (clientAuth m.tunnelIP clientId keyId conf) true

/-- Go `VPNManager.DisconnectUser`. -/
def VPNManager.DisconnectUser (m : VPNManager) (user : Str) : VPNManager :=
  match mapGet m.userConnections user with
  | some connection =>
    let m1 : VPNManager :=
      { m with
        userConnections := mapDelete m.userConnections user
        clients := mapDelete m.clients (m.deref connection).clientId }
    m1.ExecCommand (clientKill (m.deref connection).clientId) false
  | none => m

/-- Go `VPNManager.processClientEvent`; `none` when the call panics on a nil
pointer. -/
def VPNManager.processClientEvent (run : Iptables) (ord : MapOrder) (backend : Backend)
    (m : VPNManager) (e : VPNClientEvent) : Option VPNManager :=
  if e.Kind = "CONNECT".toList ∨ e.Kind = "REAUTH".toList then
    some (m.authorizeClient ord backend e.ClientId e.KeyId e.Environment
      (decide (e.Kind = "REAUTH".toList)))
  else if e.Kind = "ADDRESS".toList then
    match mapGet m.clients e.ClientId with
    | none => none
    | some conn =>
      let m1 : VPNManager :=
        { m with heap := m.heap.set conn { m.deref conn with address := some e.Address } }
      some { m1 with Firewall := (m1.Firewall.ConnectUser run (m1.deref conn).user e.Address).1 }
  else if e.Kind = "DISCONNECT".toList then
    match mapGet m.clients e.ClientId with
    | none => some m
    | some conn =>
      let m1 : VPNManager := { m with clients := mapDelete m.clients e.ClientId }
      match mapGet m1.userConnections (m1.deref conn).user with
      | none => none
      | some userConn =>
        let m2 : VPNManager :=
          if (m1.deref userConn).clientId = e.ClientId then
            { m1 with userConnections := mapDelete m1.userConnections (m1.deref conn).user }
          else m1
        match (m2.deref conn).address with
        | some address =>
          some { m2 with Firewall := (m2.Firewall.DisconnectUser run (m2.deref conn).user address).1 }
        | none => some m2
  else some m

/-- Go `IP.Equal`. -/
def ipEqual (ip x : List Nat) : Bool :=
  if ip.length = x.length then decide (ip = x)
  else if ip.length = 4 ∧ x.length = 16 then
    decide (x.take 12 = net.v4InV6Header ∧ ip = x.drop 12)
  else if ip.length = 16 ∧ x.length = 4 then
    decide (ip.take 12 = net.v4InV6Header ∧ ip.drop 12 = x)
  else false

/-- The slice `rules` that `updateFirewall` builds from a resolved policy: a
rule with the zero port for a route without ports, one rule per port otherwise. -/
def firewallRules (conf : UserConfig) : List FirewallRule :=
  conf.Routes.flatMap (fun route =>
    if route.Ports.length = 0 then [⟨route.Network, 0⟩]
    else route.Ports.map (fun port => ⟨route.Network, port⟩))

/-- Go `VPNManager.updateFirewall`; the rule slice it builds is never nil. -/
def VPNManager.updateFirewall (run : Iptables) (order : List chainRule → List chainRule)
    (m : VPNManager) (user : Str) (conf : UserConfig) : VPNManager :=
  { m with Firewall := (m.Firewall.UpdateUser run order user (some (firewallRules conf))).1 }

/-- The loop of `updateConfig` over the routes pushed to a session: whether a
route differs in address or mask length from the route at the same index of
the new policy. -/
def routesDiffer : List UserRoute → List UserRoute → Bool
  | route :: rest, other :: others =>
    if ipEqual other.Network.IP route.Network.IP = false then true
    else if (net.Size route.Network.Mask).1 ≠ (net.Size other.Network.Mask).1 then true
    else routesDiffer rest others
  | _, _ => false

/-- The value of `killConn` that `updateConfig` computes for the session of a user. -/
def killConn (userConn : clientConnection) (info : vpnUser) : Bool :=
  if userConn.key ∉ info.keys then true
  else if (userConn.conf.DNSSetting = OFF) ≠ (info.config.DNSSetting = OFF) then true
  else if userConn.conf.Routes.length ≠ info.config.Routes.length then true
  else routesDiffer userConn.conf.Routes info.config.Routes

/-- The results of `userManager.update` as `updateConfig` receives them, and
the user manager after the call. -/
structure UpdateResult where
  manager : userManager
  users : Option (List (Str × vpnUser))
  timerDuration : Option Int
  err : Option Error
deriving DecidableEq, Repr

/-- The body of the loop of `updateConfig` for one user. -/
def VPNManager.updateUser (run : Iptables) (order : List chainRule → List chainRule)
    (m : VPNManager) (entry : Str × vpnUser) : VPNManager :=
  let m1 := m.updateFirewall run order entry.1 entry.2.config
  match mapGet m1.userConnections entry.1 with
  | some userConn =>
    if killConn (m1.deref userConn) entry.2 then m1.DisconnectUser entry.1 else m1
  | none => m1

/-- Go `VPNManager.updateConfig` for the results `res` of `m.users.update()`:
the manager after the tick and the duration handed to `time.AfterFunc`, in
nanoseconds. The parameter `userOrder` is the order in which `range` visits the
map `users`. -/
def VPNManager.updateConfig (run : Iptables) (order : List chainRule → List chainRule)
    (userOrder : List (Str × vpnUser) → List (Str × vpnUser))
    (m : VPNManager) (res : UpdateResult) : VPNManager × Int :=
  let m0 : VPNManager := { m with users := res.manager }
  let timerDuration : Int := res.timerDuration.getD 300000000000
  match res.users with
  | some users =>
    if res.err ≠ none then
      ((userOrder (rangeMap users)).foldl (VPNManager.updateUser run order) m0, timerDuration)
    else (m0, timerDuration)
  | none => (m0, timerDuration)

/-! ## `internal/vpn/config.go`: the key index -/

/-- An RSA public key: modulus and exponent. -/
abbrev PublicKey := Nat × Nat

/-- What `updateKeys` calls besides `FetchKeys`: `FetchKey` of the backend
(the key bytes, `none` for nil, and the error), `ca.ParsePublicKey`, and `Add`
and `Remove` of the certificate manager, whose state has type `σ`. `Add`
returns the manager after the call, the hash and the error; `Remove` returns
the manager after the call, or `none` when it panics. -/
structure KeyOps (σ : Type) where
  FetchKey : Str → Str → Option (List Nat) × Option Error
  ParsePublicKey : List Nat → Except Error PublicKey
  Add : σ → Str → Str → PublicKey → σ × Str × Option Error
  Remove : σ → Str → Option σ

/-- The orders Go leaves open in `updateKeys`: in which order `range` visits
the users, the new keys when they are fetched, the alias index, and the new
keys when they are stored. -/
structure KeyOrder where
  users : List (Str × List Str) → List (Str × List Str)
  fetch : List (Str × Str) → List (Str × Str)
  index : List (Str × Str) → List (Str × Str)
  store : List (Str × Str) → List (Str × Str)

/-- What `updateKeys` works on: the key index `c.users`, the certificate
manager, and the map `configs` it builds (each user with the key set of the
`vpnUser`). -/
structure KeysState (σ : Type) where
  users : List (Str × userKeys)
  ca : σ
  configs : List (Str × List Str)

/-- The set `keyIds` of `updateKeys`: the listed aliases, each once. -/
def keyIdSet (keys : List Str) : List Str :=
  keys.foldl (fun set keyId => if keyId ∈ set then set else set ++ [keyId]) []

/-- The map `newKeys` of `updateKeys` after the loop that compares the listed
aliases with the index: every alias the index lacks, with the empty hash. -/
def newKeySet (userEntry : Option userKeys) (keys : List Str) : List (Str × Str) :=
  keys.foldl (fun newKeys keyId =>
    match userEntry with
    | none => mapSet newKeys keyId []
    | some entry =>
      if (mapGet entry.keyById keyId).isNone then mapSet newKeys keyId [] else newKeys) []

/-- The loop of `updateKeys` that fetches the new keys and adds a certificate
for each key that has a body; `todo` are the entries of `newKeys` still to be
visited. Returns the certificate manager, `newKeys` and the error that ends
`updateKeys`, if any. -/
def fetchNewKeys {σ : Type} (ops : KeyOps σ) (user : Str) :
    List (Str × Str) → σ → List (Str × Str) → σ × List (Str × Str) × Option Error
  | [], ca, newKeys => (ca, newKeys, none)
  | (keyId, _) :: todo, ca, newKeys =>
    match ops.FetchKey user keyId with
    | (_, some err) => (ca, newKeys, some err)
    | (none, none) => fetchNewKeys ops user todo ca newKeys
    | (some key, none) =>
      match ops.ParsePublicKey key with
      | .error err => (ca, newKeys, some err)
      | .ok publicKey =>
        match ops.Add ca user keyId publicKey with
        | (ca1, _, some err) => (ca1, newKeys, some err)
        | (ca1, hash, none) => fetchNewKeys ops user todo ca1 (mapSet newKeys keyId hash)

/-- The loop of `updateKeys` over the alias index: an alias that is not listed
is deleted together with the entry of its hash and noted in `removedKeys`. -/
def dropRetired (keyIds : List Str) :
    List (Str × Str) → userKeys × List Str → userKeys × List Str
  | [], s => s
  | (keyId, keyHash) :: rest, (entry, removedKeys) =>
    if keyId ∉ keyIds then
      dropRetired keyIds rest
        (⟨mapDelete entry.keyById keyId, mapDelete entry.keyByHash keyHash⟩, removedKeys ++ [keyId])
    else dropRetired keyIds rest (entry, removedKeys)

/-- The loop of `updateKeys` that stores the new keys in both mappings. -/
def storeNewKeys (newKeys : List (Str × Str)) (entry : userKeys) : userKeys :=
  newKeys.foldl (fun e kv => ⟨mapSet e.keyById kv.1 kv.2, mapSet e.keyByHash kv.2 kv.1⟩) entry

/-- The loop of `updateKeys` that removes the certificates of the retired
aliases; `none` when `Remove` panics. -/
def removeKeys {σ : Type} (ops : KeyOps σ) : List Str → σ → Option σ
  | [], ca => some ca
  | keyId :: rest, ca =>
    match ops.Remove ca keyId with
    | none => none
    | some ca1 => removeKeys ops rest ca1

/-- The body of the loop of `updateKeys` for one user: the state after it and
the error with which `updateKeys` returns from inside the loop, if any; `none`
when the call panics. -/
def updateUserKeys {σ : Type} (ord : KeyOrder) (backend : Backend) (ops : KeyOps σ)
    (s : KeysState σ) (user : Str) : Option (KeysState σ × Option Error) :=
  match backend.FetchKeys user with
  | (_, some err) => some (s, some err)
  | (keys, none) =>
    if (keys.getD []).length = 0 then some (s, none)
    else
      let keyIds := keyIdSet (keys.getD [])
      let userEntry := mapGet s.users user
      let newKeys := newKeySet userEntry (keys.getD [])
      let update : Bool :=
        match userEntry with
        | none => true
        | some entry =>
          decide (keyIds.length ≠ (rangeMap entry.keyById).length) || decide (newKeys ≠ [])
      match fetchNewKeys ops user (ord.fetch (rangeMap newKeys)) s.ca newKeys with
      | (ca1, _, some err) => some (⟨s.users, ca1, s.configs⟩, some err)
      | (ca1, newKeys1, none) =>
        if update then
          let entry0 : userKeys := (mapGet s.users user).getD ⟨[], []⟩
          let dropped := dropRetired keyIds (ord.index (rangeMap entry0.keyById)) (entry0, [])
          let entry1 := storeNewKeys (ord.store (rangeMap newKeys1)) dropped.1
          match removeKeys ops dropped.2 ca1 with
          | none => none
          | some ca2 =>
            some (⟨mapSet s.users user entry1, ca2, mapSet s.configs user keyIds⟩, none)
        else some (⟨s.users, ca1, mapSet s.configs user keyIds⟩, none)

/-- The loop of `updateKeys` over the users still to be visited. -/
def updateKeysLoop {σ : Type} (ord : KeyOrder) (backend : Backend) (ops : KeyOps σ) :
    List Str → KeysState σ → Option (KeysState σ × Option Error)
  | [], s => some (s, none)
  | user :: rest, s =>
    match updateUserKeys ord backend ops s user with
    | none => none
    | some (s1, some err) => some (s1, some err)
    | some (s1, none) => updateKeysLoop ord backend ops rest s1

/-- Go `userManager.updateKeys`: the key index, the certificate manager and the
map `configs` after the call, with the error returned; `none` when the call
panics. With an error the source returns nil instead of `configs`. -/
def updateKeys {σ : Type} (ord : KeyOrder) (backend : Backend) (ops : KeyOps σ)
    (users : List (Str × userKeys)) (ca : σ) (userGroups : List (Str × List Str)) :
    Option (KeysState σ × Option Error) :=
  updateKeysLoop ord backend ops ((ord.users (rangeMap userGroups)).map Prod.fst) ⟨users, ca, []⟩

/-! ## `internal/ca/ca.go` -/

/-- Go `CertificateFile`. -/
structure CertificateFile where
  hash : Str
  index : Nat
deriving DecidableEq, Repr

/-- What the certificate manager does to the files of its directory:
`writePEM`, `os.Rename` and `os.Remove`. -/
inductive FileOp where
  | write (filename pemType : Str) (bytes : List Nat)
  | rename (oldpath newpath : Str)
  | remove (name : Str)
deriving DecidableEq, Repr

/-- The outcome of a file operation: the error, if any, given the operations
made before. -/
abbrev FileSystem := List FileOp → FileOp → Option Error

/-- Go `CertificateManager` without the certificate and the key of the
authority, which enter only the signing. The two maps hold pointers: `files`
lists the `CertificateFile` values allocated so far and a pointer is an index
of it. The field `ops` is not in the source: it records the file operations
made so far. -/
structure CertificateManager where
  Path : Str
  counter : Int
  files : List CertificateFile
  byHash : List (Str × List Nat)
  byName : List (Str × Nat)
  ops : List FileOp
deriving DecidableEq, Repr

/-- The library calls of `Add` and `addCertificate` that are not modelled:
`x509.MarshalPKIXPublicKey`, `sha256.Sum256`, `x509.CreateCertificate` for the
serial number, the common name and organizational unit of the subject and the
key, and `certificateHash(getNameBytes(subject))` for a subject with that
common name and organizational unit (with the error of `getNameBytes`). -/
structure X509 where
  MarshalPKIXPublicKey : PublicKey → Except Error (List Nat)
  Sum256 : List Nat → List Nat
  CreateCertificate : Int → Str → Str → PublicKey → Except Error (List Nat)
  subjectHash : Str → Str → Except Error Str

/-- Go `filepath.Join` on elements that are clean paths: the non-empty elements
with a separator between them. -/
def Join (elem : List Str) : Str :=
  (elem.filter (fun e => decide (e ≠ []))).intersperse ['/'] |>.flatten

/-- The file a pointer of the certificate manager points to. Every pointer the
manager stores is an index of `files`; the value for other numbers is not used. -/
def CertificateManager.file (m : CertificateManager) (p : Nat) : CertificateFile :=
  m.files.getD p ⟨[], 0⟩

/-- Go `CertificateManager.addCertificate`, after `getNameBytes`: `nameHash` is
`certificateHash(nameBytes)` for the subject of the certificate, or the error
of `getNameBytes`; `keyAlias` is `none` for the nil pointer. -/
def CertificateManager.addCertificate (fs : FileSystem) (m : CertificateManager)
    (nameHash : Except Error Str) (der : List Nat) (keyAlias : Option Str) :
    CertificateManager × Option Error :=
  match nameHash with
  | .error err => (m, some err)
  | .ok certHash =>
    let certs := (mapGet m.byHash certHash).getD []
    let certFile : CertificateFile := ⟨certHash, certs.length⟩
    let op := FileOp.write
      (Join [m.Path, certFile.hash ++ ['.'] ++ net.uitoa certFile.index]) "CERTIFICATE".toList der
    ({ m with
        files := m.files ++ [certFile]
        byHash := mapSet m.byHash certHash (certs ++ [m.files.length])
        byName := match keyAlias with
          | some name => mapSet m.byName name m.files.length
          | none => m.byName
        ops := m.ops ++ [op] }, fs m.ops op)

/-- Go `CertificateManager.Add`: the manager after the call, the hash and the
error. The encoding of the constant basic constraints does not fail. -/
def CertificateManager.Add (x : X509) (fs : FileSystem) (m : CertificateManager)
    (user keyAlias : Str) (key : PublicKey) : CertificateManager × Str × Option Error :=
  match x.MarshalPKIXPublicKey key with
  | .error err => (m, [], some err)
  | .ok spki =>
    let hash := net.hexString (x.Sum256 spki)
    let m1 : CertificateManager := { m with counter := m.counter + 1 }
    match x.CreateCertificate m1.counter user hash key with
    | .error err => (m1, hash, some err)
    | .ok certDer =>
      let r := m1.addCertificate fs (x.subjectHash user hash) certDer (some keyAlias)
      (r.1, hash, r.2)

/-- Go `CertificateManager.Remove`: the manager after the call and the error;
`none` when the call panics (no entry under the alias, or a list that has no
element at the index of the entry). -/
def CertificateManager.Remove (fs : FileSystem) (m : CertificateManager) (keyAlias : Str) :
    Option (CertificateManager × Option Error) :=
  match mapGet m.byName keyAlias with
  | none => none
  | some p =>
    let certFile := m.file p
    let certs := (mapGet m.byHash certFile.hash).getD []
    let last : Int := (certs.length : Int) - 1
    if (certFile.index : Int) ≠ last then
      let op := FileOp.rename (Join [m.Path, certFile.hash, Itoa last])
        (Join [m.Path, certFile.hash, net.uitoa certFile.index])
      if certs.length = 0 ∨ certs.length ≤ certFile.index then none
      else
        let moved := certs.getD (certs.length - 1) 0
        some ({ m with
            files := m.files.set moved { m.file moved with index := certFile.index }
            byHash := mapSet m.byHash certFile.hash (certs.set certFile.index moved).dropLast
            ops := m.ops ++ [op] }, fs m.ops op)
    else
      let op := FileOp.remove (Join [m.Path, certFile.hash, net.uitoa certFile.index])
      some ({ m with
          byHash := mapSet m.byHash certFile.hash certs.dropLast
          ops := m.ops ++ [op] }, fs m.ops op)

/-- The calls `updateKeys` makes, with the certificate manager of `ca.go`
behind `Add` and `Remove`; `updateKeys` drops the error of `Remove`. -/
def caKeyOps (x : X509) (fs : FileSystem)
    (fetchKey : Str → Str → Option (List Nat) × Option Error)
    (parsePublicKey : List Nat → Except Error PublicKey) : KeyOps CertificateManager :=
  ⟨fetchKey, parsePublicKey, fun m user keyAlias key => m.Add x fs user keyAlias key,
    fun m keyAlias => (m.Remove fs keyAlias).map Prod.fst⟩

/-! ## `internal/vpn/openvpn.go`: client events -/

/-- Worker of `Split`; `cur` is the part being read, reversed. -/
def splitAux (sep : Char) : Str → Str → List Str
  | [], cur => [cur.reverse]
  | c :: cs, cur => if c = sep then cur.reverse :: splitAux sep cs [] else splitAux sep cs (c :: cur)

/-- Go `strings.Split(s, sep)` for a separator of one character. -/
def Split (s : Str) (sep : Char) : List Str := splitAux sep s []

/-- Go `strings.TrimSpace`. -/
def TrimSpace (s : Str) : Str :=
  ((s.dropWhile isSpace).reverse.dropWhile isSpace).reverse

/-- Go `strconv.ParseUint(s, 10, 64)`: a non-empty string of decimal digits
with value below `2 ^ 64`; `none` for every error. -/
def ParseUint64 (s : Str) : Option Nat :=
  if s = [] ∨ ¬ s.all net.isDigit then none
  else if 2 ^ 64 ≤ net.decimalValue s then none
  else some (net.decimalValue s)

/-- The loop of `parseClientEvent` that reads the environment from the
reader, whose unread text is the first argument; `cur` is the line being read,
reversed. Returns the environment and the text left in the reader. A reader
that ends before the line `>CLIENT:ENV,END` gives the error of `ReadString`. -/
def readEnvironment : Str → Str → List (Str × Str) → Except Error (List (Str × Str) × Str)
  | [], _, _ => .error ⟨0, "EOF"⟩
  | c :: cs, cur, env =>
    if c = Char.ofNat 10 then
      let line := TrimSpace (c :: cur).reverse
      if line = ">CLIENT:ENV,END".toList then .ok (env, cs)
      else if startsWith line ">CLIENT:ENV,".toList = false then
        .error ⟨0, "Unable to read client event line"⟩
      else
        let varline := line.drop 12
        if '=' ∉ varline then .error ⟨0, "Unable to read client event line"⟩
        else
          readEnvironment cs []
            (mapSet env (varline.takeWhile (· ≠ '=')) ((varline.dropWhile (· ≠ '=')).drop 1))
    else readEnvironment cs (c :: cur) env

/-- The address of an `ADDRESS` event, as `parseClientEvent` builds it from
the third part of the line; `none` when `net.IPv4Mask` is handed bytes of a nil
address and the call panics. A nil address is the empty list. -/
def parseAddress (addrString : Str) : Option net.IPNet :=
  if '/' ∈ addrString then
    match net.ParseIP ((addrString.dropWhile (· ≠ '/')).drop 1) with
    | none => none
    | some maskIp =>
      some ⟨(net.ParseIP (addrString.takeWhile (· ≠ '/'))).getD [],
        [maskIp.getD 0 0, maskIp.getD 1 0, maskIp.getD 2 0, maskIp.getD 3 0]⟩
  else some ⟨(net.ParseIP addrString).getD [], net.CIDRMask 32 32⟩

/-- Go `parseClientEvent` for a line that starts with `>CLIENT:` and a reader
with the unread text `reader`: the event and the text left in the reader, or
the error; `none` when the call panics (a part of the line is missing, or the
mask of an address does not parse). -/
def parseClientEvent (line reader : Str) : Option (Except Error (VPNClientEvent × Str)) :=
  let parts := Split (line.drop 8) ','
  match parts with
  | kind :: cid :: rest =>
    match ParseUint64 cid with
    | none => some (.error ⟨0, "invalid syntax"⟩)
    | some clientId =>
      if kind = "ADDRESS".toList then
        match rest with
        | addrString :: primary :: _ =>
          match parseAddress addrString with
          | none => none
          | some address =>
            some (.ok (⟨kind, clientId, 0, decide (primary = "1".toList), address, []⟩, reader))
        | _ => none
      else if kind = "CONNECT".toList ∨ kind = "REAUTH".toList then
        match rest with
        | kid :: _ =>
          match ParseUint64 kid with
          | none => some (.error ⟨0, "invalid syntax"⟩)
          | some keyId =>
            match readEnvironment reader [] [] with
            | .error err => some (.error err)
            | .ok (env, reader1) => some (.ok (⟨kind, clientId, keyId, false, ⟨[], []⟩, env⟩, reader1))
        | [] => none
      else
        match readEnvironment reader [] [] with
        | .error err => some (.error err)
        | .ok (env, reader1) => some (.ok (⟨kind, clientId, 0, false, ⟨[], []⟩, env⟩, reader1))
  | _ => none

/-! ## `internal/vpn/config.go`: the watch tick -/

/-- The calls of `ConfigurationBackend` that `update` and `buildUserConfigs`
make besides those of `updateKeys`: `FetchFile` (the text of the file, `none`
for a nil reader, and the error), `FetchNetworkInfo` and `FetchGroup`. -/
structure PolicyBackend where
  FetchFile : Str → Option Str × Option Error
  FetchNetworkInfo : Option NetworkInfo × Option Error
  FetchGroup : Str → Option (List Str) × Option Error

/-- The orders Go leaves open in `buildUserConfigs` and in what it calls. -/
structure UpdateOrder where
  groups : List (Str × SectionConfig) → List (Str × SectionConfig)
  users : List (Str × SectionConfig) → List (Str × SectionConfig)
  configs : List (Str × List Str) → List (Str × List Str)
  keys : KeyOrder
  resolve : MapOrder

/-- The loop of `buildUserConfigs` over the groups of the policy: every member
of a group gets the name of the group appended to its list. -/
def fetchGroups (pb : PolicyBackend) :
    List Str → List (Str × List Str) → Except Error (List (Str × List Str))
  | [], userGroups => .ok userGroups
  | groupName :: rest, userGroups =>
    match pb.FetchGroup groupName with
    | (_, some err) => .error err
    | (users, none) =>
      fetchGroups pb rest
        ((users.getD []).foldl
          (fun ug user => mapSet ug user ((mapGet ug user).getD [] ++ [groupName])) userGroups)

/-- The loop of `buildUserConfigs` that resolves the policy of every user of
`configs`; the first error ends it. -/
def resolveUsers (ord : MapOrder) (confFile : ConfigFile) (userGroups : List (Str × List Str))
    (netinfo : NetworkInfo) : List (Str × List Str) → Except Error (List (Str × vpnUser))
  | [] => .ok []
  | (user, keys) :: rest =>
    match GetUserConfig ord confFile user ((mapGet userGroups user).getD []) netinfo with
    | .error err => .error err
    | .ok userConf =>
      match resolveUsers ord confFile userGroups netinfo rest with
      | .error err => .error err
      | .ok configs => .ok ((user, ⟨keys, userConf⟩) :: configs)

/-- The results of `buildUserConfigs`, with the user manager and the
certificate manager after the call. -/
structure BuildResult (σ : Type) where
  manager : userManager
  ca : σ
  users : Option (List (Str × vpnUser))
  err : Option Error

/-- Go `userManager.buildUserConfigs`; `none` when the call panics. -/
def buildUserConfigs {σ : Type} (ord : UpdateOrder) (pb : PolicyBackend) (backend : Backend)
    (ops : KeyOps σ) (c : userManager) (ca : σ) (confFile : ConfigFile) :
    Option (BuildResult σ) :=
  match pb.FetchNetworkInfo with
  | (none, err) => some ⟨c, ca, none, err⟩
  | (some netinfo, _) =>
    let c1 : userManager := { c with confFile := confFile, netinfo := netinfo }
    match fetchGroups pb ((ord.groups (rangeMap confFile.Groups)).map Prod.fst) [] with
    | .error err => some ⟨c1, ca, none, some err⟩
    | .ok groupUsers =>
      let userGroups := (ord.users (rangeMap confFile.Users)).foldl
        (fun ug kv => if (mapGet ug kv.1).isSome then ug else mapSet ug kv.1 []) groupUsers
      match updateKeys ord.keys backend ops c1.users ca userGroups with
      | none => none
      | some (ks, some err) => some ⟨{ c1 with users := ks.users }, ks.ca, none, some err⟩
      | some (ks, none) =>
        match resolveUsers ord.resolve confFile userGroups netinfo
            (ord.configs (rangeMap ks.configs)) with
        | .error err => some ⟨{ c1 with users := ks.users }, ks.ca, none, some err⟩
        | .ok configs =>
          some ⟨{ c1 with users := ks.users, userGroups := userGroups }, ks.ca, some configs, none⟩

/-- Go `userManager.update` on a backend whose reader delivers the text of
`vpn.conf` without read error: the results and the certificate manager after
the call; `none` when the call panics. -/
def update {σ : Type} (parseDuration : Str → Option Int) (ord : UpdateOrder)
    (pb : PolicyBackend) (backend : Backend) (ops : KeyOps σ) (c : userManager) (ca : σ) :
    Option (UpdateResult × σ) :=
  match pb.FetchFile "vpn.conf".toList with
  | (none, err) => some (⟨c, none, none, err⟩, ca)
  | (some file, _) =>
    match ParseConfig parseDuration file with
    | .error err => some (⟨c, none, none, some err⟩, ca)
    | .ok confFile =>
      match buildUserConfigs ord pb backend ops c ca confFile with
      | none => none
      | some r => some (⟨r.manager, r.users, confFile.WatchTime, r.err⟩, r.ca)

/-- The duration `BootVPN` hands to `time.AfterFunc` for the policy it has
parsed, in nanoseconds: the watch time, or 30 seconds. -/
def bootTimerDuration (configFile : ConfigFile) : Int :=
  configFile.WatchTime.getD 30000000000

/-! ## Notions used to state the properties -/

open net

/-- The route map `m` holds exactly what the contributions `cs` (the networks
and port lists handed to `addRoute`) amount to: one entry per network key, whose
port set is the union of the port lists contributed for that key. -/
structure Tracks (m : List (networkKey × List Nat)) (cs : List (IPNet × List Nat)) : Prop where
  nodup : (m.map Prod.fst).Nodup
  keys : ∀ k, mapGet m k ≠ none ↔ ∃ c ∈ cs, toNetworkKey c.1 = k
  ports : ∀ k ps, mapGet m k = some ps →
    ∀ p, p ∈ ps ↔ ∃ c ∈ cs, toNetworkKey c.1 = k ∧ p ∈ c.2

/-- What a subnet reference contributes: the network of the topology under
that name with the ports of the reference, nothing for an unknown name. -/
def subnetContrib (netinfo : NetworkInfo) (subnet : Subnet) : List (IPNet × List Nat) :=
  match mapGet netinfo.Subnets subnet.Name with
  | some network => [(network, subnet.Ports)]
  | none => []

/-- What a section contributes to the route map: its routes, then its subnet
references that the topology knows. -/
def sectionContribs (netinfo : NetworkInfo) (sec : SectionConfig) : List (IPNet × List Nat) :=
  sec.Routes.flatMap (fun route => [(route.Network, route.Ports)])
    ++ sec.Subnets.flatMap (subnetContrib netinfo)

/-- The flag left by a walk over sections: the last flag that is set, `init`
when none is. -/
def lastFlag (init : Nat) (flags : List Nat) : Nat :=
  flags.foldl (fun cur f => if f ≠ NOT_SET then f else cur) init

/-- The NAT mode `GetUserConfig` arrives at for a user. -/
def natMode (ord : MapOrder) (config : ConfigFile) (user : Str) (groups : List Str) : Nat :=
  lastFlag ALL ((userSections ord config user groups).map (·.NATSetting))

/-- Whether `GetUserConfig` includes every subnet of the topology: no
contributing section lists a subnet. -/
def allSubnets (ord : MapOrder) (config : ConfigFile) (user : Str) (groups : List Str) : Bool :=
  (userSections ord config user groups).all (fun s => s.Subnets.length = 0)

/-- Every network with its port list that the resolution of a user puts into
the route map: what the contributing sections contribute, the NAT sources the
NAT mode allows, and all subnets of the topology when no section lists one. -/
def contributions (ord : MapOrder) (config : ConfigFile) (user : Str) (groups : List Str)
    (netinfo : NetworkInfo) : List (IPNet × List Nat) :=
  (userSections ord config user groups).flatMap (sectionContribs netinfo)
    ++ (if natMode ord config user groups ≠ OFF then
          (if natMode ord config user groups = ALL then netinfo.NAT.map (fun n => (n, [])) else [])
            ++ ((userSections ord config user groups).flatMap (·.NATRoutes)).map
                (fun route => (route.Network, route.Ports))
        else [])
    ++ (if allSubnets ord config user groups then
          (rangeMap netinfo.Subnets).map (fun kv => (kv.2, []))
        else [])

/-- The contributing sections of a user: the global section, the sections of
the groups of the list that the policy has, and the section of the user. -/
def Contributing (config : ConfigFile) (user : Str) (groups : List Str)
    (s : SectionConfig) : Prop :=
  s = config.GlobalConfig ∨ (∃ g ∈ groups, mapGet config.Groups g = some s)
    ∨ mapGet config.Users user = some s

/-- The mask is one that `net.CIDRMask` builds, as the masks made by
`net.ParseCIDR` and `parseRoute` are: 4 or 16 bytes, ones followed by zeros. -/
def cidrMaskOk (m : List Nat) : Bool :=
  decide ((m.length = 4 ∨ m.length = 16) ∧ CIDRMask (Size m).1 (Size m).2 = m)

/-- All routes and NAT routes of a section carry a mask built by `net.CIDRMask`. -/
def sectionNetsOk (s : SectionConfig) : Bool :=
  s.Routes.all (fun route => cidrMaskOk route.Network.Mask)
    && s.NATRoutes.all (fun route => cidrMaskOk route.Network.Mask)

/-- All networks of a policy and of a topology carry a mask built by `net.CIDRMask`. -/
def netsOk (config : ConfigFile) (netinfo : NetworkInfo) : Bool :=
  sectionNetsOk config.GlobalConfig
    && config.Groups.all (fun kv => sectionNetsOk kv.2)
    && config.Users.all (fun kv => sectionNetsOk kv.2)
    && netinfo.Subnets.all (fun kv => cidrMaskOk kv.2.Mask)
    && netinfo.NAT.all (fun n => cidrMaskOk n.Mask)

/-- A network key whose mask part is one `net.CIDRMask` accepts. -/
def keyOk (k : networkKey) : Prop := (k.size = 32 ∨ k.size = 128) ∧ k.mask ≤ k.size

/-- The durations written `<digits>s`, read as `time.ParseDuration` reads them
(in nanoseconds); every other text is rejected. An instance for the parameter
`parseDuration` of the parser, used to run it on policies without `watch`. -/
def parseSeconds (s : Str) : Option Int :=
  if s = ['0'] then some 0
  else if s.getLast? = some 's' ∧ s.dropLast ≠ [] ∧ s.dropLast.all isDigit
      ∧ decimalValue s.dropLast * 1000000000 < 2 ^ 63 then
    some (decimalValue s.dropLast * 1000000000 : Nat)
  else none

/-- The order that visits every port set backwards and every other map in
insertion order. -/
def reversedPorts : MapOrder := ⟨id, id, fun _ l => l.reverse, id⟩

/-- The policy read from a text, the empty policy when the text is rejected. -/
def policyOf (text : String) : ConfigFile :=
  match ParseConfig parseSeconds text.toList with
  | .ok config => config
  | .error _ => emptyConfig

/-- A topology without subnets and without NAT egress. -/
def noTopology : NetworkInfo := ⟨[], []⟩

/-- The topology of the first scenario: two subnets, no NAT egress. -/
def twoSubnets : NetworkInfo :=
  ⟨[("s1".toList, ⟨[10, 0, 1, 0], CIDRMask 24 32⟩), ("s2".toList, ⟨[10, 0, 2, 0], CIDRMask 24 32⟩)], []⟩

/-- The statements `Parser.Read` returns for the lines of a reader, up to the
end of the input or the first line it rejects. -/
def readAll : Parser → List Str → List ConfigStatement
  | _, [] => []
  | p, l :: ls =>
    match p.step l with
    | .skip p1 => readAll p1 ls
    | .fail _ _ => []
    | .stmt p1 stmt => stmt :: readAll p1 ls

/-- The statements of a policy text, in order. -/
def statements (text : Str) : List ConfigStatement := readAll ⟨[], [], 0⟩ (readLines text)

/-- The loop body of `ParseConfig` applied to a list of statements in turn;
as in `ParseConfig`, the error of `parseSection` is dropped. -/
def applyStatements (parseDuration : Str → Option Int) :
    ConfigFile → List ConfigStatement → Except Error ConfigFile
  | configFile, [] => .ok configFile
  | configFile, stmt :: rest =>
    match parseStatement parseDuration configFile stmt with
    | .error e => .error e
    | .ok r => applyStatements parseDuration r.1 rest

/-- The section a group statement works on: the one the policy has under that
name, or a new one. -/
def groupSection (configFile : ConfigFile) (stmt : ConfigStatement) : SectionConfig :=
  match mapGet configFile.Groups stmt.SectionName with
  | some sec => sec
  | none => ⟨GROUP, stmt.SectionName, configFile.Groups.length, [], [], [], NOT_SET, NOT_SET⟩

/-- The section a user statement works on: the one the policy has under that
name, or a new one. -/
def userSection (configFile : ConfigFile) (stmt : ConfigStatement) : SectionConfig :=
  match mapGet configFile.Users stmt.SectionName with
  | some sec => sec
  | none => ⟨USER, stmt.SectionName, 0, [], [], [], NOT_SET, NOT_SET⟩

/-- All ports of a section are `uint16` values. -/
def sectionPortsOk (s : SectionConfig) : Prop :=
  (∀ route ∈ s.Routes, ∀ p ∈ route.Ports, p ≤ 65535) ∧
  (∀ route ∈ s.NATRoutes, ∀ p ∈ route.Ports, p ≤ 65535) ∧
  (∀ subnet ∈ s.Subnets, ∀ p ∈ subnet.Ports, p ≤ 65535)

/-- All ports of a policy are `uint16` values. -/
def configPortsOk (config : ConfigFile) : Prop :=
  sectionPortsOk config.GlobalConfig ∧ (∀ kv ∈ config.Groups, sectionPortsOk kv.2) ∧
    (∀ kv ∈ config.Users, sectionPortsOk kv.2)

/-- Two statements work on the same section. -/
def sameSection (a b : ConfigStatement) : Prop :=
  a.SectionType = b.SectionType ∧
    (a.SectionType = "global".toList ∨ a.SectionName = b.SectionName)

/-- The section of a policy that the statements of a section type and name
work on. -/
def sectionOf (config : ConfigFile) (ty name : Str) : Option SectionConfig :=
  if ty = "global".toList then some config.GlobalConfig
  else if ty = "group".toList then mapGet config.Groups name
  else if ty = "user".toList then mapGet config.Users name
  else none

/-- The contributing sections of a user in the order of the policy file: the
global section, the sections of the user's groups in the order the groups were
declared, the section of the user. -/
def declaredSections (config : ConfigFile) (user : Str) (groups : List Str) :
    List SectionConfig :=
  config.GlobalConfig :: (config.Groups.filter (fun kv => decide (kv.1 ∈ groups))).map Prod.snd
    ++ (mapGet config.Users user).toList

/-- Adds the name of a group statement to the names declared so far. -/
def declareGroup (names : List Str) (stmt : ConfigStatement) : List Str :=
  if stmt.SectionType = "group".toList then
    (if stmt.SectionName ∈ names then names else names ++ [stmt.SectionName])
  else names

/-- The group names of a policy text in the order of their first declaration. -/
def declaredGroups (text : Str) : List Str := (statements text).foldl declareGroup []

/-- The shape `ParseConfig` gives the sections it sorts by: the global section
has type `GLOBAL`, group names are distinct, and the group declared as number
`i` has type `GROUP` and order `i`. -/
def GroupsWF (config : ConfigFile) : Prop :=
  config.GlobalConfig.Kind = GLOBAL ∧ (config.Groups.map Prod.fst).Nodup ∧
    config.Groups.map (fun kv => (kv.2.Kind, kv.2.Order))
      = (List.range config.Groups.length).map (fun i => (GROUP, i))

/-- `d` is the flag of a section of `l` that sets it and that no section
setting it comes after in the sort order, or `init` when no section sets it. -/
def FlagOfLast (f : SectionConfig → Nat) (init : Nat) (l : List SectionConfig) (d : Nat) : Prop :=
  ((∀ s ∈ l, f s = NOT_SET) ∧ d = init) ∨
    ∃ s ∈ l, f s ≠ NOT_SET ∧ d = f s ∧ ∀ t ∈ l, f t ≠ NOT_SET → sectionLess s t = false

/-- The policy resolved for a user in insertion order, the empty policy when
the resolution fails. -/
def resolveOf (config : ConfigFile) (user : String) (groups : List String)
    (netinfo : NetworkInfo) : UserConfig :=
  match GetUserConfig insertionOrder config user.toList (groups.map String.toList) netinfo with
  | .ok r => r
  | .error _ => ⟨NOT_SET, []⟩

/-- A topology with two subnets and one NAT-egress network. -/
def natTopology : NetworkInfo :=
  ⟨[("s1".toList, ⟨[10, 0, 1, 0], CIDRMask 24 32⟩), ("s2".toList, ⟨[10, 0, 2, 0], CIDRMask 24 32⟩)],
    [⟨[172, 16, 0, 0], CIDRMask 12 32⟩]⟩

/-- An `iptables` program that never fails. -/
def iptablesOk : Iptables := fun _ _ => none

/-- A packet filter without chains and forward rules, on the tunnel device `tun0`. -/
def emptyFirewall : Firewall := ⟨"tun0".toList, "eth0".toList, [], [], []⟩

/-- A rule for all ports of `10.0.1.0/24`. -/
def ruleA : FirewallRule := ⟨⟨[10, 0, 1, 0], CIDRMask 24 32⟩, 0⟩

/-- A rule for port 443 of `10.0.2.0/24`. -/
def ruleB : FirewallRule := ⟨⟨[10, 0, 2, 0], CIDRMask 24 32⟩, 443⟩

/-- The packet filter after `UpdateUser` has created the chain of `alice` with
the rules `ruleA` and `ruleB`. -/
def twoRuleFirewall : Firewall :=
  (emptyFirewall.UpdateUser iptablesOk id "alice".toList (some [ruleA, ruleB])).1

/-- The user an event names: the common name of its environment. -/
def VPNClientEvent.userName (e : VPNClientEvent) : Str :=
  (mapGet e.Environment "X509_1_CN".toList).getD []

/-- What the supervisor is asked to do to its session tables: process a client
event (with the outcome of the `iptables` runs, the map orders and the answers
of the backend during it), or disconnect a user. -/
inductive SessionInput where
  | event (run : Iptables) (ord : MapOrder) (backend : Backend) (e : VPNClientEvent)
  | disconnectUser (user : Str)

/-- The manager after an input; `none` when the call panics. -/
def VPNManager.step (m : VPNManager) : SessionInput → Option VPNManager
  | .event run ord backend e => m.processClientEvent run ord backend e
  | .disconnectUser user => some (m.DisconnectUser user)

/-- A `REAUTH` event names the user of the record stored under its client id,
if there is one; every other input is unrestricted. -/
def SessionInput.KeepsUser (m : VPNManager) : SessionInput → Prop
  | .event _ _ _ e =>
    e.Kind = "REAUTH".toList →
      ∀ p, mapGet m.clients e.ClientId = some p → (m.deref p).user = e.userName
  | .disconnectUser _ => True

/-- The manager after a list of inputs; `none` when one of them panics. -/
def VPNManager.steps : VPNManager → List SessionInput → Option VPNManager
  | m, [] => some m
  | m, i :: rest =>
    match m.step i with
    | none => none
    | some m1 => m1.steps rest

/-- The policy of the session examples: one route for `alice`, one for `bob`. -/
def sessionPolicy : ConfigFile :=
  policyOf "user alice\n\troute 10.0.0.0/24\nuser bob\n\troute 10.0.1.0/24 22\n"

/-- The user manager of the session examples: `alice` with the alias `k1` of
hash `h1`, `bob` with the alias `b1` of hash `hb`. -/
def sessionUsers : userManager :=
  ⟨sessionPolicy, noTopology,
    [("alice".toList, ⟨[("k1".toList, "h1".toList)], [("h1".toList, "k1".toList)]⟩),
      ("bob".toList, ⟨[("b1".toList, "hb".toList)], [("hb".toList, "b1".toList)]⟩)], []⟩

/-- The backend of the session examples: it lists `k1` for `alice` and `b1` for
every other user, and no groups. -/
def sessionBackend : Backend :=
  ⟨fun user => (some (if user = "alice".toList then ["k1".toList] else ["b1".toList]), none),
    fun _ => (some [], none)⟩

/-- The supervisor after boot: empty session tables, tunnel address `10.8.0.1`. -/
def idleManager : VPNManager := ⟨emptyFirewall, sessionUsers, [], [], [], [10, 8, 0, 1], []⟩

/-- The environment of a client that presents the certificate of a user and a key hash. -/
def clientEnv (user keyHash : String) : List (Str × Str) :=
  [("X509_1_CN".toList, user.toList), ("X509_1_OU".toList, keyHash.toList)]

/-- A `CONNECT` or `REAUTH` event of the session examples, with key id 7. -/
def authEvent (kind : String) (clientId : Nat) (user keyHash : String) : SessionInput :=
  .event iptablesOk insertionOrder sessionBackend
    ⟨kind.toList, clientId, 7, false, ⟨[], []⟩, clientEnv user keyHash⟩

/-- The `ADDRESS` event that gives a client the tunnel address `10.8.0.2`. -/
def addressEvent (clientId : Nat) : SessionInput :=
  .event iptablesOk insertionOrder sessionBackend
    ⟨"ADDRESS".toList, clientId, 0, true, ⟨v4InV6Header ++ [10, 8, 0, 2], CIDRMask 32 32⟩, []⟩

/-- The `DISCONNECT` event of a client. -/
def disconnectEvent (clientId : Nat) : SessionInput :=
  .event iptablesOk insertionOrder sessionBackend
    ⟨"DISCONNECT".toList, clientId, 0, false, ⟨[], []⟩, []⟩

/-- The supervisor of the session examples after a list of inputs; the idle
supervisor when one of them panics. -/
def afterInputs (inputs : List SessionInput) : VPNManager :=
  (idleManager.steps inputs).getD idleManager

/-- The session tables are consistent: every pointer points into the heap,
every record of `clients` carries the client id it is stored under, and every
record of `userConnections` carries the user it is stored for and is the record
`clients` holds under its client id. -/
structure SessionsOk (m : VPNManager) : Prop where
  clientsValid : ∀ c p, mapGet m.clients c = some p → p < m.heap.length
  usersValid : ∀ u p, mapGet m.userConnections u = some p → p < m.heap.length
  clientId : ∀ c p, mapGet m.clients c = some p → (m.deref p).clientId = c
  user : ∀ u p, mapGet m.userConnections u = some p →
    (m.deref p).user = u ∧ mapGet m.clients (m.deref p).clientId = some p

/-- The order that visits every map of `updateKeys` in insertion order. -/
def keyInsertionOrder : KeyOrder := ⟨id, id, id, id⟩

/-- A backend that lists the given keys for every user, and no groups. -/
def keysBackend (keys : List String) : Backend :=
  ⟨fun _ => (some (keys.map String.toList), none), fun _ => (some [], none)⟩

/-- Key operations over a certificate manager that only records the aliases
handed to `Add` and `Remove`; no key has a body. -/
def recordingOps : KeyOps (List (String × Str)) :=
  ⟨fun _ _ => (none, none), fun _ => .ok (0, 0),
    fun ca _ keyAlias _ => (ca ++ [("Add", keyAlias)], [], none),
    fun ca keyAlias => some (ca ++ [("Remove", keyAlias)])⟩

/-- The results of an `update` that found the single alias `k2` for `alice`,
with the error `err`. -/
def rotatedKeys (err : Option Error) : UpdateResult :=
  ⟨sessionUsers, some [("alice".toList, ⟨["k2".toList], ⟨NOT_SET, [⟨⟨v4InV6Header ++ [10, 0, 0, 0], CIDRMask 24 32⟩, []⟩]⟩⟩)],
    none, err⟩

/-- The directive of the `client-auth` command that pushes the tunnel address
as DNS server, with its line feed. -/
def dnsDirective (tunnelIP : List Nat) : Str :=
  "push ".toList ++ quote ++ "dhcp-option DNS ".toList ++ ipString tunnelIP ++ quote ++ "\n".toList

/-- The directive of the `client-auth` command that pushes a route, with its
line feed. -/
def routeDirective (route : UserRoute) : Str :=
  "push ".toList ++ quote ++ "route ".toList ++ ipString route.Network.IP ++ [' ']
    ++ ipString (applyMask (v4InV6Header ++ [255, 255, 255, 255]) route.Network.Mask)
    ++ quote ++ "\n".toList

/-- A rule for port 22 of `10.0.3.0/24`. -/
def ruleC : FirewallRule := ⟨⟨[10, 0, 3, 0], CIDRMask 24 32⟩, 22⟩

/-- The packet filter after `UpdateUser` has created the chain of `alice` with
the rules `ruleB`, `ruleA` and `ruleC`, in this order. -/
def threeRuleFirewall : Firewall :=
  (emptyFirewall.UpdateUser iptablesOk id "alice".toList (some [ruleB, ruleA, ruleC])).1

/-- The argument list of the port-less `--append` command for a chain, the text
of a network and a tunnel device. -/
def appendAny (chain network vpnInterface : Str) : List Str :=
  ["--append".toList, chain, "--destination".toList, network, "--in-interface".toList,
    vpnInterface, "--match".toList, "conntrack".toList, "--ctstate".toList, "NEW".toList,
    "--jump".toList, "ACCEPT".toList]

/-- The argument list of the `--append` command for one TCP port. -/
def appendPort (chain network vpnInterface : Str) (port : Nat) : List Str :=
  ["--append".toList, chain, "--destination".toList, network, "--in-interface".toList,
    vpnInterface, "--protocol".toList, "tcp".toList, "--match".toList, "tcp".toList,
    "--dport".toList, uitoa port, "--match".toList, "conntrack".toList, "--ctstate".toList,
    "NEW".toList, "--jump".toList, "ACCEPT".toList]

/-- A file system on which every operation succeeds. -/
def fileSystemOk : FileSystem := fun _ _ => none

/-- Stand-ins for the library calls of `Add`: the encoding of a key is its
modulus as one byte, the digest of an encoding is the encoding itself, every
certificate is the byte 1, and the hash of a subject is `dn-` followed by the
common name. -/
def plainX509 : X509 :=
  ⟨fun key => .ok [key.1 % 256], fun spki => spki, fun _ _ _ _ => .ok [1],
    fun user _ => .ok ("dn-".toList ++ user)⟩

/-- A certificate manager without certificates, on the directory `capath`. -/
def emptyCA : CertificateManager := ⟨"capath".toList, 0, [], [], [], []⟩

/-- The key operations of the examples over the certificate manager of `ca.go`:
every alias has the key body `body` (`none` for no body), which parses to the
key with modulus 7. -/
def exampleKeyOps (body : Option (List Nat)) : KeyOps CertificateManager :=
  caKeyOps plainX509 fileSystemOk (fun _ _ => (body, none)) (fun _ => .ok (7, 65537))

/-- One run of `updateKeys` for the user `alice` while the backend lists the
aliases `keys`; `none` when the run panics or returns an error. -/
def keyRun (body : Option (List Nat)) (state : Option (List (Str × userKeys) × CertificateManager))
    (keys : List String) : Option (List (Str × userKeys) × CertificateManager) :=
  match state with
  | none => none
  | some (users, ca) =>
    match updateKeys keyInsertionOrder (keysBackend keys) (exampleKeyOps body) users ca
        [("alice".toList, [])] with
    | some (s, none) => some (s.users, s.ca)
    | _ => none

/-- The key index and the certificate manager after runs of `updateKeys` for
the user `alice`, one for each list of aliases the backend lists in turn,
starting from the empty index. -/
def afterKeyRuns (body : Option (List Nat)) (runs : List (List String)) :
    Option (List (Str × userKeys) × CertificateManager) :=
  runs.foldl (keyRun body) (some ([], emptyCA))

/-- The order that visits every map of `buildUserConfigs` in insertion order. -/
def updateInsertionOrder : UpdateOrder := ⟨id, id, id, keyInsertionOrder, insertionOrder⟩

/-- A backend that delivers the given text as `vpn.conf`, a topology without
subnets, and no member for any group. -/
def textBackend (text : String) : PolicyBackend :=
  ⟨fun _ => (some text.toList, none), (some noTopology, none), fun _ => (some [], none)⟩

/-- The command `client-kill c` is among the commands handed to the daemon on
the way from `m` to `m1`. -/
def killSent (m m1 : VPNManager) (c : Nat) : Prop :=
  (clientKill c, false) ∈ m1.sent.drop m.sent.length

instance killSent.decidable (m m1 : VPNManager) (c : Nat) : Decidable (killSent m m1 c) :=
  inferInstanceAs (Decidable ((clientKill c, false) ∈ m1.sent.drop m.sent.length))

section GoMapLemmas

variable {K V : Type} [DecidableEq K]

theorem mapGet_eq_none_iff (m : List (K × V)) (k : K) :
    mapGet m k = none ↔ k ∉ m.map Prod.fst := by
  induction m with
  | nil => simp [mapGet]
  | cons a rest ih =>
    obtain ⟨k1, v1⟩ := a
    by_cases h : k1 = k
    · simp [mapGet, h]
    · have h2 : ¬ k = k1 := fun e => h e.symm
      simp [mapGet, h, h2, ih]

theorem mem_of_mapGet {m : List (K × V)} {k : K} {v : V} (h : mapGet m k = some v) :
    (k, v) ∈ m := by
  induction m with
  | nil => simp [mapGet] at h
  | cons a rest ih =>
    obtain ⟨k1, v1⟩ := a
    by_cases hk : k1 = k
    · simp [mapGet, hk] at h
      simp [hk, h]
    · simp [mapGet, hk] at h
      exact List.mem_cons_of_mem _ (ih h)

theorem mapGet_of_mem {m : List (K × V)} {k : K} {v : V} (hn : (m.map Prod.fst).Nodup)
    (h : (k, v) ∈ m) : mapGet m k = some v := by
  induction m with
  | nil => simp at h
  | cons a rest ih =>
    obtain ⟨k1, v1⟩ := a
    rw [List.map_cons, List.nodup_cons] at hn
    rcases List.mem_cons.1 h with h1 | h1
    · cases h1
      simp [mapGet]
    · have hk : k1 ≠ k := by
        intro e
        subst e
        exact hn.1 (List.mem_map.2 ⟨(k1, v), h1, rfl⟩)
      simp [mapGet, hk, ih hn.2 h1]

theorem keys_mapSet (m : List (K × V)) (k : K) (v : V) :
    (mapSet m k v).map Prod.fst =
      if k ∈ m.map Prod.fst then m.map Prod.fst else m.map Prod.fst ++ [k] := by
  induction m with
  | nil => simp [mapSet]
  | cons a rest ih =>
    obtain ⟨k1, v1⟩ := a
    by_cases hk : k1 = k
    · simp [mapSet, hk]
    · have h2 : ¬ k = k1 := fun e => hk e.symm
      simp only [mapSet, hk, if_false, List.map_cons, ih, List.mem_cons, h2, false_or]
      split <;> simp

theorem nodup_mapSet {m : List (K × V)} (k : K) (v : V) (hn : (m.map Prod.fst).Nodup) :
    ((mapSet m k v).map Prod.fst).Nodup := by
  rw [keys_mapSet]
  split
  · exact hn
  · rename_i h
    exact List.Nodup.append hn (List.nodup_singleton k) (by simpa using h)

theorem mem_keys_mapSet (m : List (K × V)) (k k1 : K) (v : V) :
    k1 ∈ (mapSet m k v).map Prod.fst ↔ k1 = k ∨ k1 ∈ m.map Prod.fst := by
  rw [keys_mapSet]
  split
  · rename_i h
    constructor
    · exact Or.inr
    · rintro (h1 | h1)
      · rw [h1]; exact h
      · exact h1
  · simp [or_comm]

theorem mapGet_mapSet (m : List (K × V)) (k k1 : K) (v : V) :
    mapGet (mapSet m k v) k1 = if k1 = k then some v else mapGet m k1 := by
  induction m with
  | nil =>
    by_cases h : k = k1
    · simp [mapSet, mapGet, h]
    · have h2 : ¬ k1 = k := fun e => h e.symm
      simp [mapSet, mapGet, h, h2]
  | cons a rest ih =>
    obtain ⟨k2, v2⟩ := a
    by_cases hk : k2 = k
    · subst hk
      by_cases h : k2 = k1
      · simp [mapSet, mapGet, h]
      · have h2 : ¬ k1 = k2 := fun e => h e.symm
        simp [mapSet, mapGet, h, h2]
    · simp only [mapSet, hk, if_false, mapGet, ih]
      by_cases h : k2 = k1
      · subst h
        simp [hk]
      · simp [h]

theorem mem_rangeAux (seen : List K) (m : List (K × V)) (k : K) (v : V) :
    (k, v) ∈ rangeAux seen m ↔ k ∉ seen ∧ mapGet m k = some v := by
  induction m generalizing seen with
  | nil => simp [rangeAux, mapGet]
  | cons a rest ih =>
    obtain ⟨k1, v1⟩ := a
    by_cases hs : k1 ∈ seen
    · simp only [rangeAux, hs, if_true, ih, mapGet]
      by_cases hk : k1 = k
      · subst hk
        simp [hs]
      · simp [hk]
    · simp only [rangeAux, hs, if_false, List.mem_cons, ih, mapGet, Prod.mk.injEq, not_or]
      by_cases hk : k1 = k
      · subst hk
        simp [hs]
        constructor
        · intro h; exact h.symm
        · intro h; exact h.symm
      · have h2 : ¬ k = k1 := fun e => hk e.symm
        simp [hk, h2]

theorem mem_rangeMap (m : List (K × V)) (k : K) (v : V) :
    (k, v) ∈ rangeMap m ↔ mapGet m k = some v := by
  simp [rangeMap, mem_rangeAux]

end GoMapLemmas

/-! ## The route map of `GetUserConfig` -/

theorem mem_addPorts (cur ps : List Nat) (p : Nat) :
    p ∈ addPorts cur ps ↔ p ∈ cur ∨ p ∈ ps := by
  unfold addPorts
  induction ps generalizing cur with
  | nil => simp
  | cons q rest ih =>
    rw [List.foldl_cons, ih]
    by_cases hq : q ∈ cur
    · rw [if_pos hq]
      constructor
      · rintro (h | h)
        · exact Or.inl h
        · exact Or.inr (List.mem_cons_of_mem _ h)
      · rintro (h | h)
        · exact Or.inl h
        · rcases List.mem_cons.1 h with h1 | h1
          · exact Or.inl (h1 ▸ hq)
          · exact Or.inr h1
    · rw [if_neg hq]
      simp only [List.mem_append, List.mem_singleton, List.mem_cons]
      tauto

theorem mapGet_addRoute (n : IPNet) (ps : List Nat) (m : List (networkKey × List Nat))
    (k : networkKey) :
    mapGet (addRoute n ps m) k =
      if k = toNetworkKey n then some (addPorts ((mapGet m (toNetworkKey n)).getD []) ps)
      else mapGet m k := by
  unfold addRoute
  cases h : mapGet m (toNetworkKey n) with
  | none => simp [mapGet_mapSet]
  | some cur => simp [mapGet_mapSet]

theorem nodup_addRoute (n : IPNet) (ps : List Nat) {m : List (networkKey × List Nat)}
    (hn : (m.map Prod.fst).Nodup) : ((addRoute n ps m).map Prod.fst).Nodup := by
  unfold addRoute
  cases h : mapGet m (toNetworkKey n) with
  | none => exact nodup_mapSet _ _ hn
  | some cur => exact nodup_mapSet _ _ hn

theorem Tracks.nil : Tracks [] [] :=
  ⟨by simp, by simp [mapGet], by simp [mapGet]⟩

theorem Tracks.congr {m : List (networkKey × List Nat)} {cs cs1 : List (IPNet × List Nat)}
    (h : Tracks m cs) (he : ∀ c, c ∈ cs ↔ c ∈ cs1) : Tracks m cs1 := by
  refine ⟨h.nodup, fun k => ?_, fun k ps hk p => ?_⟩
  · rw [h.keys k]
    constructor
    · rintro ⟨c, hc, e⟩; exact ⟨c, (he c).1 hc, e⟩
    · rintro ⟨c, hc, e⟩; exact ⟨c, (he c).2 hc, e⟩
  · rw [h.ports k ps hk p]
    constructor
    · rintro ⟨c, hc, e⟩; exact ⟨c, (he c).1 hc, e⟩
    · rintro ⟨c, hc, e⟩; exact ⟨c, (he c).2 hc, e⟩

theorem Tracks.addRoute {m : List (networkKey × List Nat)} {cs : List (IPNet × List Nat)}
    (h : Tracks m cs) (n : IPNet) (ps : List Nat) :
    Tracks (addRoute n ps m) (cs ++ [(n, ps)]) := by
  refine ⟨nodup_addRoute n ps h.nodup, fun k => ?_, fun k qs hk p => ?_⟩
  · rw [mapGet_addRoute]
    by_cases hk : k = toNetworkKey n
    · rw [if_pos hk]
      simp only [ne_eq, reduceCtorEq, not_false_eq_true, true_iff]
      exact ⟨(n, ps), by simp, hk.symm⟩
    · rw [if_neg hk, h.keys k]
      constructor
      · rintro ⟨c, hc, e⟩; exact ⟨c, List.mem_append_left _ hc, e⟩
      · rintro ⟨c, hc, e⟩
        rcases List.mem_append.1 hc with h1 | h1
        · exact ⟨c, h1, e⟩
        · rw [List.mem_singleton] at h1
          subst h1
          exact absurd e.symm hk
  · rw [mapGet_addRoute] at hk
    by_cases hkn : k = toNetworkKey n
    · rw [if_pos hkn] at hk
      cases hk
      rw [mem_addPorts]
      constructor
      · rintro (h1 | h1)
        · cases hg : mapGet m (toNetworkKey n) with
          | none => rw [hg] at h1; simp at h1
          | some cur =>
            rw [hg] at h1
            obtain ⟨c, hc, e, hp⟩ := (h.ports (toNetworkKey n) cur hg p).1 h1
            exact ⟨c, List.mem_append_left _ hc, e.trans hkn.symm, hp⟩
        · exact ⟨(n, ps), by simp, hkn.symm, h1⟩
      · rintro ⟨c, hc, e, hp⟩
        rcases List.mem_append.1 hc with h1 | h1
        · left
          cases hg : mapGet m (toNetworkKey n) with
          | none =>
            exfalso
            exact (h.keys (toNetworkKey n)).2 ⟨c, h1, e.trans hkn⟩ hg
          | some cur =>
            exact (h.ports (toNetworkKey n) cur hg p).2 ⟨c, h1, e.trans hkn, hp⟩
        · rw [List.mem_singleton] at h1
          subst h1
          exact Or.inr hp
    · rw [if_neg hkn] at hk
      rw [h.ports k qs hk p]
      constructor
      · rintro ⟨c, hc, e⟩; exact ⟨c, List.mem_append_left _ hc, e⟩
      · rintro ⟨c, hc, e, hp⟩
        rcases List.mem_append.1 hc with h1 | h1
        · exact ⟨c, h1, e, hp⟩
        · rw [List.mem_singleton] at h1
          subst h1
          exact absurd e.symm hkn

/-- A loop that only calls `addRoute` keeps the route map in step with the
contributions it hands over. -/
theorem Tracks.foldl {α : Type} (f : List (networkKey × List Nat) → α → List (networkKey × List Nat))
    (g : α → List (IPNet × List Nat))
    (hf : ∀ m cs a, Tracks m cs → Tracks (f m a) (cs ++ g a))
    (l : List α) {m : List (networkKey × List Nat)} {cs : List (IPNet × List Nat)}
    (h : Tracks m cs) : Tracks (l.foldl f m) (cs ++ l.flatMap g) := by
  induction l generalizing m cs with
  | nil => simpa using h
  | cons a rest ih =>
    rw [List.foldl_cons, List.flatMap_cons, ← List.append_assoc]
    exact ih (hf m cs a h)

theorem walkRoute_eq (routes : List (networkKey × List Nat)) (route : Route) :
    walkRoute routes route =
      addRoute route.Network route.Ports (addRoute route.Network route.Ports routes) := rfl

theorem Tracks.walkRoute {m : List (networkKey × List Nat)} {cs : List (IPNet × List Nat)}
    (h : Tracks m cs) (route : Route) :
    Tracks (walkRoute m route) (cs ++ [(route.Network, route.Ports)]) := by
  rw [walkRoute_eq]
  refine ((h.addRoute route.Network route.Ports).addRoute route.Network route.Ports).congr ?_
  intro c
  simp only [List.mem_append, List.mem_singleton]
  tauto

theorem Tracks.walkSubnet (netinfo : NetworkInfo) {m : List (networkKey × List Nat)}
    {cs : List (IPNet × List Nat)} (h : Tracks m cs) (subnet : Subnet) :
    Tracks (walkSubnet netinfo m subnet) (cs ++ subnetContrib netinfo subnet) := by
  unfold OpenvpnAws.walkSubnet subnetContrib
  cases hg : mapGet netinfo.Subnets subnet.Name with
  | none => simpa using h
  | some network => exact h.addRoute network subnet.Ports

theorem Tracks.walkSection (netinfo : NetworkInfo) {w : Walk} {cs : List (IPNet × List Nat)}
    (h : Tracks w.routes cs) (sec : SectionConfig) :
    Tracks (walkSection netinfo w sec).routes (cs ++ sectionContribs netinfo sec) := by
  unfold OpenvpnAws.walkSection sectionContribs
  simp only
  rw [← List.append_assoc]
  apply Tracks.foldl (OpenvpnAws.walkSubnet netinfo) (subnetContrib netinfo)
    (fun m cs a hm => Tracks.walkSubnet netinfo hm a)
  exact Tracks.foldl OpenvpnAws.walkRoute (fun route => [(route.Network, route.Ports)])
    (fun m cs a hm => Tracks.walkRoute hm a) _ h

theorem lastFlag_append (init : Nat) (l : List Nat) (f : Nat) :
    lastFlag init (l ++ [f]) = if f ≠ NOT_SET then f else lastFlag init l := by
  simp [lastFlag, List.foldl_append]

theorem foldl_walkSection (netinfo : NetworkInfo) (secs : List SectionConfig) (w : Walk)
    (cs : List (IPNet × List Nat)) (h : Tracks w.routes cs) :
    (secs.foldl (walkSection netinfo) w).dns = lastFlag w.dns (secs.map (·.DNSSetting)) ∧
    (secs.foldl (walkSection netinfo) w).nat = lastFlag w.nat (secs.map (·.NATSetting)) ∧
    (secs.foldl (walkSection netinfo) w).natRoutes = w.natRoutes ++ secs.flatMap (·.NATRoutes) ∧
    (secs.foldl (walkSection netinfo) w).allSubnets =
      (w.allSubnets && secs.all (fun s => s.Subnets.length = 0)) ∧
    Tracks (secs.foldl (walkSection netinfo) w).routes
      (cs ++ secs.flatMap (sectionContribs netinfo)) := by
  induction secs generalizing w cs with
  | nil => simpa [lastFlag] using h
  | cons s rest ih =>
    obtain ⟨h1, h2, h3, h4, h5⟩ := ih (walkSection netinfo w s) _ (Tracks.walkSection netinfo h s)
    rw [List.foldl_cons]
    refine ⟨?_, ?_, ?_, ?_, ?_⟩
    · rw [h1]; simp [lastFlag, walkSection]
    · rw [h2]; simp [lastFlag, walkSection]
    · rw [h3]; simp [walkSection]
    · rw [h4]
      by_cases hs : s.Subnets = []
      · simp [walkSection, hs]
      · simp [walkSection, hs]
    · rw [List.flatMap_cons, ← List.append_assoc]
      exact h5

theorem walkSections_fields (ord : MapOrder) (config : ConfigFile) (user : Str)
    (groups : List Str) (netinfo : NetworkInfo) :
    (walkSections ord config user groups netinfo).dns
        = lastFlag NOT_SET ((userSections ord config user groups).map (·.DNSSetting)) ∧
    (walkSections ord config user groups netinfo).nat = natMode ord config user groups ∧
    (walkSections ord config user groups netinfo).natRoutes
        = (userSections ord config user groups).flatMap (·.NATRoutes) ∧
    (walkSections ord config user groups netinfo).allSubnets
        = allSubnets ord config user groups ∧
    Tracks (walkSections ord config user groups netinfo).routes
      ((userSections ord config user groups).flatMap (sectionContribs netinfo)) := by
  have h := foldl_walkSection netinfo (userSections ord config user groups)
    ⟨NOT_SET, ALL, [], [], true⟩ [] Tracks.nil
  simpa [walkSections, natMode, allSubnets] using h

theorem tracks_finalRoutes (ord : MapOrder) (hv : ord.Valid) (config : ConfigFile) (user : Str)
    (groups : List Str) (netinfo : NetworkInfo) :
    Tracks (finalRoutes ord netinfo (walkSections ord config user groups netinfo))
      (contributions ord config user groups netinfo) := by
  obtain ⟨-, h2, h3, h4, h5⟩ := walkSections_fields ord config user groups netinfo
  have hnat : Tracks (natBlock netinfo (walkSections ord config user groups netinfo))
      ((userSections ord config user groups).flatMap (sectionContribs netinfo)
        ++ (if natMode ord config user groups ≠ OFF then
          (if natMode ord config user groups = ALL then netinfo.NAT.map (fun n => (n, [])) else [])
            ++ ((userSections ord config user groups).flatMap (·.NATRoutes)).map
                (fun route => (route.Network, route.Ports))
        else [])) := by
    unfold natBlock
    rw [h2, h3]
    by_cases hoff : natMode ord config user groups = OFF
    · simpa [hoff] using h5
    · rw [if_pos hoff, if_pos hoff]
      have hstart : Tracks
          (if natMode ord config user groups = ALL then
            netinfo.NAT.foldl (fun routes network => addRoute network [] routes)
              (walkSections ord config user groups netinfo).routes
            else (walkSections ord config user groups netinfo).routes)
          ((userSections ord config user groups).flatMap (sectionContribs netinfo)
            ++ (if natMode ord config user groups = ALL then netinfo.NAT.map (fun n => (n, []))
                else [])) := by
        by_cases hall : natMode ord config user groups = ALL
        · rw [if_pos hall, if_pos hall]
          refine (Tracks.foldl (fun routes network => addRoute network [] routes)
            (fun n => [(n, [])]) (fun m cs a hm => hm.addRoute a []) netinfo.NAT h5).congr ?_
          intro c
          simp [List.mem_flatMap, eq_comm]
        · rw [if_neg hall, if_neg hall]
          simpa using h5
      refine (Tracks.foldl (fun routes (route : Route) => addRoute route.Network route.Ports routes)
        (fun route => [(route.Network, route.Ports)])
        (fun m cs a hm => hm.addRoute a.Network a.Ports) _ hstart).congr ?_
      intro c
      simp only [List.mem_append, List.mem_flatMap, List.mem_map, List.mem_singleton]
      constructor
      · rintro (h | ⟨a, ha, e⟩)
        · rcases h with h | h
          · exact Or.inl h
          · exact Or.inr (Or.inl h)
        · exact Or.inr (Or.inr ⟨a, ha, e.symm⟩)
      · rintro (h | h | ⟨a, ha, e⟩)
        · exact Or.inl (Or.inl h)
        · exact Or.inl (Or.inr h)
        · exact Or.inr ⟨a, ha, e.symm⟩
  unfold finalRoutes contributions
  rw [h4]
  by_cases hall : allSubnets ord config user groups = true
  · rw [if_pos hall, if_pos hall]
    refine (Tracks.foldl (fun routes (kv : Str × IPNet) => addRoute kv.2 [] routes)
      (fun kv => [(kv.2, [])]) (fun m cs a hm => hm.addRoute a.2 []) _ hnat).congr ?_
    intro c
    simp only [List.mem_append, List.mem_flatMap, List.mem_map, List.mem_singleton]
    constructor
    · rintro (h | ⟨a, ha, e⟩)
      · exact Or.inl h
      · exact Or.inr ⟨a, (hv.subnets _).mem_iff.1 ha, e.symm⟩
    · rintro (h | ⟨a, ha, e⟩)
      · exact Or.inl h
      · exact Or.inr ⟨a, (hv.subnets _).mem_iff.2 ha, e.symm⟩
  · rw [if_neg hall, if_neg hall]
    simpa using hnat

theorem GetUserConfig_ok {ord : MapOrder} {config : ConfigFile} {user : Str}
    {groups : List Str} {netinfo : NetworkInfo} {r : UserConfig}
    (h : GetUserConfig ord config user groups netinfo = .ok r) :
    r = ⟨(walkSections ord config user groups netinfo).dns, sortSlice routeLess
      ((ord.routes (finalRoutes ord netinfo (walkSections ord config user groups netinfo))).map
        (fun kv => ⟨toIPNet kv.1, ord.ports kv.1 kv.2⟩))⟩ := by
  unfold GetUserConfig at h
  split at h
  · cases h
  · cases h
    rfl

theorem routes_perm {ord : MapOrder} (hv : ord.Valid) {config : ConfigFile} {user : Str}
    {groups : List Str} {netinfo : NetworkInfo} {r : UserConfig}
    (h : GetUserConfig ord config user groups netinfo = .ok r) :
    r.Routes.Perm
      ((finalRoutes ord netinfo (walkSections ord config user groups netinfo)).map
        (fun kv => (⟨toIPNet kv.1, ord.ports kv.1 kv.2⟩ : UserRoute))) := by
  rw [GetUserConfig_ok h]
  exact (List.perm_insertionSort _ _).trans ((hv.routes _).map _)

/-- Every resolved route comes from a contribution: its network is the one
rebuilt from the key of a contributed network, and its ports are those listed
by the contributions of that key. -/
theorem resolved_route_origin {ord : MapOrder} (hv : ord.Valid) {config : ConfigFile}
    {user : Str} {groups : List Str} {netinfo : NetworkInfo} {r : UserConfig}
    (h : GetUserConfig ord config user groups netinfo = .ok r) {rt : UserRoute}
    (hrt : rt ∈ r.Routes) :
    ∃ c ∈ contributions ord config user groups netinfo,
      rt.Network = toIPNet (toNetworkKey c.1) ∧
      ∀ p, p ∈ rt.Ports ↔ ∃ c1 ∈ contributions ord config user groups netinfo,
        toNetworkKey c1.1 = toNetworkKey c.1 ∧ p ∈ c1.2 := by
  have ht := tracks_finalRoutes ord hv config user groups netinfo
  obtain ⟨⟨k, ps⟩, hkv, e⟩ := List.mem_map.1 ((routes_perm hv h).mem_iff.1 hrt)
  have hg := mapGet_of_mem ht.nodup hkv
  obtain ⟨c, hc, hk⟩ := (ht.keys k).1 (by rw [hg]; simp)
  refine ⟨c, hc, ?_, fun p => ?_⟩
  · rw [← e, hk]
  · rw [← e, hk]
    simp only
    rw [(hv.ports k ps).mem_iff, ht.ports k ps hg p]

/-- Every contribution is resolved: the result has a route for its key whose
ports are those listed by the contributions of that key. -/
theorem contribution_resolved {ord : MapOrder} (hv : ord.Valid) {config : ConfigFile}
    {user : Str} {groups : List Str} {netinfo : NetworkInfo} {r : UserConfig}
    (h : GetUserConfig ord config user groups netinfo = .ok r) {c : IPNet × List Nat}
    (hc : c ∈ contributions ord config user groups netinfo) :
    ∃ rt ∈ r.Routes, rt.Network = toIPNet (toNetworkKey c.1) ∧
      ∀ p, p ∈ rt.Ports ↔ ∃ c1 ∈ contributions ord config user groups netinfo,
        toNetworkKey c1.1 = toNetworkKey c.1 ∧ p ∈ c1.2 := by
  have ht := tracks_finalRoutes ord hv config user groups netinfo
  have hk := (ht.keys (toNetworkKey c.1)).2 ⟨c, hc, rfl⟩
  cases hg : mapGet (finalRoutes ord netinfo (walkSections ord config user groups netinfo))
      (toNetworkKey c.1) with
  | none => exact absurd hg hk
  | some ps =>
    refine ⟨⟨toIPNet (toNetworkKey c.1), ord.ports (toNetworkKey c.1) ps⟩, ?_, rfl, fun p => ?_⟩
    · exact (routes_perm hv h).mem_iff.2 (List.mem_map.2 ⟨(toNetworkKey c.1, ps), mem_of_mapGet hg, rfl⟩)
    · simp only
      rw [(hv.ports _ ps).mem_iff, ht.ports _ ps hg p]

theorem groupSections_length (config : ConfigFile) (groups : List Str) :
    (groupSections config groups).length = 1 ↔ ∀ g ∈ groups, mapGet config.Groups g = none := by
  unfold groupSections
  rw [List.length_cons, Nat.succ_inj', List.length_eq_zero, List.filterMap_eq_nil_iff]

theorem getUserConfig_error_iff (ord : MapOrder) (config : ConfigFile) (user : Str)
    (groups : List Str) (netinfo : NetworkInfo) :
    ((∃ e, GetUserConfig ord config user groups netinfo = .error e) ↔
        (mapGet config.Users user = none ∧ ∀ g ∈ groups, mapGet config.Groups g = none)) ∧
      (¬ (mapGet config.Users user = none ∧ ∀ g ∈ groups, mapGet config.Groups g = none) →
        ∃ r, GetUserConfig ord config user groups netinfo = .ok r) := by
  have hc : ((mapGet config.Users user).isNone ∧ (groupSections config groups).length = 1) ↔
      (mapGet config.Users user = none ∧ ∀ g ∈ groups, mapGet config.Groups g = none) := by
    rw [groupSections_length, Option.isNone_iff_eq_none]
  unfold GetUserConfig
  by_cases h : mapGet config.Users user = none ∧ ∀ g ∈ groups, mapGet config.Groups g = none
  · rw [if_pos (hc.2 h)]
    exact ⟨⟨fun _ => h, fun _ => ⟨_, rfl⟩⟩, fun hn => absurd h hn⟩
  · rw [if_neg (fun hh => h (hc.1 hh))]
    refine ⟨⟨fun he => ?_, fun hh => absurd hh h⟩, fun _ => ⟨_, rfl⟩⟩
    obtain ⟨e, he⟩ := he
    cases he

theorem authenticateUser_cases (ord : MapOrder) (backend : Backend) (c : userManager)
    (user keyHash : Str) :
    ((authenticateUser ord backend c user keyHash).1.config ≠ none →
        (authenticateUser ord backend c user keyHash).1.err = none ∧
        ∃ userInfo keys, mapGet c.users user = some userInfo ∧
          mapGet userInfo.keyByHash keyHash = some (authenticateUser ord backend c user keyHash).1.keyId ∧
          (backend.FetchKeys user).1 = some keys ∧
          (authenticateUser ord backend c user keyHash).1.keyId ∈ keys) ∧
      (¬ (∃ userInfo keyAlias keys, mapGet c.users user = some userInfo ∧
            mapGet userInfo.keyByHash keyHash = some keyAlias ∧
            (backend.FetchKeys user).1 = some keys ∧ keyAlias ∈ keys) →
        (authenticateUser ord backend c user keyHash).1.config = none ∧
        (authenticateUser ord backend c user keyHash).1.err ≠ none) := by
  have key : ∀ r : AuthResult, r = (authenticateUser ord backend c user keyHash).1 →
      (r.config ≠ none → r.err = none ∧
        ∃ userInfo keys, mapGet c.users user = some userInfo ∧
          mapGet userInfo.keyByHash keyHash = some r.keyId ∧
          (backend.FetchKeys user).1 = some keys ∧ r.keyId ∈ keys) ∧
      (r.config = none → r.err ≠ none) := by
    intro r hr
    unfold authenticateUser at hr
    cases hu : mapGet c.users user with
    | none => simp [hu] at hr; subst hr; simp
    | some userInfo =>
      cases hh : mapGet userInfo.keyByHash keyHash with
      | none => simp [hu, hh] at hr; subst hr; simp
      | some keyAlias =>
        simp only [hu, hh, Option.getD_some] at hr
        by_cases ha : keyAlias = []
        · simp [ha] at hr; subst hr; simp
        · rw [if_neg ha] at hr
          cases hk : (backend.FetchKeys user).1 with
          | none =>
            by_cases he : (backend.FetchKeys user).2 = none
            · simp [hk, he] at hr; subst hr; simp
            · simp [hk, he] at hr; subst hr; simp
          | some keys =>
            simp only [hk] at hr
            by_cases hm : keyAlias ∈ keys
            · simp only [reduceCtorEq, false_and, if_false, Option.getD_some, hm, not_true_eq_false] at hr
              split at hr
              · subst hr; simp [hm, hh]
              · subst hr; simp
            · simp [hm] at hr; subst hr; simp
  constructor
  · exact (key _ rfl).1
  · intro hn
    have h1 := (key _ rfl).1
    have h2 := (key _ rfl).2
    by_cases hc : (authenticateUser ord backend c user keyHash).1.config = none
    · exact ⟨hc, h2 hc⟩
    · exfalso
      obtain ⟨_, ui, keys, a, b, c1, d⟩ := h1 hc
      exact hn ⟨ui, _, keys, a, b, c1, d⟩
theorem insertionOrder_valid : insertionOrder.Valid :=
  ⟨fun _ => List.Perm.refl _, fun _ => List.Perm.refl _, fun _ _ => List.Perm.refl _,
    fun _ => List.Perm.refl _⟩

theorem mem_userSections {ord : MapOrder} (hv : ord.Valid) (config : ConfigFile) (user : Str)
    (groups : List Str) (s : SectionConfig) :
    s ∈ userSections ord config user groups ↔ Contributing config user groups s := by
  unfold userSections Contributing sortSlice
  rw [List.mem_append, (List.perm_insertionSort _ _).mem_iff, (hv.sections _).mem_iff]
  unfold groupSections
  simp only [List.mem_cons, List.mem_filterMap, Option.mem_toList, Option.mem_def]
  constructor
  · rintro ((h | ⟨g, hg, e⟩) | h)
    · exact Or.inl h
    · exact Or.inr (Or.inl ⟨g, hg, e⟩)
    · exact Or.inr (Or.inr h)
  · rintro (h | ⟨g, hg, e⟩ | h)
    · exact Or.inl (Or.inl h)
    · exact Or.inl (Or.inr ⟨g, hg, e⟩)
    · exact Or.inr h

theorem mem_sectionContribs (netinfo : NetworkInfo) (sec : SectionConfig) (c : IPNet × List Nat) :
    c ∈ sectionContribs netinfo sec ↔
      (∃ route ∈ sec.Routes, c = (route.Network, route.Ports)) ∨
      (∃ subnet ∈ sec.Subnets, ∃ n, mapGet netinfo.Subnets subnet.Name = some n ∧
        c = (n, subnet.Ports)) := by
  unfold sectionContribs
  simp only [List.mem_append, List.mem_flatMap, List.mem_singleton]
  apply or_congr Iff.rfl
  constructor
  · rintro ⟨subnet, hs, hc⟩
    unfold subnetContrib at hc
    cases hg : mapGet netinfo.Subnets subnet.Name with
    | none => rw [hg] at hc; simp at hc
    | some n =>
      rw [hg] at hc
      exact ⟨subnet, hs, n, hg, by simpa using hc⟩
  · rintro ⟨subnet, hs, n, hg, hc⟩
    refine ⟨subnet, hs, ?_⟩
    unfold subnetContrib
    rw [hg]
    simp [hc]

theorem mem_contributions {ord : MapOrder} (hv : ord.Valid) (config : ConfigFile) (user : Str)
    (groups : List Str) (netinfo : NetworkInfo) (c : IPNet × List Nat) :
    c ∈ contributions ord config user groups netinfo ↔
      (∃ s route, Contributing config user groups s ∧ route ∈ s.Routes ∧
        c = (route.Network, route.Ports)) ∨
      (∃ s subnet n, Contributing config user groups s ∧ subnet ∈ s.Subnets ∧
        mapGet netinfo.Subnets subnet.Name = some n ∧ c = (n, subnet.Ports)) ∨
      (natMode ord config user groups = ALL ∧ ∃ n ∈ netinfo.NAT, c = (n, [])) ∨
      (natMode ord config user groups ≠ OFF ∧ ∃ s route, Contributing config user groups s ∧
        route ∈ s.NATRoutes ∧ c = (route.Network, route.Ports)) ∨
      (allSubnets ord config user groups = true ∧ ∃ name n,
        mapGet netinfo.Subnets name = some n ∧ c = (n, [])) := by
  have hALL : ALL ≠ OFF := by decide
  unfold contributions
  simp only [List.mem_append, List.mem_flatMap, mem_sectionContribs, mem_userSections hv]
  constructor
  · rintro ((⟨s, hs, h | h⟩ | h) | h)
    · obtain ⟨route, hr, e⟩ := h
      exact Or.inl ⟨s, route, hs, hr, e⟩
    · obtain ⟨subnet, hr, n, hg, e⟩ := h
      exact Or.inr (Or.inl ⟨s, subnet, n, hs, hr, hg, e⟩)
    · by_cases hoff : natMode ord config user groups = OFF
      · simp [hoff] at h
      · rw [if_pos hoff] at h
        rcases List.mem_append.1 h with h1 | h1
        · by_cases hall : natMode ord config user groups = ALL
          · rw [if_pos hall] at h1
            obtain ⟨n, hn, e⟩ := List.mem_map.1 h1
            exact Or.inr (Or.inr (Or.inl ⟨hall, n, hn, e.symm⟩))
          · rw [if_neg hall] at h1
            simp at h1
        · obtain ⟨route, hr, e⟩ := List.mem_map.1 h1
          obtain ⟨s, hs, hr1⟩ := List.mem_flatMap.1 hr
          exact Or.inr (Or.inr (Or.inr (Or.inl
            ⟨hoff, s, route, (mem_userSections hv _ _ _ _).1 hs, hr1, e.symm⟩)))
    · by_cases hall : allSubnets ord config user groups = true
      · rw [if_pos hall] at h
        obtain ⟨⟨name, n⟩, hkv, e⟩ := List.mem_map.1 h
        exact Or.inr (Or.inr (Or.inr (Or.inr
          ⟨hall, name, n, (mem_rangeMap _ _ _).1 hkv, e.symm⟩)))
      · rw [if_neg hall] at h
        simp at h
  · rintro (h | h | h | h | h)
    · obtain ⟨s, route, hs, hr, e⟩ := h
      exact Or.inl (Or.inl ⟨s, hs, Or.inl ⟨route, hr, e⟩⟩)
    · obtain ⟨s, subnet, n, hs, hr, hg, e⟩ := h
      exact Or.inl (Or.inl ⟨s, hs, Or.inr ⟨subnet, hr, n, hg, e⟩⟩)
    · obtain ⟨hall, n, hn, e⟩ := h
      refine Or.inl (Or.inr ?_)
      rw [if_pos (by rw [hall]; exact hALL), if_pos hall]
      exact List.mem_append_left _ (List.mem_map.2 ⟨n, hn, e.symm⟩)
    · obtain ⟨hoff, s, route, hs, hr, e⟩ := h
      refine Or.inl (Or.inr ?_)
      rw [if_pos hoff]
      exact List.mem_append_right _ (List.mem_map.2
        ⟨route, List.mem_flatMap.2 ⟨s, (mem_userSections hv _ _ _ _).2 hs, hr⟩, e.symm⟩)
    · obtain ⟨hall, name, n, hg, e⟩ := h
      refine Or.inr ?_
      rw [if_pos hall]
      exact List.mem_map.2 ⟨(name, n), (mem_rangeMap _ _ _).2 hg, e.symm⟩

theorem allSubnets_iff {ord : MapOrder} (hv : ord.Valid) (config : ConfigFile) (user : Str)
    (groups : List Str) :
    allSubnets ord config user groups = true ↔
      ∀ s, Contributing config user groups s → s.Subnets = [] := by
  unfold allSubnets
  rw [List.all_eq_true]
  constructor
  · intro h s hs
    have := h s ((mem_userSections hv _ _ _ _).2 hs)
    simpa using this
  · intro h s hs
    have := h s ((mem_userSections hv _ _ _ _).1 hs)
    simp [this]

set_option maxRecDepth 100000 in
theorem size_cidrMask32 : ∀ ones < 33, Size (CIDRMask ones 32) = (ones, 32) := by decide

set_option maxRecDepth 100000 in
theorem size_cidrMask128 : ∀ ones < 129, Size (CIDRMask ones 128) = (ones, 128) := by decide

theorem size_cidrMask (ones bits : Nat) (hb : bits = 32 ∨ bits = 128) (ho : ones ≤ bits) :
    Size (CIDRMask ones bits) = (ones, bits) := by
  rcases hb with hb | hb
  · subst hb
    exact size_cidrMask32 ones (by omega)
  · subst hb
    exact size_cidrMask128 ones (by omega)

theorem keyOk_of_cidrMaskOk (n : IPNet) (h : cidrMaskOk n.Mask = true) :
    keyOk (toNetworkKey n) := by
  unfold cidrMaskOk at h
  rw [decide_eq_true_iff] at h
  obtain ⟨hlen, he⟩ := h
  unfold keyOk toNetworkKey
  simp only
  unfold CIDRMask at he
  by_cases hb : (Size n.Mask).2 ≠ 32 ∧ (Size n.Mask).2 ≠ 128
  · rw [if_pos hb] at he
    rw [← he] at hlen
    simp at hlen
  · rw [if_neg hb] at he
    by_cases ho : (Size n.Mask).2 < (Size n.Mask).1
    · rw [if_pos ho] at he
      rw [← he] at hlen
      simp at hlen
    · constructor
      · by_contra hc
        exact hb ⟨fun e => hc (Or.inl e), fun e => hc (Or.inr e)⟩
      · omega

theorem toIPNet_injOn {k1 k2 : networkKey} (h1 : keyOk k1) (h2 : keyOk k2)
    (h : toIPNet k1 = toIPNet k2) : k1 = k2 := by
  unfold toIPNet at h
  have hip : k1.ip = k2.ip := congrArg IPNet.IP h
  have hm : CIDRMask k1.mask k1.size = CIDRMask k2.mask k2.size := congrArg IPNet.Mask h
  have hs := congrArg Size hm
  rw [size_cidrMask _ _ h1.1 h1.2, size_cidrMask _ _ h2.1 h2.2] at hs
  cases k1
  cases k2
  simp only [Prod.mk.injEq] at hs
  simp only at hip
  simp [hip, hs.1, hs.2]

theorem sectionNetsOk_of_netsOk {config : ConfigFile} {netinfo : NetworkInfo}
    (h : netsOk config netinfo = true) {user : Str} {groups : List Str} {s : SectionConfig}
    (hs : Contributing config user groups s) : sectionNetsOk s = true := by
  unfold netsOk at h
  simp only [Bool.and_eq_true, List.all_eq_true] at h
  obtain ⟨⟨⟨⟨hg, hgr⟩, hu⟩, -⟩, -⟩ := h
  rcases hs with hs | ⟨g, -, hs⟩ | hs
  · rw [hs]; exact hg
  · exact hgr _ (mem_of_mapGet hs)
  · exact hu _ (mem_of_mapGet hs)

theorem contribution_maskOk {ord : MapOrder} (hv : ord.Valid) {config : ConfigFile}
    {netinfo : NetworkInfo} (h : netsOk config netinfo = true) {user : Str}
    {groups : List Str} {c : IPNet × List Nat}
    (hc : c ∈ contributions ord config user groups netinfo) : cidrMaskOk c.1.Mask = true := by
  have hnet := h
  unfold netsOk at hnet
  simp only [Bool.and_eq_true, List.all_eq_true] at hnet
  obtain ⟨⟨-, hsub⟩, hnat⟩ := hnet
  rcases (mem_contributions hv _ _ _ _ _).1 hc with h1 | h1 | h1 | h1 | h1
  · obtain ⟨s, route, hs, hr, e⟩ := h1
    have := sectionNetsOk_of_netsOk h hs
    unfold sectionNetsOk at this
    simp only [Bool.and_eq_true, List.all_eq_true] at this
    rw [e]
    exact this.1 route hr
  · obtain ⟨s, subnet, n, hs, hr, hg, e⟩ := h1
    rw [e]
    exact hsub _ (mem_of_mapGet hg)
  · obtain ⟨-, n, hn, e⟩ := h1
    rw [e]
    exact hnat n hn
  · obtain ⟨-, s, route, hs, hr, e⟩ := h1
    have := sectionNetsOk_of_netsOk h hs
    unfold sectionNetsOk at this
    simp only [Bool.and_eq_true, List.all_eq_true] at this
    rw [e]
    exact this.2 route hr
  · obtain ⟨-, name, n, hg, e⟩ := h1
    rw [e]
    exact hsub _ (mem_of_mapGet hg)

theorem routes_nodup {ord : MapOrder} (hv : ord.Valid) {config : ConfigFile} {user : Str}
    {groups : List Str} {netinfo : NetworkInfo} {r : UserConfig}
    (hok : netsOk config netinfo = true)
    (h : GetUserConfig ord config user groups netinfo = .ok r) :
    (r.Routes.map (·.Network)).Nodup := by
  have ht := tracks_finalRoutes ord hv config user groups netinfo
  have hp := (routes_perm hv h).map (·.Network)
  rw [hp.nodup_iff, List.map_map]
  have hfun : ((fun x : UserRoute => x.Network) ∘
      fun kv : networkKey × List Nat => (⟨toIPNet kv.1, ord.ports kv.1 kv.2⟩ : UserRoute))
      = toIPNet ∘ Prod.fst := by
    funext kv
    rfl
  rw [hfun, ← List.map_map]
  refine List.Nodup.map_on ?_ ht.nodup
  intro k1 hk1 k2 hk2 e
  have hkey : ∀ k, k ∈ (finalRoutes ord netinfo
      (walkSections ord config user groups netinfo)).map Prod.fst → keyOk k := by
    intro k hk
    have hne : mapGet (finalRoutes ord netinfo
        (walkSections ord config user groups netinfo)) k ≠ none := by
      intro hnone
      exact (mapGet_eq_none_iff _ _).1 hnone hk
    obtain ⟨c, hc, ek⟩ := (ht.keys k).1 hne
    rw [← ek]
    exact keyOk_of_cidrMaskOk _ (contribution_maskOk hv hok hc)
  exact toIPNet_injOn (hkey k1 hk1) (hkey k2 hk2) e
/-! ### `ParseConfig` as a fold over the statements of the text -/

theorem parseLoop_eq_apply (pd : Str → Option Int) (lines : List Str) (p : Parser)
    (configFile : ConfigFile) (r : Parser × ConfigFile)
    (h : parseLoop pd p configFile lines = .ok r) :
    applyStatements pd configFile (readAll p lines) = .ok r.2 := by
  induction lines generalizing p configFile with
  | nil =>
    simp only [parseLoop, Except.ok.injEq] at h
    subst h
    rfl
  | cons l ls ih =>
    rw [parseLoop] at h
    rw [readAll]
    cases hs : p.step l with
    | skip p1 =>
      rw [hs] at h
      exact ih p1 configFile h
    | fail p1 e =>
      rw [hs] at h
      cases h
    | stmt p1 stmt =>
      rw [hs] at h
      simp only at h ⊢
      rw [applyStatements]
      cases hp : parseStatement pd configFile stmt with
      | error e =>
        rw [hp] at h
        cases h
      | ok c =>
        rw [hp] at h
        exact ih p1 c.1 h

theorem ParseConfig_eq_apply {pd : Str → Option Int} {text : Str} {config : ConfigFile}
    (h : ParseConfig pd text = .ok config) :
    applyStatements pd emptyConfig (statements text) = .ok config := by
  unfold ParseConfig at h
  cases hl : parseLoop pd ⟨[], [], 0⟩ emptyConfig (readLines text) with
  | error e =>
    rw [hl] at h
    cases h
  | ok r =>
    rw [hl] at h
    simp only [Except.ok.injEq] at h
    rw [← h]
    exact parseLoop_eq_apply pd _ _ _ r hl

theorem applyStatements_induction (pd : Str → Option Int) (P : ConfigFile → Prop)
    (hstep : ∀ c stmt c1 e, P c → parseStatement pd c stmt = .ok (c1, e) → P c1)
    (stmts : List ConfigStatement) (c c1 : ConfigFile) (hc : P c)
    (h : applyStatements pd c stmts = .ok c1) : P c1 := by
  induction stmts generalizing c with
  | nil =>
    simp only [applyStatements, Except.ok.injEq] at h
    exact h ▸ hc
  | cons stmt rest ih =>
    rw [applyStatements] at h
    cases hp : parseStatement pd c stmt with
    | error e =>
      rw [hp] at h
      cases h
    | ok r =>
      rw [hp] at h
      exact ih r.1 (hstep c stmt r.1 r.2 hc hp) h

theorem applyStatements_append (pd : Str → Option Int) (a b : List ConfigStatement)
    (c c2 : ConfigFile) (h : applyStatements pd c (a ++ b) = .ok c2) :
    ∃ c1, applyStatements pd c a = .ok c1 ∧ applyStatements pd c1 b = .ok c2 := by
  induction a generalizing c with
  | nil => exact ⟨c, rfl, h⟩
  | cons stmt rest ih =>
    rw [List.cons_append, applyStatements] at h
    rw [applyStatements]
    cases hp : parseStatement pd c stmt with
    | error e =>
      rw [hp] at h
      cases h
    | ok r =>
      rw [hp] at h
      exact ih r.1 h

theorem parseGlobal_sections {pd : Str → Option Int} {c c1 : ConfigFile}
    {stmt : ConfigStatement} {b : Bool} (h : parseGlobal pd c stmt = .ok (b, c1)) :
    c1.GlobalConfig = c.GlobalConfig ∧ c1.Groups = c.Groups ∧ c1.Users = c.Users := by
  unfold parseGlobal at h
  repeat' split at h
  all_goals (cases h <;> exact ⟨rfl, rfl, rfl⟩)

/-- What one round of the loop of `ParseConfig` does to the sections: a
statement consumed by `parseGlobal` leaves them alone, any other statement
replaces its own section by the result of `parseSection`. -/
theorem parseStatement_cases {pd : Str → Option Int} {c c1 : ConfigFile}
    {stmt : ConfigStatement} {e : Option Error}
    (h : parseStatement pd c stmt = .ok (c1, e)) :
    (stmt.SectionType = "global".toList ∧ parseGlobal pd c stmt = .ok (true, c1) ∧
        c1.GlobalConfig = c.GlobalConfig ∧ c1.Groups = c.Groups ∧ c1.Users = c.Users) ∨
    (stmt.SectionType = "global".toList ∧
        c1.GlobalConfig = (parseSection c.GlobalConfig stmt).1 ∧
        c1.Groups = c.Groups ∧ c1.Users = c.Users) ∨
    (stmt.SectionType = "group".toList ∧ c1.GlobalConfig = c.GlobalConfig ∧
        c1.Groups = mapSet c.Groups stmt.SectionName (parseSection (groupSection c stmt) stmt).1 ∧
        c1.Users = c.Users) ∨
    (stmt.SectionType = "user".toList ∧ c1.GlobalConfig = c.GlobalConfig ∧
        c1.Groups = c.Groups ∧
        c1.Users = mapSet c.Users stmt.SectionName (parseSection (userSection c stmt) stmt).1) := by
  unfold parseStatement at h
  by_cases hg : stmt.SectionType = "global".toList
  · rw [if_pos hg] at h
    cases hp : parseGlobal pd c stmt with
    | error e1 =>
      rw [hp] at h
      cases h
    | ok r =>
      obtain ⟨b, c2⟩ := r
      obtain ⟨s1, s2, s3⟩ := parseGlobal_sections hp
      rw [hp] at h
      cases b with
      | true =>
        simp only [Except.ok.injEq, Prod.mk.injEq] at h
        rw [← h.1]
        exact Or.inl ⟨hg, rfl, s1, s2, s3⟩
      | false =>
        simp only [Except.ok.injEq, Prod.mk.injEq] at h
        rw [← h.1]
        exact Or.inr (Or.inl ⟨hg, by simp [s1], s2, s3⟩)
  · rw [if_neg hg] at h
    by_cases hgr : stmt.SectionType = "group".toList
    · rw [if_pos hgr] at h
      simp only [Except.ok.injEq, Prod.mk.injEq] at h
      rw [← h.1]
      exact Or.inr (Or.inr (Or.inl ⟨hgr, rfl, rfl, rfl⟩))
    · rw [if_neg hgr] at h
      by_cases hu : stmt.SectionType = "user".toList
      · rw [if_pos hu] at h
        simp only [Except.ok.injEq, Prod.mk.injEq] at h
        rw [← h.1]
        exact Or.inr (Or.inr (Or.inr ⟨hu, rfl, rfl, rfl⟩))
      · rw [if_neg hu] at h
        cases h
theorem mem_mapSet {K V : Type} [DecidableEq K] {m : List (K × V)} {k : K} {v : V}
    {kv : K × V} (h : kv ∈ mapSet m k v) : kv = (k, v) ∨ kv ∈ m := by
  induction m with
  | nil =>
    simp only [mapSet, List.mem_singleton] at h
    exact Or.inl h
  | cons a rest ih =>
    obtain ⟨k1, v1⟩ := a
    unfold mapSet at h
    by_cases hk : k1 = k
    · rw [if_pos hk] at h
      rcases List.mem_cons.1 h with h1 | h1
      · exact Or.inl h1
      · exact Or.inr (List.mem_cons_of_mem _ h1)
    · rw [if_neg hk] at h
      rcases List.mem_cons.1 h with h1 | h1
      · exact Or.inr (h1 ▸ List.mem_cons_self _ _)
      · rcases ih h1 with h2 | h2
        · exact Or.inl h2
        · exact Or.inr (List.mem_cons_of_mem _ h2)

/-! ### Ports read by the parser -/

theorem ParseUint16_le {s : Str} {p : Nat} (h : ParseUint16 s = some p) : p ≤ 65535 := by
  unfold ParseUint16 at h
  split at h
  · cases h
  · split at h
    · cases h
    · simp only [Option.some.injEq] at h
      omega

theorem parsePorts_le (line : Nat) (fields : List Str) (ports : List Nat)
    (h : parsePorts line fields = .ok ports) : ∀ p ∈ ports, p ≤ 65535 := by
  induction fields generalizing ports with
  | nil =>
    simp only [parsePorts, Except.ok.injEq] at h
    subst h
    simp
  | cons f rest ih =>
    rw [parsePorts] at h
    cases hp : ParseUint16 f with
    | none =>
      rw [hp] at h
      cases h
    | some port =>
      rw [hp] at h
      cases hr : parsePorts line rest with
      | error e =>
        rw [hr] at h
        cases h
      | ok ports1 =>
        rw [hr] at h
        simp only [Except.ok.injEq] at h
        subst h
        intro p hpm
        rcases List.mem_cons.1 hpm with h1 | h1
        · rw [h1]
          exact ParseUint16_le hp
        · exact ih ports1 hr p h1

theorem parseRoute_le {stmt : ConfigStatement} {route : Route}
    (h : parseRoute stmt = .ok route) : ∀ p ∈ route.Ports, p ≤ 65535 := by
  unfold parseRoute at h
  cases hf : stmt.Fields with
  | nil =>
    rw [hf] at h
    cases h
  | cons netString rest =>
    rw [hf] at h
    simp only at h
    cases hn : (if '/' ∉ netString then
        (ParseIP netString).map (fun ip => (⟨ip, CIDRMask 32 32⟩ : IPNet))
        else ParseCIDR netString) with
    | none =>
      rw [hn] at h
      cases h
    | some n =>
      rw [hn] at h
      simp only at h
      cases hp : parsePorts stmt.Line rest with
      | error e =>
        rw [hp] at h
        cases h
      | ok ports =>
        rw [hp] at h
        simp only [Except.ok.injEq] at h
        subst h
        exact parsePorts_le _ _ _ hp

theorem parseSection_fields (sec : SectionConfig) (stmt : ConfigStatement) :
    (parseSection sec stmt).1 = sec ∨
    (∃ ports, parsePorts stmt.Line stmt.Fields = .ok ports ∧
      (parseSection sec stmt).1 = { sec with Subnets := sec.Subnets ++ [⟨stmt.Word, ports⟩] }) ∨
    (stmt.Word = "nat".toList ∧ stmt.Fields = ["on".toList] ∧
      (parseSection sec stmt).1 = { sec with NATSetting := ALL }) ∨
    (stmt.Word = "nat".toList ∧ stmt.Fields = ["off".toList] ∧
      (parseSection sec stmt).1 = { sec with NATSetting := OFF }) ∨
    (∃ route, stmt.Word = "nat".toList ∧ parseRoute stmt = .ok route ∧
      (parseSection sec stmt).1 =
        { sec with NATSetting := ON, NATRoutes := sec.NATRoutes ++ [route] }) ∨
    (∃ route, stmt.Word = "route".toList ∧ parseRoute stmt = .ok route ∧
      (parseSection sec stmt).1 = { sec with Routes := sec.Routes ++ [route] }) ∨
    (stmt.Word = "dns".toList ∧ stmt.Fields = ["on".toList] ∧
      (parseSection sec stmt).1 = { sec with DNSSetting := ON }) ∨
    (stmt.Word = "dns".toList ∧ stmt.Fields = ["off".toList] ∧
      (parseSection sec stmt).1 = { sec with DNSSetting := OFF }) := by
  unfold parseSection
  by_cases hsub : (startsWith stmt.Word "subnet-".toList || startsWith stmt.Word "pcx-".toList) = true
  · rw [if_pos hsub]
    cases hp : parsePorts stmt.Line stmt.Fields with
    | error e => exact Or.inl rfl
    | ok ports => exact Or.inr (Or.inl ⟨ports, rfl, rfl⟩)
  · rw [if_neg hsub]
    by_cases hnat : stmt.Word = "nat".toList
    · rw [if_pos hnat]
      cases hf : stmt.Fields with
      | nil => exact Or.inl rfl
      | cons f0 rest =>
        simp only
        by_cases hon : f0 = "on".toList
        · rw [if_pos hon]
          by_cases hr : rest = []
          · rw [if_neg (not_not.2 hr)]
            exact Or.inr (Or.inr (Or.inl ⟨hnat, by rw [hon, hr], rfl⟩))
          · rw [if_pos hr]
            exact Or.inl rfl
        · rw [if_neg hon]
          by_cases hoff : f0 = "off".toList
          · rw [if_pos hoff]
            by_cases hr : rest = []
            · rw [if_neg (not_not.2 hr)]
              exact Or.inr (Or.inr (Or.inr (Or.inl ⟨hnat, by rw [hoff, hr], rfl⟩)))
            · rw [if_pos hr]
              exact Or.inl rfl
          · rw [if_neg hoff]
            cases hp : parseRoute stmt with
            | error e => exact Or.inl rfl
            | ok route => exact Or.inr (Or.inr (Or.inr (Or.inr (Or.inl ⟨route, hnat, rfl, rfl⟩))))
    · rw [if_neg hnat]
      by_cases hroute : stmt.Word = "route".toList
      · rw [if_pos hroute]
        cases hp : parseRoute stmt with
        | error e => exact Or.inl rfl
        | ok route =>
          exact Or.inr (Or.inr (Or.inr (Or.inr (Or.inr (Or.inl ⟨route, hroute, rfl, rfl⟩)))))
      · rw [if_neg hroute]
        by_cases hdns : stmt.Word = "dns".toList
        · rw [if_pos hdns]
          cases hf : stmt.Fields with
          | nil => exact Or.inl rfl
          | cons f0 rest =>
            cases rest with
            | nil =>
              simp only
              by_cases hon : f0 = "on".toList
              · rw [if_pos hon]
                exact Or.inr (Or.inr (Or.inr (Or.inr (Or.inr (Or.inr (Or.inl
                  ⟨hdns, by rw [hon], rfl⟩))))))
              · rw [if_neg hon]
                by_cases hoff : f0 = "off".toList
                · rw [if_pos hoff]
                  exact Or.inr (Or.inr (Or.inr (Or.inr (Or.inr (Or.inr (Or.inr
                    ⟨hdns, by rw [hoff], rfl⟩))))))
                · rw [if_neg hoff]
                  exact Or.inl rfl
            | cons f1 rest1 => exact Or.inl rfl
        · rw [if_neg hdns]
          exact Or.inl rfl

theorem parseSection_portsOk {sec : SectionConfig} (stmt : ConfigStatement)
    (h : sectionPortsOk sec) : sectionPortsOk (parseSection sec stmt).1 := by
  obtain ⟨h1, h2, h3⟩ := h
  rcases parseSection_fields sec stmt with e | ⟨ports, hp, e⟩ | ⟨-, -, e⟩ | ⟨-, -, e⟩
    | ⟨route, -, hp, e⟩ | ⟨route, -, hp, e⟩ | ⟨-, -, e⟩ | ⟨-, -, e⟩
  · rw [e]; exact ⟨h1, h2, h3⟩
  · rw [e]
    refine ⟨h1, h2, fun subnet hs => ?_⟩
    rcases List.mem_append.1 hs with hs1 | hs1
    · exact h3 subnet hs1
    · rw [List.mem_singleton] at hs1
      subst hs1
      exact parsePorts_le _ _ _ hp
  · rw [e]; exact ⟨h1, h2, h3⟩
  · rw [e]; exact ⟨h1, h2, h3⟩
  · rw [e]
    refine ⟨h1, fun r hr => ?_, h3⟩
    rcases List.mem_append.1 hr with hr1 | hr1
    · exact h2 r hr1
    · rw [List.mem_singleton] at hr1
      subst hr1
      exact parseRoute_le hp
  · rw [e]
    refine ⟨fun r hr => ?_, h2, h3⟩
    rcases List.mem_append.1 hr with hr1 | hr1
    · exact h1 r hr1
    · rw [List.mem_singleton] at hr1
      subst hr1
      exact parseRoute_le hp
  · rw [e]; exact ⟨h1, h2, h3⟩
  · rw [e]; exact ⟨h1, h2, h3⟩

theorem groupSection_portsOk {c : ConfigFile} (stmt : ConfigStatement)
    (h : configPortsOk c) : sectionPortsOk (groupSection c stmt) := by
  unfold groupSection
  cases hg : mapGet c.Groups stmt.SectionName with
  | none => exact ⟨by simp, by simp, by simp⟩
  | some sec => exact h.2.1 _ (mem_of_mapGet hg)

theorem userSection_portsOk {c : ConfigFile} (stmt : ConfigStatement)
    (h : configPortsOk c) : sectionPortsOk (userSection c stmt) := by
  unfold userSection
  cases hg : mapGet c.Users stmt.SectionName with
  | none => exact ⟨by simp, by simp, by simp⟩
  | some sec => exact h.2.2 _ (mem_of_mapGet hg)

theorem parseStatement_portsOk {pd : Str → Option Int} {c c1 : ConfigFile}
    {stmt : ConfigStatement} {e : Option Error} (hc : configPortsOk c)
    (h : parseStatement pd c stmt = .ok (c1, e)) : configPortsOk c1 := by
  obtain ⟨hg, hgr, hu⟩ := hc
  rcases parseStatement_cases h with ⟨-, -, e1, e2, e3⟩ | ⟨-, e1, e2, e3⟩ | ⟨-, e1, e2, e3⟩
    | ⟨-, e1, e2, e3⟩
  · unfold configPortsOk
    rw [e1, e2, e3]
    exact ⟨hg, hgr, hu⟩
  · unfold configPortsOk
    rw [e1, e2, e3]
    exact ⟨parseSection_portsOk stmt hg, hgr, hu⟩
  · unfold configPortsOk
    rw [e1, e2, e3]
    refine ⟨hg, fun kv hkv => ?_, hu⟩
    rcases mem_mapSet hkv with h1 | h1
    · rw [h1]
      exact parseSection_portsOk stmt (groupSection_portsOk stmt ⟨hg, hgr, hu⟩)
    · exact hgr kv h1
  · unfold configPortsOk
    rw [e1, e2, e3]
    refine ⟨hg, hgr, fun kv hkv => ?_⟩
    rcases mem_mapSet hkv with h1 | h1
    · rw [h1]
      exact parseSection_portsOk stmt (userSection_portsOk stmt ⟨hg, hgr, hu⟩)
    · exact hu kv h1

theorem ParseConfig_portsOk {pd : Str → Option Int} {text : Str} {config : ConfigFile}
    (h : ParseConfig pd text = .ok config) : configPortsOk config := by
  refine applyStatements_induction pd configPortsOk
    (fun c stmt c1 e hc hp => parseStatement_portsOk hc hp) _ emptyConfig config ?_
    (ParseConfig_eq_apply h)
  exact ⟨⟨by simp [emptyConfig], by simp [emptyConfig], by simp [emptyConfig]⟩,
    by simp [emptyConfig], by simp [emptyConfig]⟩

theorem contribution_ports_le {ord : MapOrder} (hv : ord.Valid) {config : ConfigFile}
    (hc : configPortsOk config) {user : Str} {groups : List Str} {netinfo : NetworkInfo}
    {c : IPNet × List Nat} (h : c ∈ contributions ord config user groups netinfo) :
    ∀ p ∈ c.2, p ≤ 65535 := by
  have hsec : ∀ s, Contributing config user groups s → sectionPortsOk s := by
    intro s hs
    rcases hs with hs | ⟨g, -, hs⟩ | hs
    · rw [hs]; exact hc.1
    · exact hc.2.1 _ (mem_of_mapGet hs)
    · exact hc.2.2 _ (mem_of_mapGet hs)
  rcases (mem_contributions hv _ _ _ _ _).1 h with h1 | h1 | h1 | h1 | h1
  · obtain ⟨s, route, hs, hr, e⟩ := h1
    rw [e]
    exact (hsec s hs).1 route hr
  · obtain ⟨s, subnet, n, hs, hr, -, e⟩ := h1
    rw [e]
    exact (hsec s hs).2.2 subnet hr
  · obtain ⟨-, n, -, e⟩ := h1
    rw [e]
    simp
  · obtain ⟨-, s, route, hs, hr, e⟩ := h1
    rw [e]
    exact (hsec s hs).2.1 route hr
  · obtain ⟨-, name, n, -, e⟩ := h1
    rw [e]
    simp
/-! ### `nat off` -/

theorem parseGlobal_false {pd : Str → Option Int} {c c1 : ConfigFile} {stmt : ConfigStatement}
    {b : Bool} (h : parseGlobal pd c stmt = .ok (b, c1)) (hw : stmt.Word = "nat".toList) :
    b = false := by
  unfold parseGlobal at h
  rw [hw] at h
  rw [if_neg (by decide), if_neg (by decide), if_neg (by decide), if_neg (by decide)] at h
  simp only [Except.ok.injEq, Prod.mk.injEq] at h
  exact h.1.symm

theorem parseSection_nat_off (sec : SectionConfig) {stmt : ConfigStatement}
    (hw : stmt.Word = "nat".toList) (hf : stmt.Fields = ["off".toList]) :
    (parseSection sec stmt).1.NATSetting = OFF := by
  have h2 : ¬ "off".toList = "on".toList := by decide
  unfold parseSection
  rw [hw, hf]
  rw [if_neg (by decide), if_pos rfl]
  simp [h2]

theorem parseSection_nat_of_ne (sec : SectionConfig) {stmt : ConfigStatement}
    (hw : stmt.Word ≠ "nat".toList) :
    (parseSection sec stmt).1.NATSetting = sec.NATSetting := by
  rcases parseSection_fields sec stmt with e | ⟨ports, hp, e⟩ | ⟨h, -, e⟩ | ⟨h, -, e⟩
    | ⟨route, h, hp, e⟩ | ⟨route, -, hp, e⟩ | ⟨-, -, e⟩ | ⟨-, -, e⟩
  · rw [e]
  · rw [e]
  · exact absurd h hw
  · exact absurd h hw
  · exact absurd h hw
  · rw [e]
  · rw [e]
  · rw [e]

theorem sectionOf_congr {c c1 : ConfigFile} (h1 : c1.GlobalConfig = c.GlobalConfig)
    (h2 : c1.Groups = c.Groups) (h3 : c1.Users = c.Users) (ty name : Str) :
    sectionOf c1 ty name = sectionOf c ty name := by
  unfold sectionOf
  rw [h1, h2, h3]

theorem parseStatement_nat_off {pd : Str → Option Int} {c c1 : ConfigFile}
    {stmt : ConfigStatement} {e : Option Error}
    (h : parseStatement pd c stmt = .ok (c1, e))
    (hw : stmt.Word = "nat".toList) (hf : stmt.Fields = ["off".toList]) :
    ∃ sec, sectionOf c1 stmt.SectionType stmt.SectionName = some sec ∧ sec.NATSetting = OFF := by
  have hgg : ¬ "group".toList = "global".toList := by decide
  have hug : ¬ "user".toList = "global".toList := by decide
  have hugr : ¬ "user".toList = "group".toList := by decide
  rcases parseStatement_cases h with ⟨-, hp, -, -, -⟩ | ⟨ht, e1, e2, e3⟩ | ⟨ht, e1, e2, e3⟩
    | ⟨ht, e1, e2, e3⟩
  · exact absurd (parseGlobal_false hp hw) (by simp)
  · refine ⟨_, ?_, parseSection_nat_off c.GlobalConfig hw hf⟩
    unfold sectionOf
    rw [if_pos ht, e1]
  · refine ⟨_, ?_, parseSection_nat_off (groupSection c stmt) hw hf⟩
    unfold sectionOf
    rw [ht, if_neg hgg, if_pos rfl, e2, mapGet_mapSet, if_pos rfl]
  · refine ⟨_, ?_, parseSection_nat_off (userSection c stmt) hw hf⟩
    unfold sectionOf
    rw [ht, if_neg hug, if_neg hugr, if_pos rfl, e3, mapGet_mapSet, if_pos rfl]

theorem parseStatement_keeps_nat {pd : Str → Option Int} {c c1 : ConfigFile}
    {stmt : ConfigStatement} {e : Option Error} {ty name : Str} {sec : SectionConfig}
    (h : parseStatement pd c stmt = .ok (c1, e))
    (hsec : sectionOf c ty name = some sec)
    (hother : stmt.Word = "nat".toList →
      ¬ (stmt.SectionType = ty ∧ (stmt.SectionType = "global".toList ∨ stmt.SectionName = name))) :
    ∃ sec1, sectionOf c1 ty name = some sec1 ∧ sec1.NATSetting = sec.NATSetting := by
  have hgg : ¬ "group".toList = "global".toList := by decide
  have hug : ¬ "user".toList = "global".toList := by decide
  have hugr : ¬ "user".toList = "group".toList := by decide
  rcases parseStatement_cases h with ⟨-, -, e1, e2, e3⟩ | ⟨ht, e1, e2, e3⟩ | ⟨ht, e1, e2, e3⟩
    | ⟨ht, e1, e2, e3⟩
  · rw [sectionOf_congr e1 e2 e3]
    exact ⟨sec, hsec, rfl⟩
  · unfold sectionOf at hsec ⊢
    rw [e1, e2, e3]
    by_cases hty : ty = "global".toList
    · rw [if_pos hty] at hsec ⊢
      simp only [Option.some.injEq] at hsec
      refine ⟨_, rfl, ?_⟩
      rw [← hsec]
      apply parseSection_nat_of_ne
      intro hw
      exact hother hw ⟨ht.trans hty.symm, Or.inl ht⟩
    · rw [if_neg hty] at hsec ⊢
      exact ⟨sec, hsec, rfl⟩
  · unfold sectionOf at hsec ⊢
    rw [e1, e2, e3]
    by_cases hty : ty = "global".toList
    · rw [if_pos hty] at hsec ⊢
      exact ⟨sec, hsec, rfl⟩
    · rw [if_neg hty] at hsec ⊢
      by_cases hty2 : ty = "group".toList
      · rw [if_pos hty2] at hsec ⊢
        rw [mapGet_mapSet]
        by_cases hn : name = stmt.SectionName
        · rw [if_pos hn]
          refine ⟨_, rfl, ?_⟩
          have hgs : groupSection c stmt = sec := by
            unfold groupSection
            rw [← hn, hsec]
          rw [hgs]
          apply parseSection_nat_of_ne
          intro hw
          exact hother hw ⟨ht.trans hty2.symm, Or.inr hn.symm⟩
        · rw [if_neg hn]
          exact ⟨sec, hsec, rfl⟩
      · rw [if_neg hty2] at hsec ⊢
        exact ⟨sec, hsec, rfl⟩
  · unfold sectionOf at hsec ⊢
    rw [e1, e2, e3]
    by_cases hty : ty = "global".toList
    · rw [if_pos hty] at hsec ⊢
      exact ⟨sec, hsec, rfl⟩
    · rw [if_neg hty] at hsec ⊢
      by_cases hty2 : ty = "group".toList
      · rw [if_pos hty2] at hsec ⊢
        exact ⟨sec, hsec, rfl⟩
      · rw [if_neg hty2] at hsec ⊢
        by_cases hty3 : ty = "user".toList
        · rw [if_pos hty3] at hsec ⊢
          rw [mapGet_mapSet]
          by_cases hn : name = stmt.SectionName
          · rw [if_pos hn]
            refine ⟨_, rfl, ?_⟩
            have hgs : userSection c stmt = sec := by
              unfold userSection
              rw [← hn, hsec]
            rw [hgs]
            apply parseSection_nat_of_ne
            intro hw
            exact hother hw ⟨ht.trans hty3.symm, Or.inr hn.symm⟩
          · rw [if_neg hn]
            exact ⟨sec, hsec, rfl⟩
        · rw [if_neg hty3] at hsec
          cases hsec

theorem applyStatements_keeps_nat (pd : Str → Option Int) (ty name : Str)
    (stmts : List ConfigStatement) (c c1 : ConfigFile) (sec : SectionConfig)
    (h : applyStatements pd c stmts = .ok c1)
    (hsec : sectionOf c ty name = some sec)
    (hother : ∀ s ∈ stmts, s.Word = "nat".toList →
      ¬ (s.SectionType = ty ∧ (s.SectionType = "global".toList ∨ s.SectionName = name))) :
    ∃ sec1, sectionOf c1 ty name = some sec1 ∧ sec1.NATSetting = sec.NATSetting := by
  induction stmts generalizing c sec with
  | nil =>
    simp only [applyStatements, Except.ok.injEq] at h
    subst h
    exact ⟨sec, hsec, rfl⟩
  | cons stmt rest ih =>
    rw [applyStatements] at h
    cases hp : parseStatement pd c stmt with
    | error e =>
      rw [hp] at h
      cases h
    | ok r =>
      rw [hp] at h
      obtain ⟨sec1, hs1, hn1⟩ := parseStatement_keeps_nat (e := r.2) hp hsec
        (hother stmt (List.mem_cons_self _ _))
      obtain ⟨sec2, hs2, hn2⟩ := ih r.1 sec1 h hs1
        (fun s hs => hother s (List.mem_cons_of_mem _ hs))
      exact ⟨sec2, hs2, hn2.trans hn1⟩

theorem lastFlag_unset (init : Nat) (l : List Nat) (h : ∀ f ∈ l, f = NOT_SET) :
    lastFlag init l = init := by
  induction l generalizing init with
  | nil => rfl
  | cons f rest ih =>
    unfold lastFlag
    rw [List.foldl_cons]
    have hf : f = NOT_SET := h f (List.mem_cons_self _ _)
    rw [if_neg (not_not.2 hf)]
    exact ih init (fun g hg => h g (List.mem_cons_of_mem _ hg))

theorem lastFlag_decided (init f : Nat) (before after : List Nat) (hf : f ≠ NOT_SET)
    (h : ∀ g ∈ after, g = NOT_SET) : lastFlag init (before ++ f :: after) = f := by
  unfold lastFlag
  rw [List.foldl_append, List.foldl_cons, if_pos hf]
  exact lastFlag_unset f after h
/-! ### Declaration order of groups -/

theorem mapSet_of_none {K V : Type} [DecidableEq K] {m : List (K × V)} {k : K} (v : V)
    (h : mapGet m k = none) : mapSet m k v = m ++ [(k, v)] := by
  induction m with
  | nil => rfl
  | cons a rest ih =>
    obtain ⟨k1, v1⟩ := a
    unfold mapGet at h
    by_cases hk : k1 = k
    · rw [if_pos hk] at h
      cases h
    · rw [if_neg hk] at h
      simp only [mapSet, if_neg hk, ih h, List.cons_append]

theorem mapSet_of_some {K V W : Type} [DecidableEq K] {m : List (K × V)} {k : K} {v0 : V}
    (v : V) (f : V → W) (h : mapGet m k = some v0) (hf : f v = f v0) :
    (mapSet m k v).map (fun kv => f kv.2) = m.map (fun kv => f kv.2) := by
  induction m with
  | nil => simp [mapGet] at h
  | cons a rest ih =>
    obtain ⟨k1, v1⟩ := a
    unfold mapGet at h
    by_cases hk : k1 = k
    · rw [if_pos hk] at h
      simp only [Option.some.injEq] at h
      subst h
      simp only [mapSet, if_pos hk, List.map_cons, hf]
    · rw [if_neg hk] at h
      simp only [mapSet, if_neg hk, List.map_cons, ih h]

theorem length_mapSet_of_some {K V : Type} [DecidableEq K] {m : List (K × V)} {k : K} {v0 : V}
    (v : V) (h : mapGet m k = some v0) : (mapSet m k v).length = m.length := by
  have := mapSet_of_some v (fun _ => ()) h rfl
  have h2 := congrArg List.length this
  simpa using h2

theorem parseSection_kind (sec : SectionConfig) (stmt : ConfigStatement) :
    (parseSection sec stmt).1.Kind = sec.Kind ∧ (parseSection sec stmt).1.Order = sec.Order := by
  rcases parseSection_fields sec stmt with e | ⟨ports, hp, e⟩ | ⟨h, -, e⟩ | ⟨h, -, e⟩
    | ⟨route, h, hp, e⟩ | ⟨route, -, hp, e⟩ | ⟨-, -, e⟩ | ⟨-, -, e⟩ <;> rw [e] <;> exact ⟨rfl, rfl⟩

theorem parseStatement_groupsWF {pd : Str → Option Int} {c c1 : ConfigFile}
    {stmt : ConfigStatement} {e : Option Error} (hc : GroupsWF c)
    (h : parseStatement pd c stmt = .ok (c1, e)) : GroupsWF c1 := by
  obtain ⟨hg, hn, hk⟩ := hc
  rcases parseStatement_cases h with ⟨-, -, e1, e2, e3⟩ | ⟨-, e1, e2, e3⟩ | ⟨-, e1, e2, e3⟩
    | ⟨-, e1, e2, e3⟩
  · unfold GroupsWF
    rw [e1, e2]
    exact ⟨hg, hn, hk⟩
  · unfold GroupsWF
    rw [e1, e2, (parseSection_kind _ _).1]
    exact ⟨hg, hn, hk⟩
  · unfold GroupsWF
    rw [e1, e2]
    refine ⟨hg, nodup_mapSet _ _ hn, ?_⟩
    cases hgs : mapGet c.Groups stmt.SectionName with
    | none =>
      rw [mapSet_of_none _ hgs]
      have hsec : groupSection c stmt
          = ⟨GROUP, stmt.SectionName, c.Groups.length, [], [], [], NOT_SET, NOT_SET⟩ := by
        unfold groupSection
        rw [hgs]
      rw [List.map_append, List.length_append, List.length_singleton, List.range_succ,
        List.map_append, hk, List.map_singleton, List.map_singleton,
        (parseSection_kind _ _).1, (parseSection_kind _ _).2, hsec]
    | some sec =>
      have hsec : groupSection c stmt = sec := by
        unfold groupSection
        rw [hgs]
      rw [length_mapSet_of_some _ hgs, ← hk]
      apply mapSet_of_some _ (fun s : SectionConfig => (s.Kind, s.Order)) hgs
      rw [hsec, (parseSection_kind _ _).1, (parseSection_kind _ _).2]
  · unfold GroupsWF
    rw [e1, e2]
    exact ⟨hg, hn, hk⟩

theorem ParseConfig_groupsWF {pd : Str → Option Int} {text : Str} {config : ConfigFile}
    (h : ParseConfig pd text = .ok config) : GroupsWF config := by
  refine applyStatements_induction pd GroupsWF
    (fun c stmt c1 e hc hp => parseStatement_groupsWF hc hp) _ emptyConfig config ?_
    (ParseConfig_eq_apply h)
  exact ⟨rfl, by simp [emptyConfig], by simp [emptyConfig]⟩

theorem applyStatements_groupNames (pd : Str → Option Int) (stmts : List ConfigStatement)
    (c c1 : ConfigFile) (h : applyStatements pd c stmts = .ok c1) :
    c1.Groups.map Prod.fst = stmts.foldl declareGroup (c.Groups.map Prod.fst) := by
  have hgg : ¬ "global".toList = "group".toList := by decide
  have hug : ¬ "user".toList = "group".toList := by decide
  induction stmts generalizing c with
  | nil =>
    simp only [applyStatements, Except.ok.injEq] at h
    subst h
    rfl
  | cons stmt rest ih =>
    rw [applyStatements] at h
    cases hp : parseStatement pd c stmt with
    | error e =>
      rw [hp] at h
      cases h
    | ok r =>
      rw [hp] at h
      rw [List.foldl_cons, ih r.1 h]
      congr 1
      rcases parseStatement_cases (e := r.2) hp with ⟨ht, -, -, e2, -⟩ | ⟨ht, -, e2, -⟩
        | ⟨ht, -, e2, -⟩ | ⟨ht, -, e2, -⟩
      · rw [e2]; unfold declareGroup; rw [ht, if_neg hgg]
      · rw [e2]; unfold declareGroup; rw [ht, if_neg hgg]
      · rw [e2, keys_mapSet]; unfold declareGroup; rw [if_pos ht]
        by_cases hm : stmt.SectionName ∈ List.map Prod.fst c.Groups
        · rw [if_pos hm, if_pos hm]
        · rw [if_neg hm, if_neg hm]
      · rw [e2]; unfold declareGroup; rw [ht, if_neg hug]

theorem ParseConfig_groupNames {pd : Str → Option Int} {text : Str} {config : ConfigFile}
    (h : ParseConfig pd text = .ok config) :
    config.Groups.map Prod.fst = declaredGroups text := by
  rw [applyStatements_groupNames pd _ emptyConfig config (ParseConfig_eq_apply h)]
  rfl
/-! ### The order of the sections and the flags -/

theorem sectionLess_iff (a b : SectionConfig) :
    sectionLess a b = true ↔ a.Kind < b.Kind ∨ (a.Kind = b.Kind ∧ a.Order < b.Order) := by
  unfold sectionLess
  by_cases hk : a.Kind = b.Kind
  · simp [hk]
  · simp only [ne_eq, hk, not_false_eq_true, if_true, decide_eq_true_eq, false_and, or_false]

theorem sectionLess_false_iff (a b : SectionConfig) :
    sectionLess a b = false ↔ b.Kind < a.Kind ∨ (a.Kind = b.Kind ∧ b.Order ≤ a.Order) := by
  rw [← Bool.not_eq_true, sectionLess_iff]
  omega

theorem sectionLess_irrefl (a : SectionConfig) : sectionLess a a = false := by
  rw [sectionLess_false_iff]
  omega

theorem sorted_sortSlice_sections (l : List SectionConfig) :
    (sortSlice sectionLess l).Pairwise (fun a b => sectionLess b a = false) := by
  have htotal : IsTotal SectionConfig (fun a b => sectionLess b a = false) :=
    ⟨fun a b => by
      simp only [sectionLess_false_iff]
      omega⟩
  have htrans : IsTrans SectionConfig (fun a b => sectionLess b a = false) :=
    ⟨fun a b c h1 h2 => by
      simp only [sectionLess_false_iff] at h1 h2 ⊢
      omega⟩
  exact List.sorted_insertionSort (fun a b => sectionLess b a = false) l

theorem lastFlag_map_append (init : Nat) (f : SectionConfig → Nat) (l1 l2 : List SectionConfig) :
    lastFlag init ((l1 ++ l2).map f) = lastFlag (lastFlag init (l1.map f)) (l2.map f) := by
  unfold lastFlag
  rw [List.map_append, List.foldl_append]

theorem flagOfLast_of_sorted (f : SectionConfig → Nat) (l : List SectionConfig) (init : Nat)
    (hp : l.Pairwise (fun a b => sectionLess b a = false)) :
    FlagOfLast f init l (lastFlag init (l.map f)) := by
  induction l generalizing init with
  | nil => exact Or.inl ⟨by simp, rfl⟩
  | cons a rest ih =>
    rw [List.pairwise_cons] at hp
    have hstep : lastFlag init ((a :: rest).map f)
        = lastFlag (if f a ≠ NOT_SET then f a else init) (rest.map f) := by
      unfold lastFlag
      rw [List.map_cons, List.foldl_cons]
    rw [hstep]
    by_cases ha : f a ≠ NOT_SET
    · rw [if_pos ha]
      rcases ih (f a) hp.2 with ⟨hun, hd⟩ | ⟨s, hs, hset, hd, hmax⟩
      · refine Or.inr ⟨a, List.mem_cons_self _ _, ha, hd, fun t ht htset => ?_⟩
        rcases List.mem_cons.1 ht with h1 | h1
        · rw [h1]
          exact sectionLess_irrefl a
        · exact absurd (hun t h1) htset
      · refine Or.inr ⟨s, List.mem_cons_of_mem _ hs, hset, hd, fun t ht htset => ?_⟩
        rcases List.mem_cons.1 ht with h1 | h1
        · rw [h1]
          exact hp.1 s hs
        · exact hmax t h1 htset
    · rw [if_neg ha]
      rcases ih init hp.2 with ⟨hun, hd⟩ | ⟨s, hs, hset, hd, hmax⟩
      · refine Or.inl ⟨fun t ht => ?_, hd⟩
        rcases List.mem_cons.1 ht with h1 | h1
        · rw [h1]
          exact not_not.1 ha
        · exact hun t h1
      · refine Or.inr ⟨s, List.mem_cons_of_mem _ hs, hset, hd, fun t ht htset => ?_⟩
        rcases List.mem_cons.1 ht with h1 | h1
        · rw [h1]
          exact hp.1 s hs
        · exact hmax t h1 htset

theorem flagOfLast_unique (f : SectionConfig → Nat) (init : Nat) (l1 l2 : List SectionConfig)
    (d1 d2 : Nat) (h1 : FlagOfLast f init l1 d1) (h2 : FlagOfLast f init l2 d2)
    (hmem : ∀ s, s ∈ l1 ↔ s ∈ l2)
    (hinj : ∀ a ∈ l1, ∀ b ∈ l1, sectionLess a b = false → sectionLess b a = false → a = b) :
    d1 = d2 := by
  rcases h1 with ⟨hun1, hd1⟩ | ⟨s1, hs1, hset1, hd1, hmax1⟩
  · rcases h2 with ⟨hun2, hd2⟩ | ⟨s2, hs2, hset2, hd2, hmax2⟩
    · rw [hd1, hd2]
    · exact absurd (hun1 s2 ((hmem s2).2 hs2)) hset2
  · rcases h2 with ⟨hun2, hd2⟩ | ⟨s2, hs2, hset2, hd2, hmax2⟩
    · exact absurd (hun2 s1 ((hmem s1).1 hs1)) hset1
    · have ha := hmax1 s2 ((hmem s2).2 hs2) hset2
      have hb := hmax2 s1 ((hmem s1).1 hs1) hset1
      have := hinj s1 hs1 s2 ((hmem s2).2 hs2) ha hb
      rw [hd1, hd2, this]

theorem groups_getElem_key {config : ConfigFile} (hwf : GroupsWF config) (i : Nat)
    (hi : i < config.Groups.length) :
    (config.Groups[i]).2.Kind = GROUP ∧ (config.Groups[i]).2.Order = i := by
  have h := hwf.2.2
  have h1 : (config.Groups.map (fun kv => (kv.2.Kind, kv.2.Order)))[i]? =
      ((List.range config.Groups.length).map (fun i => (GROUP, i)))[i]? := by rw [h]
  rw [List.getElem?_map, List.getElem?_map, List.getElem?_eq_getElem hi,
    List.getElem?_range hi] at h1
  simp only [Option.map_some', Option.some.injEq, Prod.mk.injEq] at h1
  exact h1

theorem groups_key {config : ConfigFile} (hwf : GroupsWF config) {kv : Str × SectionConfig}
    (h : kv ∈ config.Groups) :
    kv.2.Kind = GROUP ∧ ∃ i, ∃ hi : i < config.Groups.length, config.Groups[i] = kv ∧ kv.2.Order = i := by
  obtain ⟨i, hi, e⟩ := List.mem_iff_getElem.1 h
  have := groups_getElem_key hwf i hi
  rw [e] at this
  exact ⟨this.1, i, hi, e, this.2⟩

theorem groups_pairwise {config : ConfigFile} (hwf : GroupsWF config) :
    config.Groups.Pairwise (fun a b => sectionLess b.2 a.2 = false) := by
  have h := hwf.2.2
  have hr : ((List.range config.Groups.length).map (fun i => (GROUP, i))).Pairwise
      (fun x y : Nat × Nat => x.1 = y.1 ∧ x.2 ≤ y.2) := by
    rw [List.pairwise_map]
    exact (List.pairwise_lt_range _).imp (fun hlt => ⟨rfl, Nat.le_of_lt hlt⟩)
  rw [← h, List.pairwise_map] at hr
  refine hr.imp ?_
  intro a b hab
  rw [sectionLess_false_iff]
  simp only at hab
  omega

theorem mem_groupSections_iff {config : ConfigFile} (hwf : GroupsWF config) (groups : List Str)
    (s : SectionConfig) :
    s ∈ groupSections config groups ↔
      s ∈ config.GlobalConfig ::
        (config.Groups.filter (fun kv => decide (kv.1 ∈ groups))).map Prod.snd := by
  unfold groupSections
  simp only [List.mem_cons, List.mem_filterMap, List.mem_map, List.mem_filter,
    decide_eq_true_eq]
  apply or_congr Iff.rfl
  constructor
  · rintro ⟨g, hg, hs⟩
    exact ⟨(g, s), ⟨mem_of_mapGet hs, hg⟩, rfl⟩
  · rintro ⟨⟨g, s1⟩, ⟨hm, hg⟩, e⟩
    simp only at e hg
    subst e
    exact ⟨g, hg, mapGet_of_mem hwf.2.1 hm⟩

theorem declared_sorted {config : ConfigFile} (hwf : GroupsWF config) (groups : List Str) :
    (config.GlobalConfig ::
      (config.Groups.filter (fun kv => decide (kv.1 ∈ groups))).map Prod.snd).Pairwise
      (fun a b => sectionLess b a = false) := by
  rw [List.pairwise_cons]
  constructor
  · intro s hs
    obtain ⟨kv, hkv, e⟩ := List.mem_map.1 hs
    have hk := (groups_key hwf (List.mem_filter.1 hkv).1).1
    rw [sectionLess_false_iff, ← e, hk, hwf.1]
    left
    decide
  · rw [List.pairwise_map]
    exact (groups_pairwise hwf).sublist (List.filter_sublist _)

theorem declared_inj {config : ConfigFile} (hwf : GroupsWF config) (groups : List Str)
    (a : SectionConfig) (ha : a ∈ groupSections config groups)
    (b : SectionConfig) (hb : b ∈ groupSections config groups)
    (h1 : sectionLess a b = false) (h2 : sectionLess b a = false) : a = b := by
  have hG : GLOBAL ≠ GROUP := by decide
  rw [sectionLess_false_iff] at h1 h2
  have hkind : a.Kind = b.Kind := by omega
  have horder : a.Order = b.Order := by omega
  rw [mem_groupSections_iff hwf] at ha hb
  rcases List.mem_cons.1 ha with ha1 | ha1
  · rcases List.mem_cons.1 hb with hb1 | hb1
    · rw [ha1, hb1]
    · obtain ⟨kv, hkv, e⟩ := List.mem_map.1 hb1
      have hk := (groups_key hwf (List.mem_filter.1 hkv).1).1
      rw [e] at hk
      rw [ha1, hwf.1, hk] at hkind
      exact absurd hkind hG
  · obtain ⟨kva, hkva, ea⟩ := List.mem_map.1 ha1
    obtain ⟨hka, i, hi, hgi, hoi⟩ := groups_key hwf (List.mem_filter.1 hkva).1
    rcases List.mem_cons.1 hb with hb1 | hb1
    · rw [ea] at hka
      rw [hb1, hwf.1, hka] at hkind
      exact absurd hkind.symm hG
    · obtain ⟨kvb, hkvb, eb⟩ := List.mem_map.1 hb1
      obtain ⟨hkb, j, hj, hgj, hoj⟩ := groups_key hwf (List.mem_filter.1 hkvb).1
      rw [ea] at hoi
      rw [eb] at hoj
      have hij : i = j := by omega
      subst hij
      rw [← ea, ← eb, ← hgi, ← hgj]

theorem dns_eq_declared {ord : MapOrder} (hv : ord.Valid) {config : ConfigFile}
    (hwf : GroupsWF config) (user : Str) (groups : List Str) :
    lastFlag NOT_SET ((userSections ord config user groups).map (·.DNSSetting))
      = lastFlag NOT_SET ((declaredSections config user groups).map (·.DNSSetting)) := by
  unfold userSections declaredSections
  rw [lastFlag_map_append, lastFlag_map_append]
  congr 1
  have hmem1 : ∀ s, s ∈ sortSlice sectionLess (ord.sections (groupSections config groups))
      ↔ s ∈ groupSections config groups := by
    intro s
    unfold sortSlice
    rw [(List.perm_insertionSort _ _).mem_iff, (hv.sections _).mem_iff]
  refine flagOfLast_unique (·.DNSSetting) NOT_SET _ _ _ _
    (flagOfLast_of_sorted _ _ _ (sorted_sortSlice_sections _))
    (flagOfLast_of_sorted _ _ _ (declared_sorted hwf groups)) ?_ ?_
  · intro s
    rw [hmem1, mem_groupSections_iff hwf]
  · intro a ha b hb
    exact declared_inj hwf groups a ((hmem1 a).1 ha) b ((hmem1 b).1 hb)

theorem reversedPorts_valid : reversedPorts.Valid :=
  ⟨fun _ => List.Perm.refl _, fun _ => List.Perm.refl _, fun _ l => List.reverse_perm l,
    fun _ => List.Perm.refl _⟩

/-! ### The session tables of the supervisor -/

section GoMapDelete

variable {K V : Type} [DecidableEq K]

theorem mapGet_mapDelete (m : List (K × V)) (k k1 : K) :
    mapGet (mapDelete m k) k1 = if k1 = k then none else mapGet m k1 := by
  induction m with
  | nil => simp [mapDelete, mapGet]
  | cons a rest ih =>
    obtain ⟨k2, v2⟩ := a
    unfold mapDelete at ih ⊢
    by_cases hk : k2 = k
    · subst hk
      by_cases h1 : k1 = k2
      · subst h1
        simpa [List.filter, mapGet] using ih
      · have h2 : ¬ k2 = k1 := fun e => h1 e.symm
        simpa [List.filter, mapGet, h1, h2] using ih
    · by_cases h1 : k2 = k1
      · subst h1
        simp [List.filter, mapGet, hk]
      · simp only [List.filter, hk, ne_eq, not_false_eq_true, decide_True, mapGet, h1, if_false]
        exact ih

end GoMapDelete

theorem getD_set_of_ne {α : Type} (l : List α) (i j : Nat) (x d : α) (h : i ≠ j) :
    (l.set i x).getD j d = l.getD j d := by
  simp [List.getD, List.getElem?_set, h]

theorem getD_set_self {α : Type} (l : List α) (i : Nat) (x d : α) :
    (l.set i x).getD i d = if i < l.length then x else d := by
  by_cases h : i < l.length
  · simp [List.getD, List.getElem?_set, h]
  · simp [List.getD, List.getElem?_set, h]

theorem mapDelete_of_none {K V : Type} [DecidableEq K] (m : List (K × V)) (k : K)
    (h : mapGet m k = none) : mapDelete m k = m := by
  unfold mapDelete
  rw [List.filter_eq_self]
  intro kv hkv
  have h1 := (mapGet_eq_none_iff m k).1 h
  have h2 : kv.1 ≠ k := by
    intro e
    exact h1 (List.mem_map.2 ⟨kv, hkv, e⟩)
  simpa using h2

theorem deref_eq_of_heap {m m1 : VPNManager} (h : m1.heap = m.heap) (p : Nat) :
    m1.deref p = m.deref p := by
  unfold VPNManager.deref
  rw [h]

theorem SessionsOk.of_tables {m m1 : VPNManager} (h : SessionsOk m) (hh : m1.heap = m.heap)
    (hc : m1.clients = m.clients) (hu : m1.userConnections = m.userConnections) :
    SessionsOk m1 := by
  constructor
  · intro c p hp
    rw [hc] at hp
    rw [hh]
    exact h.clientsValid c p hp
  · intro u p hp
    rw [hu] at hp
    rw [hh]
    exact h.usersValid u p hp
  · intro c p hp
    rw [hc] at hp
    rw [deref_eq_of_heap hh]
    exact h.clientId c p hp
  · intro u p hp
    rw [hu] at hp
    rw [deref_eq_of_heap hh, hc]
    exact h.user u p hp

/-- Deleting the record of a client id, and user entries, keeps the tables
consistent when no remaining user entry carries that client id. -/
theorem SessionsOk.drop {m m1 : VPNManager} (h : SessionsOk m) (c : Nat)
    (hh : m1.heap = m.heap) (hc : m1.clients = mapDelete m.clients c)
    (hsub : ∀ u p, mapGet m1.userConnections u = some p → mapGet m.userConnections u = some p)
    (hne : ∀ u p, mapGet m1.userConnections u = some p → (m.deref p).clientId ≠ c) :
    SessionsOk m1 := by
  have hget : ∀ c1 p, mapGet m1.clients c1 = some p → mapGet m.clients c1 = some p := by
    intro c1 p hp
    rw [hc, mapGet_mapDelete] at hp
    by_cases e : c1 = c
    · rw [if_pos e] at hp
      cases hp
    · rw [if_neg e] at hp
      exact hp
  constructor
  · intro c1 p hp
    rw [hh]
    exact h.clientsValid c1 p (hget c1 p hp)
  · intro u p hp
    rw [hh]
    exact h.usersValid u p (hsub u p hp)
  · intro c1 p hp
    rw [deref_eq_of_heap hh]
    exact h.clientId c1 p (hget c1 p hp)
  · intro u p hp
    rw [deref_eq_of_heap hh]
    refine ⟨(h.user u p (hsub u p hp)).1, ?_⟩
    rw [hc, mapGet_mapDelete, if_neg (hne u p hp)]
    exact (h.user u p (hsub u p hp)).2

/-- In consistent tables a user entry that carries a client id is the entry of
the user of the record stored under that client id. -/
theorem SessionsOk.user_of_clientId {m : VPNManager} (h : SessionsOk m) {u : Str} {p old c : Nat}
    (hp : mapGet m.userConnections u = some p) (hc : (m.deref p).clientId = c)
    (hold : mapGet m.clients c = some old) : p = old ∧ u = (m.deref old).user := by
  have h1 := h.user u p hp
  rw [hc, hold] at h1
  have e : old = p := Option.some.inj h1.2
  subst e
  exact ⟨rfl, h1.1.symm⟩

theorem SessionsOk.evictClient {m : VPNManager} (h : SessionsOk m) (c : Nat) :
    SessionsOk (m.evictClient c) ∧ (m.evictClient c).heap = m.heap ∧
      (m.evictClient c).clients = mapDelete m.clients c ∧
      (∀ u p, mapGet (m.evictClient c).userConnections u = some p →
        mapGet m.userConnections u = some p ∧ (m.deref p).clientId ≠ c) := by
  unfold VPNManager.evictClient
  cases hold : mapGet m.clients c with
  | none =>
    have hne : ∀ u p, mapGet m.userConnections u = some p → (m.deref p).clientId ≠ c := by
      intro u p hp e
      have h1 := (h.user u p hp).2
      rw [e, hold] at h1
      cases h1
    exact ⟨h, rfl, (mapDelete_of_none _ _ hold).symm, fun u p hp => ⟨hp, hne u p hp⟩⟩
  | some old =>
    have hd : ∀ p, ({ m with clients := mapDelete m.clients c } : VPNManager).deref p = m.deref p :=
      fun p => rfl
    simp only [hd]
    cases hou : mapGet m.userConnections (m.deref old).user with
    | none =>
      have hne : ∀ u p, mapGet m.userConnections u = some p → (m.deref p).clientId ≠ c := by
        intro u p hp e
        obtain ⟨-, e2⟩ := h.user_of_clientId hp e hold
        rw [e2, hou] at hp
        cases hp
      exact ⟨h.drop c rfl rfl (fun u p hp => hp) hne, rfl, rfl, fun u p hp => ⟨hp, hne u p hp⟩⟩
    | some oldUser =>
      by_cases hcid : (m.deref oldUser).clientId = c
      · simp only [hcid, if_true]
        have hsub : ∀ u p, mapGet (mapDelete m.userConnections (m.deref old).user) u = some p →
            mapGet m.userConnections u = some p ∧ (m.deref p).clientId ≠ c := by
          intro u p hp
          rw [mapGet_mapDelete] at hp
          by_cases e : u = (m.deref old).user
          · rw [if_pos e] at hp
            cases hp
          · rw [if_neg e] at hp
            refine ⟨hp, fun e1 => e ?_⟩
            exact (h.user_of_clientId hp e1 hold).2
        exact ⟨h.drop c rfl rfl (fun u p hp => (hsub u p hp).1) (fun u p hp => (hsub u p hp).2),
          trivial, trivial, hsub⟩
      · simp only [hcid, if_false]
        have hne : ∀ u p, mapGet m.userConnections u = some p → (m.deref p).clientId ≠ c := by
          intro u p hp e
          obtain ⟨e1, e2⟩ := h.user_of_clientId hp e hold
          rw [e2, hou] at hp
          have e3 : oldUser = p := Option.some.inj hp
          rw [e3] at hcid
          exact hcid e
        exact ⟨h.drop c rfl rfl (fun u p hp => hp) hne, trivial, trivial,
          fun u p hp => ⟨hp, hne u p hp⟩⟩

theorem deref_alloc_old (m : VPNManager) (x : clientConnection) (cl : List (Nat × Nat))
    (uc : List (Str × Nat)) (p : Nat) (h : p < m.heap.length) :
    ({ m with heap := m.heap ++ [x], clients := cl, userConnections := uc } : VPNManager).deref p
      = m.deref p := by
  unfold VPNManager.deref
  simp only
  rw [List.getD_append _ _ _ _ h]

theorem deref_alloc_new (m : VPNManager) (x : clientConnection) (cl : List (Nat × Nat))
    (uc : List (Str × Nat)) :
    ({ m with heap := m.heap ++ [x], clients := cl, userConnections := uc } : VPNManager).deref
      m.heap.length = x := by
  unfold VPNManager.deref
  simp only
  rw [List.getD_append_right _ _ _ _ (le_refl _)]
  simp

/-- Storing a new record under a client id and a user keeps the tables
consistent when no entry of another user carries that client id. -/
theorem SessionsOk.insert {m : VPNManager} (h : SessionsOk m) (c : Nat) (user key : Str)
    (conf : UserConfig)
    (hq : ∀ u p, mapGet m.userConnections u = some p → u ≠ user → (m.deref p).clientId ≠ c) :
    SessionsOk { m with
      heap := m.heap ++ [⟨user, c, none, key, conf⟩]
      clients := mapSet m.clients c m.heap.length
      userConnections := mapSet m.userConnections user m.heap.length } := by
  constructor
  · intro c1 p hp
    simp only [mapGet_mapSet] at hp
    simp only [List.length_append, List.length_singleton]
    by_cases e : c1 = c
    · rw [if_pos e] at hp
      cases hp
      omega
    · rw [if_neg e] at hp
      have := h.clientsValid c1 p hp
      omega
  · intro u p hp
    simp only [mapGet_mapSet] at hp
    simp only [List.length_append, List.length_singleton]
    by_cases e : u = user
    · rw [if_pos e] at hp
      cases hp
      omega
    · rw [if_neg e] at hp
      have := h.usersValid u p hp
      omega
  · intro c1 p hp
    simp only [mapGet_mapSet] at hp
    by_cases e : c1 = c
    · rw [if_pos e] at hp
      cases hp
      rw [deref_alloc_new, e]
    · rw [if_neg e] at hp
      rw [deref_alloc_old _ _ _ _ _ (h.clientsValid c1 p hp)]
      exact h.clientId c1 p hp
  · intro u p hp
    simp only [mapGet_mapSet] at hp
    by_cases e : u = user
    · rw [if_pos e] at hp
      cases hp
      rw [deref_alloc_new]
      simp only [mapGet_mapSet, if_true]
      exact ⟨e.symm, trivial⟩
    · rw [if_neg e] at hp
      rw [deref_alloc_old _ _ _ _ _ (h.usersValid u p hp)]
      refine ⟨(h.user u p hp).1, ?_⟩
      simp only [mapGet_mapSet]
      rw [if_neg (hq u p hp e)]
      exact (h.user u p hp).2

theorem SessionsOk.recordSession {m : VPNManager} (h : SessionsOk m) (c : Nat) (user key : Str)
    (conf : UserConfig) (reauth : Bool)
    (hk : reauth = true → ∀ p, mapGet m.clients c = some p → (m.deref p).user = user) :
    SessionsOk (m.recordSession c user key conf reauth).1 := by
  unfold VPNManager.recordSession
  cases reauth with
  | true =>
    simp only [if_true]
    apply h.insert
    intro u p hp hne e
    obtain ⟨h1, h2⟩ := h.user u p hp
    rw [e] at h2
    exact hne (h1.symm.trans (hk rfl p h2))
  | false =>
    simp only [Bool.false_eq_true, if_false]
    obtain ⟨h1, h2, -, h4⟩ := h.evictClient c
    apply h1.insert
    intro u p hp _
    rw [deref_eq_of_heap h2]
    exact (h4 u p hp).2

theorem SessionsOk.authorizeClient {m : VPNManager} (h : SessionsOk m) (ord : MapOrder)
    (backend : Backend) (c k : Nat) (env : List (Str × Str)) (reauth : Bool)
    (hk : reauth = true → ∀ p, mapGet m.clients c = some p →
      (m.deref p).user = (mapGet env "X509_1_CN".toList).getD []) :
    SessionsOk (m.authorizeClient ord backend c k env reauth) := by
  unfold VPNManager.authorizeClient
  simp only
  split
  · exact h.of_tables rfl rfl rfl
  · split
    · exact h.of_tables rfl rfl rfl
    · have h1 : SessionsOk ({ m with users :=
          (authenticateUser ord backend m.users ((mapGet env "X509_1_CN".toList).getD [])
            ((mapGet env "X509_1_OU".toList).getD [])).2 } : VPNManager) :=
        h.of_tables rfl rfl rfl
      have h2 := h1.recordSession c ((mapGet env "X509_1_CN".toList).getD [])
        (authenticateUser ord backend m.users ((mapGet env "X509_1_CN".toList).getD [])
            ((mapGet env "X509_1_OU".toList).getD [])).1.keyId
        ((authenticateUser ord backend m.users ((mapGet env "X509_1_CN".toList).getD [])
            ((mapGet env "X509_1_OU".toList).getD [])).1.config.getD ⟨NOT_SET, []⟩) reauth hk
      split
      · exact h2.of_tables rfl rfl rfl
      · exact h2.of_tables rfl rfl rfl

theorem SessionsOk.DisconnectUser {m : VPNManager} (h : SessionsOk m) (user : Str) :
    SessionsOk (m.DisconnectUser user) := by
  unfold VPNManager.DisconnectUser
  cases hu : mapGet m.userConnections user with
  | none => exact h
  | some p =>
    simp only
    have hsub : ∀ u q, mapGet (mapDelete m.userConnections user) u = some q →
        mapGet m.userConnections u = some q ∧ (m.deref q).clientId ≠ (m.deref p).clientId := by
      intro u q hq
      rw [mapGet_mapDelete] at hq
      by_cases e : u = user
      · rw [if_pos e] at hq
        cases hq
      · rw [if_neg e] at hq
        refine ⟨hq, fun e1 => e ?_⟩
        have h1 := h.user u q hq
        have h2 := h.user user p hu
        rw [e1, h2.2] at h1
        have e2 : p = q := Option.some.inj h1.2
        rw [← h1.1, ← h2.1, e2]
    have hd : SessionsOk ({ m with
        userConnections := mapDelete m.userConnections user
        clients := mapDelete m.clients (m.deref p).clientId } : VPNManager) :=
      h.drop (m.deref p).clientId rfl rfl
        (fun u q hq => (hsub u q hq).1) (fun u q hq => (hsub u q hq).2)
    exact hd.of_tables rfl rfl rfl

/-- Writing the address of a record changes neither its user nor its client id. -/
theorem deref_setAddress (m : VPNManager) (conn : Nat) (address : IPNet) (fw : Firewall) (p : Nat) :
    (({ m with
        heap := m.heap.set conn { m.deref conn with address := some address }
        Firewall := fw } : VPNManager).deref p).user = (m.deref p).user ∧
      (({ m with
        heap := m.heap.set conn { m.deref conn with address := some address }
        Firewall := fw } : VPNManager).deref p).clientId = (m.deref p).clientId := by
  unfold VPNManager.deref
  simp only
  by_cases e : conn = p
  · subst e
    rw [getD_set_self]
    by_cases hl : conn < m.heap.length
    · simp [hl]
    · rw [if_neg hl]
      have h1 : m.heap.getD conn ⟨[], 0, none, [], ⟨NOT_SET, []⟩⟩ = ⟨[], 0, none, [], ⟨NOT_SET, []⟩⟩ := by
        simp [List.getD, List.getElem?_eq_none (not_lt.1 hl)]
      rw [h1]
      exact ⟨rfl, rfl⟩
  · rw [getD_set_of_ne _ _ _ _ _ e]
    exact ⟨rfl, rfl⟩

theorem SessionsOk.processClientEvent {m m1 : VPNManager} (h : SessionsOk m) (run : Iptables)
    (ord : MapOrder) (backend : Backend) (e : VPNClientEvent)
    (hk : e.Kind = "REAUTH".toList →
      ∀ p, mapGet m.clients e.ClientId = some p → (m.deref p).user = e.userName)
    (hs : m.processClientEvent run ord backend e = some m1) : SessionsOk m1 := by
  unfold VPNManager.processClientEvent at hs
  split at hs
  · cases hs
    apply h.authorizeClient
    intro hr
    exact hk (of_decide_eq_true hr)
  · split at hs
    · cases hc : mapGet m.clients e.ClientId with
      | none =>
        rw [hc] at hs
        cases hs
      | some conn =>
        rw [hc] at hs
        simp only at hs
        cases hs
        constructor
        · intro c p hp
          simp only [List.length_set]
          exact h.clientsValid c p hp
        · intro u p hp
          simp only [List.length_set]
          exact h.usersValid u p hp
        · intro c p hp
          rw [(deref_setAddress m conn e.Address _ p).2]
          exact h.clientId c p hp
        · intro u p hp
          rw [(deref_setAddress m conn e.Address _ p).1, (deref_setAddress m conn e.Address _ p).2]
          exact h.user u p hp
    · split at hs
      · cases hc : mapGet m.clients e.ClientId with
        | none =>
          rw [hc] at hs
          cases hs
          exact h
        | some conn =>
          rw [hc] at hs
          simp only at hs
          have hd : ∀ p, ({ m with clients := mapDelete m.clients e.ClientId } : VPNManager).deref p
              = m.deref p := fun p => rfl
          simp only [hd] at hs
          cases hou : mapGet m.userConnections (m.deref conn).user with
          | none =>
            rw [hou] at hs
            cases hs
          | some userConn =>
            rw [hou] at hs
            simp only at hs
            have hev := h.evictClient e.ClientId
            unfold VPNManager.evictClient at hev
            rw [hc] at hev
            simp only [hd, hou] at hev
            by_cases hcid : (m.deref userConn).clientId = e.ClientId
            · simp only [hcid, if_true] at hs hev
              split at hs
              · cases hs
                exact hev.1.of_tables rfl rfl rfl
              · cases hs
                exact hev.1
            · simp only [hcid, if_false] at hs hev
              split at hs
              · cases hs
                exact hev.1.of_tables rfl rfl rfl
              · cases hs
                exact hev.1
      · cases hs
        exact h

theorem SessionsOk.step {m m1 : VPNManager} (h : SessionsOk m) (i : SessionInput)
    (hk : i.KeepsUser m) (hs : m.step i = some m1) : SessionsOk m1 := by
  cases i with
  | event run ord backend e => exact h.processClientEvent run ord backend e hk hs
  | disconnectUser user =>
    simp only [VPNManager.step] at hs
    cases hs
    exact h.DisconnectUser user

/-- The eviction at the head of `authorizeClient` keeps the entry of a user
whose record carries another client id. -/
theorem evictClient_keeps (m : VPNManager) (c : Nat) (user : Str) (p1 : Nat)
    (hu : mapGet m.userConnections user = some p1) (hne : (m.deref p1).clientId ≠ c) :
    mapGet (m.evictClient c).userConnections user = some p1 ∧
      (m.evictClient c).heap = m.heap ∧ (m.evictClient c).sent = m.sent ∧
      (m.evictClient c).tunnelIP = m.tunnelIP ∧
      (m.evictClient c).clients = mapDelete m.clients c := by
  unfold VPNManager.evictClient
  cases hold : mapGet m.clients c with
  | none => exact ⟨hu, rfl, rfl, rfl, (mapDelete_of_none _ _ hold).symm⟩
  | some old =>
    have hd : ∀ p, ({ m with clients := mapDelete m.clients c } : VPNManager).deref p = m.deref p :=
      fun p => rfl
    simp only [hd]
    cases hou : mapGet m.userConnections (m.deref old).user with
    | none => exact ⟨hu, rfl, rfl, rfl, rfl⟩
    | some oldUser =>
      by_cases hcid : (m.deref oldUser).clientId = c
      · simp only [hcid, if_true]
        refine ⟨?_, trivial, trivial, trivial, trivial⟩
        rw [mapGet_mapDelete]
        by_cases e : user = (m.deref old).user
        · exfalso
          rw [← e, hu] at hou
          have e2 : p1 = oldUser := Option.some.inj hou
          rw [e2] at hne
          exact hne hcid
        · rw [if_neg e]
          exact hu
      · simp only [hcid, if_false]
        exact ⟨hu, trivial, trivial, trivial, trivial⟩

/-- The locked block of `authorizeClient` for a `CONNECT` of a user who holds a
session under another client id. -/
theorem recordSession_evicts (m : VPNManager) (c1 c2 : Nat) (user key : Str) (conf : UserConfig)
    (p1 : Nat) (hu : mapGet m.userConnections user = some p1)
    (hc1 : (m.deref p1).clientId = c1) (hne : c1 ≠ c2) :
    (m.recordSession c2 user key conf false).2 = some p1 ∧
      (m.recordSession c2 user key conf false).1.heap = m.heap ++ [⟨user, c2, none, key, conf⟩] ∧
      (m.recordSession c2 user key conf false).1.sent = m.sent ∧
      mapGet (m.recordSession c2 user key conf false).1.userConnections user
        = some m.heap.length ∧
      (∀ u p, u ≠ user → mapGet (m.recordSession c2 user key conf false).1.userConnections u = some p →
        mapGet m.userConnections u = some p) ∧
      mapGet (m.recordSession c2 user key conf false).1.clients c2 = some m.heap.length ∧
      (∀ c, c ≠ c2 → mapGet (m.recordSession c2 user key conf false).1.clients c
        = mapGet m.clients c) := by
  obtain ⟨k1, k2, k3, -, k5⟩ := evictClient_keeps m c2 user p1 hu (by rw [← hc1] at hne; exact hne)
  unfold VPNManager.recordSession
  simp only [Bool.false_eq_true, if_false, k1, k2, k3, k5, mapGet_mapSet, if_true, true_and]
  refine ⟨?_, ?_⟩
  · intro u p hup hp
    rw [if_neg hup] at hp
    unfold VPNManager.evictClient at hp
    cases hold : mapGet m.clients c2 with
    | none =>
      rw [hold] at hp
      exact hp
    | some old =>
      rw [hold] at hp
      simp only at hp
      split at hp
      · split at hp
        · simp only [mapGet_mapDelete] at hp
          split at hp
          · cases hp
          · exact hp
        · exact hp
      · exact hp
  · intro c hc
    rw [if_neg hc, mapGet_mapDelete, if_neg hc]

/-- What `authorizeClient` does when it authorizes a `CONNECT` of a user who
holds a session under another client id. -/
theorem authorizeClient_evicts (ord : MapOrder) (backend : Backend) (m : VPNManager)
    (c1 c2 keyId : Nat) (env : List (Str × Str)) (p1 : Nat)
    (htls : mapGet env "tls_digest_sha256_3".toList = none)
    (hauth : (authenticateUser ord backend m.users ((mapGet env "X509_1_CN".toList).getD [])
      ((mapGet env "X509_1_OU".toList).getD [])).1.err = none)
    (hu : mapGet m.userConnections ((mapGet env "X509_1_CN".toList).getD []) = some p1)
    (hv : p1 < m.heap.length) (hc1 : (m.deref p1).clientId = c1) (hne : c1 ≠ c2) :
    (m.authorizeClient ord backend c2 keyId env false).sent
        = m.sent ++ [(clientKill c1, false),
            (clientAuth m.tunnelIP c2 keyId
              ((authenticateUser ord backend m.users ((mapGet env "X509_1_CN".toList).getD [])
                ((mapGet env "X509_1_OU".toList).getD [])).1.config.getD ⟨NOT_SET, []⟩), true)] ∧
      (m.authorizeClient ord backend c2 keyId env false).heap
        = m.heap ++ [⟨(mapGet env "X509_1_CN".toList).getD [], c2, none,
            (authenticateUser ord backend m.users ((mapGet env "X509_1_CN".toList).getD [])
              ((mapGet env "X509_1_OU".toList).getD [])).1.keyId,
            (authenticateUser ord backend m.users ((mapGet env "X509_1_CN".toList).getD [])
              ((mapGet env "X509_1_OU".toList).getD [])).1.config.getD ⟨NOT_SET, []⟩⟩] ∧
      mapGet (m.authorizeClient ord backend c2 keyId env false).userConnections
        ((mapGet env "X509_1_CN".toList).getD []) = some m.heap.length ∧
      (∀ u p, u ≠ (mapGet env "X509_1_CN".toList).getD [] →
        mapGet (m.authorizeClient ord backend c2 keyId env false).userConnections u = some p →
        mapGet m.userConnections u = some p) ∧
      mapGet (m.authorizeClient ord backend c2 keyId env false).clients c2 = some m.heap.length ∧
      (∀ c, c ≠ c2 → mapGet (m.authorizeClient ord backend c2 keyId env false).clients c
        = mapGet m.clients c) := by
  obtain ⟨k1, k2, k3, k4, k5, k6, k7⟩ := recordSession_evicts ({ m with users :=
      (authenticateUser ord backend m.users ((mapGet env "X509_1_CN".toList).getD [])
        ((mapGet env "X509_1_OU".toList).getD [])).2 } : VPNManager) c1 c2
    ((mapGet env "X509_1_CN".toList).getD [])
    (authenticateUser ord backend m.users ((mapGet env "X509_1_CN".toList).getD [])
        ((mapGet env "X509_1_OU".toList).getD [])).1.keyId
    ((authenticateUser ord backend m.users ((mapGet env "X509_1_CN".toList).getD [])
        ((mapGet env "X509_1_OU".toList).getD [])).1.config.getD ⟨NOT_SET, []⟩) p1 hu hc1 hne
  have hd : ((({ m with users :=
      (authenticateUser ord backend m.users ((mapGet env "X509_1_CN".toList).getD [])
        ((mapGet env "X509_1_OU".toList).getD [])).2 } : VPNManager).recordSession c2
      ((mapGet env "X509_1_CN".toList).getD [])
      (authenticateUser ord backend m.users ((mapGet env "X509_1_CN".toList).getD [])
        ((mapGet env "X509_1_OU".toList).getD [])).1.keyId
      ((authenticateUser ord backend m.users ((mapGet env "X509_1_CN".toList).getD [])
        ((mapGet env "X509_1_OU".toList).getD [])).1.config.getD ⟨NOT_SET, []⟩) false).1.deref
        p1).clientId = c1 := by
    unfold VPNManager.deref
    rw [k2]
    simp only
    rw [List.getD_append _ _ _ _ hv]
    exact hc1
  unfold VPNManager.authorizeClient
  simp only [htls, Option.isSome_none, Bool.false_eq_true, if_false, hauth, k1]
  simp only [VPNManager.ExecCommand, hd, k2, k3, List.append_assoc, List.singleton_append,
    List.cons_append, List.nil_append, true_and]
  exact ⟨k4, k5, k6, k7⟩

/-- A `DISCONNECT` for a client id whose record belongs to a user holding a
session under another client id removes that record from `clients` and nothing
else from the session tables. -/
theorem disconnect_evicted (run : Iptables) (ord : MapOrder) (backend : Backend)
    (m : VPNManager) (e : VPNClientEvent) (p1 p2 : Nat)
    (hkind : e.Kind = "DISCONNECT".toList)
    (hc : mapGet m.clients e.ClientId = some p1)
    (hu : mapGet m.userConnections (m.deref p1).user = some p2)
    (hne : (m.deref p2).clientId ≠ e.ClientId) :
    ∃ m1, m.processClientEvent run ord backend e = some m1 ∧
      m1.userConnections = m.userConnections ∧ m1.clients = mapDelete m.clients e.ClientId ∧
      m1.heap = m.heap ∧ m1.sent = m.sent := by
  have h1 : ¬ (e.Kind = "CONNECT".toList ∨ e.Kind = "REAUTH".toList) := by
    rw [hkind]
    decide
  have h2 : ¬ e.Kind = "ADDRESS".toList := by
    rw [hkind]
    decide
  have hd : ∀ p, ({ m with clients := mapDelete m.clients e.ClientId } : VPNManager).deref p
      = m.deref p := fun p => rfl
  unfold VPNManager.processClientEvent
  rw [if_neg h1, if_neg h2, if_pos hkind, hc]
  simp only [hd, hu, hne, if_false]
  cases (m.deref p1).address with
  | none => exact ⟨_, rfl, rfl, rfl, rfl, rfl⟩
  | some address => exact ⟨_, rfl, rfl, rfl, rfl, rfl⟩

theorem readLinesAux_no_feed (f cur : Str) (hf : Char.ofNat 10 ∉ f) : readLinesAux f cur = [] := by
  induction f generalizing cur with
  | nil => rfl
  | cons c cs ih =>
    have hc : c ≠ Char.ofNat 10 := fun e => hf (by rw [e]; exact List.mem_cons_self _ _)
    have hcs : Char.ofNat 10 ∉ cs := fun h => hf (List.mem_cons_of_mem _ h)
    simp only [readLinesAux, hc, if_false]
    exact ih _ hcs

theorem readLinesAux_append (s f cur : Str) (hf : Char.ofNat 10 ∉ f) :
    readLinesAux (s ++ f) cur = readLinesAux s cur := by
  induction s generalizing cur with
  | nil => simpa [readLinesAux] using readLinesAux_no_feed f cur hf
  | cons c cs ih =>
    show readLinesAux (c :: (cs ++ f)) cur = readLinesAux (c :: cs) cur
    simp only [readLinesAux]
    split
    · rw [ih]
    · exact ih _

theorem readLines_append (s f : Str) (hf : Char.ofNat 10 ∉ f) :
    readLines (s ++ f) = readLines s :=
  readLinesAux_append s f [] hf

/-! ### The text of addresses and the `client-auth` command -/

theorem digitChar_ne_S (d : Nat) (h : d < 10) : digitChar d ≠ 'S' := by
  interval_cases d <;> decide

theorem hexDigit_ne_S (d : Nat) (h : d < 16) : hexDigit d ≠ 'S' := by
  interval_cases d <;> decide

theorem uitoaAux_no_S (fuel n : Nat) (acc : Str) (hacc : 'S' ∉ acc) :
    'S' ∉ uitoaAux fuel n acc := by
  induction fuel generalizing n acc with
  | zero => exact hacc
  | succ fuel ih =>
    unfold uitoaAux
    split
    · rename_i hn
      intro hm
      rcases List.mem_cons.1 hm with e | e
      · exact digitChar_ne_S n hn e.symm
      · exact hacc e
    · apply ih
      intro hm
      rcases List.mem_cons.1 hm with e | e
      · exact digitChar_ne_S (n % 10) (Nat.mod_lt _ (by decide)) e.symm
      · exact hacc e

theorem uitoa_no_S (n : Nat) : 'S' ∉ uitoa n :=
  uitoaAux_no_S _ _ _ (List.not_mem_nil _)

theorem hexString_no_S (b : List Nat) : 'S' ∉ hexString b := by
  unfold hexString
  intro hm
  obtain ⟨v, -, hv⟩ := List.mem_flatMap.1 hm
  simp only [List.mem_cons, List.mem_singleton, List.not_mem_nil, or_false] at hv
  rcases hv with e | e
  · exact hexDigit_ne_S _ (Nat.mod_lt _ (by decide)) e.symm
  · exact hexDigit_ne_S _ (Nat.mod_lt _ (by decide)) e.symm

theorem string4_no_S (ip : List Nat) : 'S' ∉ string4 ip := by
  unfold string4
  simp only [List.mem_append, List.mem_singleton, not_or]
  exact ⟨⟨⟨⟨⟨⟨uitoa_no_S _, by decide⟩, uitoa_no_S _⟩, by decide⟩, uitoa_no_S _⟩, by decide⟩,
    uitoa_no_S _⟩

theorem appendHex_no_S (x : Nat) : 'S' ∉ appendHex x := by
  unfold appendHex
  simp only
  split
  · decide
  · intro hm
    obtain ⟨d, hd, e⟩ := List.mem_map.1 hm
    have hd1 := (List.dropWhile_sublist _).subset hd
    simp only [List.mem_cons, List.mem_singleton, List.not_mem_nil, or_false] at hd1
    have hlt : d < 16 := by
      rcases hd1 with h | h | h | h <;> rw [h] <;> exact Nat.mod_lt _ (by decide)
    exact hexDigit_ne_S d hlt e

theorem emit6_no_S (groups : List Nat) (zs ze fuel i : Nat) : 'S' ∉ emit6 groups zs ze fuel i := by
  induction fuel generalizing i with
  | zero => simp [emit6]
  | succ fuel ih =>
    unfold emit6
    split
    · exact List.not_mem_nil _
    · split
      · split
        · decide
        · simp only [List.mem_append, not_or]
          exact ⟨⟨by decide, appendHex_no_S _⟩, ih _⟩
      · simp only [List.mem_append, not_or]
        refine ⟨⟨?_, appendHex_no_S _⟩, ih _⟩
        split <;> decide

theorem ipString_no_S (ip : List Nat) : 'S' ∉ ipString ip := by
  unfold ipString
  split
  · decide
  · split
    · intro hm
      rcases List.mem_cons.1 hm with e | e
      · exact absurd e (by decide)
      · exact hexString_no_S _ e
    · split
      · exact string4_no_S _
      · exact emit6_no_S _ _ _ _ _

theorem routeDirective_no_S (route : UserRoute) : 'S' ∉ routeDirective route := by
  unfold routeDirective quote
  simp only [List.mem_append, List.mem_singleton, not_or]
  exact ⟨⟨⟨⟨⟨⟨⟨by decide, by decide⟩, by decide⟩, ipString_no_S _⟩, by decide⟩, ipString_no_S _⟩,
    by decide⟩, by decide⟩

/-- The `client-auth` command: the head line, the DNS directive unless the DNS
flag is off, one directive per route, and `END`. -/
theorem clientAuth_eq (tunnelIP : List Nat) (clientId keyId : Nat) (conf : UserConfig) :
    clientAuth tunnelIP clientId keyId conf
      = "client-auth ".toList ++ uitoa clientId ++ [' '] ++ uitoa keyId ++ "\n".toList
        ++ (if conf.DNSSetting ≠ OFF then dnsDirective tunnelIP else [])
        ++ conf.Routes.flatMap routeDirective ++ "END".toList := by
  unfold clientAuth dnsDirective
  have h : (fun route : UserRoute =>
      "push ".toList ++ quote ++ "route ".toList ++ ipString route.Network.IP ++ [' ']
        ++ ipString (applyMask (v4InV6Header ++ [255, 255, 255, 255]) route.Network.Mask)
        ++ quote ++ "\n".toList) = routeDirective := rfl
  rw [h]

theorem dnsDirective_infix_iff (tunnelIP : List Nat) (clientId keyId : Nat) (conf : UserConfig) :
    dnsDirective tunnelIP <:+: clientAuth tunnelIP clientId keyId conf ↔ conf.DNSSetting ≠ OFF := by
  rw [clientAuth_eq]
  constructor
  · intro hin hoff
    have hS : 'S' ∈ dnsDirective tunnelIP := by
      unfold dnsDirective
      simp only [List.mem_append]
      exact Or.inl (Or.inl (Or.inl (Or.inr (by decide))))
    have hbody := hin.subset hS
    rw [if_neg (not_not.2 hoff)] at hbody
    rcases List.mem_append.1 hbody with h | h
    · rcases List.mem_append.1 h with h | h
      · rcases List.mem_append.1 h with h | h
        · rcases List.mem_append.1 h with h | h
          · rcases List.mem_append.1 h with h | h
            · rcases List.mem_append.1 h with h | h
              · rcases List.mem_append.1 h with h | h
                · exact absurd h (by decide)
                · exact uitoa_no_S _ h
              · exact absurd h (by decide)
            · exact uitoa_no_S _ h
          · exact absurd h (by decide)
        · exact absurd h (List.not_mem_nil _)
      · obtain ⟨route, -, hr⟩ := List.mem_flatMap.1 h
        exact routeDirective_no_S route hr
    · exact absurd h (by decide)
  · intro hne
    rw [if_pos hne]
    exact ⟨"client-auth ".toList ++ uitoa clientId ++ [' '] ++ uitoa keyId ++ "\n".toList,
      conf.Routes.flatMap routeDirective ++ "END".toList, by simp [List.append_assoc]⟩

theorem authenticateUser_config_of_ok (ord : MapOrder) (backend : Backend) (c : userManager)
    (user keyHash : Str) (h : (authenticateUser ord backend c user keyHash).1.err = none) :
    ∃ conf, (authenticateUser ord backend c user keyHash).1.config = some conf := by
  unfold authenticateUser at h ⊢
  simp only at h ⊢
  split
  · rename_i h1
    rw [if_pos h1] at h
    cases h
  · rename_i h1
    rw [if_neg h1] at h
    split
    · rename_i h2
      rw [if_pos h2] at h
      cases h
    · rename_i h2
      rw [if_neg h2] at h
      split
      · rename_i h3
        rw [if_pos h3] at h
        cases h
      · rename_i h3
        rw [if_neg h3] at h
        split
        · exact ⟨_, rfl⟩
        · rename_i e he
          rw [he] at h
          cases h

theorem authorizeClient_last_command (ord : MapOrder) (backend : Backend) (m : VPNManager)
    (clientId keyId : Nat) (env : List (Str × Str)) (reauth : Bool) (conf : UserConfig)
    (htls : mapGet env "tls_digest_sha256_3".toList = none)
    (hauth : (authenticateUser ord backend m.users ((mapGet env "X509_1_CN".toList).getD [])
      ((mapGet env "X509_1_OU".toList).getD [])).1.err = none)
    (hconf : (authenticateUser ord backend m.users ((mapGet env "X509_1_CN".toList).getD [])
      ((mapGet env "X509_1_OU".toList).getD [])).1.config = some conf) :
    (m.authorizeClient ord backend clientId keyId env reauth).sent.getLast?
      = some (clientAuth m.tunnelIP clientId keyId conf, true) := by
  unfold VPNManager.authorizeClient
  simp only [htls, Option.isSome_none, Bool.false_eq_true, if_false, hauth, hconf, Option.getD_some]
  split <;> simp [VPNManager.ExecCommand]

/-! ### The rules of a resolved policy -/

theorem mem_firewallRules (conf : UserConfig) (rule : FirewallRule) :
    rule ∈ firewallRules conf ↔
      ∃ route ∈ conf.Routes, rule.Network = route.Network ∧
        ((route.Ports = [] ∧ rule.Port = 0) ∨ rule.Port ∈ route.Ports) := by
  unfold firewallRules
  rw [List.mem_flatMap]
  constructor
  · rintro ⟨route, hr, hm⟩
    refine ⟨route, hr, ?_⟩
    by_cases hp : route.Ports.length = 0
    · rw [if_pos hp, List.mem_singleton] at hm
      rw [hm]
      exact ⟨rfl, Or.inl ⟨List.length_eq_zero.1 hp, rfl⟩⟩
    · rw [if_neg hp] at hm
      obtain ⟨port, hport, e⟩ := List.mem_map.1 hm
      rw [← e]
      exact ⟨rfl, Or.inr hport⟩
  · rintro ⟨route, hr, hn, hp⟩
    refine ⟨route, hr, ?_⟩
    rcases hp with ⟨he, h0⟩ | hm
    · rw [if_pos (by rw [he]; rfl), List.mem_singleton]
      cases rule
      simp only at hn h0
      rw [hn, h0]
    · have hlen : ¬ route.Ports.length = 0 := by
        intro h
        rw [List.length_eq_zero.1 h] at hm
        exact List.not_mem_nil _ hm
      rw [if_neg hlen]
      refine List.mem_map.2 ⟨rule.Port, hm, ?_⟩
      cases rule
      simp only at hn
      rw [hn]

theorem addRule_calls (run : Iptables) (fw : Firewall) (chain : Str) (entry : chainRule) :
    (fw.addRule run chain entry).1.calls
      = fw.calls ++ [if entry.port = 0 then appendAny chain entry.network fw.vpnInterface
          else appendPort chain entry.network fw.vpnInterface entry.port] := by
  unfold Firewall.addRule iptables appendAny appendPort
  split <;> rfl

/-- The port set of a resolved network is the union of the port lists
contributed for it: when a network is contributed once without ports and once
with the ports `ps`, the result has exactly one route for it, and the ports of
that route are the ports listed by the contributions of the network, among them
all of `ps`. -/
theorem GetUserConfig_ports_union {ord : MapOrder} (hv : ord.Valid) (config : ConfigFile)
    (user : Str) (groups : List Str) (netinfo : NetworkInfo) (r : UserConfig)
    (hok : netsOk config netinfo = true)
    (h : GetUserConfig ord config user groups netinfo = .ok r)
    (n1 n2 : IPNet) (ps : List Nat)
    (h1 : (n1, []) ∈ contributions ord config user groups netinfo)
    (h2 : (n2, ps) ∈ contributions ord config user groups netinfo)
    (hk : toNetworkKey n2 = toNetworkKey n1) :
    ∃ rt ∈ r.Routes, rt.Network = toIPNet (toNetworkKey n1) ∧
      (∀ rt1 ∈ r.Routes, rt1.Network = rt.Network → rt1 = rt) ∧
      (∀ p, p ∈ rt.Ports ↔ ∃ c ∈ contributions ord config user groups netinfo,
        toNetworkKey c.1 = toNetworkKey n1 ∧ p ∈ c.2) ∧
      (∀ p ∈ ps, p ∈ rt.Ports) := by
  obtain ⟨rt, hrt, e, hp⟩ := contribution_resolved hv h h1
  refine ⟨rt, hrt, e, fun rt1 hrt1 e1 => ?_, hp, fun p hps => ?_⟩
  · exact List.inj_on_of_nodup_map (routes_nodup hv hok h) hrt1 hrt e1
  · exact (hp p).2 ⟨(n2, ps), h2, hk, hps⟩

/-- Every port of every route resolved from a policy that `ParseConfig` accepts
is a `uint16` value, at most 65535. -/
theorem resolved_ports_uint16 (pd : Str → Option Int) (text : Str) (config : ConfigFile)
    {ord : MapOrder} (hv : ord.Valid) (user : Str) (groups : List Str)
    (netinfo : NetworkInfo) (r : UserConfig)
    (hparse : ParseConfig pd text = .ok config)
    (h : GetUserConfig ord config user groups netinfo = .ok r) :
    ∀ rt ∈ r.Routes, ∀ p ∈ rt.Ports, p ≤ 65535 := by
  intro rt hrt p hp
  obtain ⟨c, -, -, hports⟩ := resolved_route_origin hv h hrt
  obtain ⟨c1, hc1, -, hp1⟩ := (hports p).1 hp
  exact contribution_ports_le hv (ParseConfig_portsOk hparse) hc1 p hp1

/-- The rules `updateFirewall` hands to `UpdateUser`: one rule with port 0 for
each resolved route without ports and one rule per port for each other route.
A rule of this list comes from a route with its network, and its port is 0
with a route without ports or is a port of the route. The command `addRule`
emits for a rule is the port-less one if and only if the port of the rule is 0,
and the command for its port otherwise. -/
theorem updateFirewall_rules (run : Iptables) (order : List chainRule → List chainRule)
    (m : VPNManager) (user chain : Str) (conf : UserConfig) (rule : FirewallRule)
    (h : rule ∈ firewallRules conf) :
    (m.updateFirewall run order user conf).Firewall
        = (m.Firewall.UpdateUser run order user (some (firewallRules conf))).1 ∧
      (∀ (d : Nat) (route : UserRoute), firewallRules ⟨d, [route]⟩
        = if route.Ports = [] then [⟨route.Network, 0⟩]
          else route.Ports.map (fun port => ⟨route.Network, port⟩)) ∧
      (∀ (d : Nat) (r1 r2 : List UserRoute), firewallRules ⟨d, r1 ++ r2⟩
        = firewallRules ⟨d, r1⟩ ++ firewallRules ⟨d, r2⟩) ∧
      (∃ route ∈ conf.Routes, rule.Network = route.Network ∧
        ((route.Ports = [] ∧ rule.Port = 0) ∨ rule.Port ∈ route.Ports)) ∧
      (m.Firewall.addRule run chain (toChainRule rule)).1.calls
        = m.Firewall.calls ++
          [if rule.Port = 0 then appendAny chain (toChainRule rule).network m.Firewall.vpnInterface
            else appendPort chain (toChainRule rule).network m.Firewall.vpnInterface rule.Port] ∧
      (rule.Port = 0 → ∃ route ∈ conf.Routes, rule.Network = route.Network ∧
        (route.Ports = [] ∨ 0 ∈ route.Ports)) := by
  have hmem := (mem_firewallRules conf rule).1 h
  refine ⟨rfl, ?_, ?_, hmem, addRule_calls run m.Firewall chain (toChainRule rule), ?_⟩
  · intro d route
    unfold firewallRules
    simp only [List.flatMap_cons, List.flatMap_nil, List.append_nil]
    by_cases hp : route.Ports = []
    · rw [if_pos hp, if_pos (by rw [hp]; rfl)]
    · rw [if_neg hp, if_neg (fun e => hp (List.length_eq_zero.1 e))]
  · intro d r1 r2
    unfold firewallRules
    simp only [List.flatMap_append]
  · intro h0
    obtain ⟨route, hr, hn, hp⟩ := hmem
    refine ⟨route, hr, hn, ?_⟩
    rcases hp with ⟨he, -⟩ | hm
    · exact Or.inl he
    · rw [h0] at hm
      exact Or.inr hm

/-! ## The claims -/

/-- C1: `authenticateUser` returns a policy only if the presented hash is a key
of the user's hash index and the alias it maps to is in the key list just
fetched from the backend, and then it returns that alias and no error; in every
other case it returns no policy and an error: so when the backend returns no
key list (unknown user, or a failed fetch, which both backends report as a nil
list with an error), and so for every failed fetch of a backend that returns a
nil list with its errors. -/
theorem authenticateUser_policy_only_if (ord : MapOrder) (backend : Backend) (c : userManager)
    (user keyHash : Str) :
    ((authenticateUser ord backend c user keyHash).1.config ≠ none →
        (authenticateUser ord backend c user keyHash).1.err = none ∧
        ∃ userInfo keys, mapGet c.users user = some userInfo ∧
          mapGet userInfo.keyByHash keyHash = some (authenticateUser ord backend c user keyHash).1.keyId ∧
          (backend.FetchKeys user).1 = some keys ∧
          (authenticateUser ord backend c user keyHash).1.keyId ∈ keys) ∧
      (¬ (∃ userInfo keyAlias keys, mapGet c.users user = some userInfo ∧
            mapGet userInfo.keyByHash keyHash = some keyAlias ∧
            (backend.FetchKeys user).1 = some keys ∧ keyAlias ∈ keys) →
        (authenticateUser ord backend c user keyHash).1.config = none ∧
        (authenticateUser ord backend c user keyHash).1.err ≠ none) ∧
      ((backend.FetchKeys user).1 = none →
        (authenticateUser ord backend c user keyHash).1.config = none ∧
        (authenticateUser ord backend c user keyHash).1.err ≠ none) ∧
      (((backend.FetchKeys user).2 ≠ none → (backend.FetchKeys user).1 = none) →
        (backend.FetchKeys user).2 ≠ none →
        (authenticateUser ord backend c user keyHash).1.config = none ∧
        (authenticateUser ord backend c user keyHash).1.err ≠ none) := by
  obtain ⟨h1, h2⟩ := authenticateUser_cases ord backend c user keyHash
  have h3 : (backend.FetchKeys user).1 = none →
      (authenticateUser ord backend c user keyHash).1.config = none ∧
      (authenticateUser ord backend c user keyHash).1.err ≠ none := by
    intro hnil
    apply h2
    rintro ⟨ui, a, keys, -, -, hk, -⟩
    rw [hnil] at hk
    cases hk
  exact ⟨h1, h2, h3, fun hcontract herr => h3 (hcontract herr)⟩

/-- C2: `GetUserConfig` fails if and only if the policy has no section for the
user and no name of the group list is a group section of the policy; in every
other case it returns a resolved policy. -/
theorem GetUserConfig_fails_iff (ord : MapOrder) (config : ConfigFile) (user : Str)
    (groups : List Str) (netinfo : NetworkInfo) :
    ((∃ e, GetUserConfig ord config user groups netinfo = .error e) ↔
        (mapGet config.Users user = none ∧ ∀ g ∈ groups, mapGet config.Groups g = none)) ∧
      (¬ (mapGet config.Users user = none ∧ ∀ g ∈ groups, mapGet config.Groups g = none) →
        ∃ r, GetUserConfig ord config user groups netinfo = .ok r) :=
  getUserConfig_error_iff ord config user groups netinfo

set_option maxRecDepth 100000 in
/-- C3 fails on the code: the port list of a resolved route is in the order in
which `range` visits the port set. For `route 10.0.0.0/24 80 443` two admissible
iteration orders give the port lists `[80, 443]` and `[443, 80]`. -/
theorem GetUserConfig_port_order_not_fixed :
    insertionOrder.Valid ∧ reversedPorts.Valid ∧
    GetUserConfig insertionOrder (policyOf "global\n\troute 10.0.0.0/24 80 443\nuser alice\n")
        "alice".toList [] noTopology
      = .ok ⟨NOT_SET, [⟨⟨[0, 0, 0, 0, 0, 0, 0, 0, 0, 0, 255, 255, 10, 0, 0, 0],
          [255, 255, 255, 0]⟩, [80, 443]⟩]⟩ ∧
    GetUserConfig reversedPorts (policyOf "global\n\troute 10.0.0.0/24 80 443\nuser alice\n")
        "alice".toList [] noTopology
      = .ok ⟨NOT_SET, [⟨⟨[0, 0, 0, 0, 0, 0, 0, 0, 0, 0, 255, 255, 10, 0, 0, 0],
          [255, 255, 255, 0]⟩, [443, 80]⟩]⟩ :=
  ⟨insertionOrder_valid, reversedPorts_valid, by decide, by decide⟩

set_option maxRecDepth 100000 in
/-- C4 fails on the code: the empty port set, which stands for all ports from
the parser to the packet filter, is not absorbing in `addRoute`. With
`route 10.0.0.0/24` in the global section and `route 10.0.0.0/24 80` in the
section of the group `dev`, in either order, a member of `dev` gets one route
whose port set is not empty but holds port 80. For `alice` outside `dev` the
route has no ports and `updateFirewall` emits the command that accepts every
port; for `alice` in `dev` it emits the command for port 80 alone: the extra
group takes access away. -/
theorem GetUserConfig_empty_not_absorbing :
    GetUserConfig insertionOrder
        (policyOf "global\n\troute 10.0.0.0/24\ngroup dev\n\troute 10.0.0.0/24 80\nuser alice\n")
        "alice".toList ["dev".toList] noTopology
      = .ok ⟨NOT_SET, [⟨⟨[0, 0, 0, 0, 0, 0, 0, 0, 0, 0, 255, 255, 10, 0, 0, 0],
          [255, 255, 255, 0]⟩, [80]⟩]⟩ ∧
    GetUserConfig insertionOrder
        (policyOf "global\n\troute 10.0.0.0/24 80\ngroup dev\n\troute 10.0.0.0/24\nuser alice\n")
        "alice".toList ["dev".toList] noTopology
      = .ok ⟨NOT_SET, [⟨⟨[0, 0, 0, 0, 0, 0, 0, 0, 0, 0, 255, 255, 10, 0, 0, 0],
          [255, 255, 255, 0]⟩, [80]⟩]⟩ ∧
    GetUserConfig insertionOrder
        (policyOf "global\n\troute 10.0.0.0/24\ngroup dev\n\troute 10.0.0.0/24 80\nuser alice\n")
        "alice".toList [] noTopology
      = .ok ⟨NOT_SET, [⟨⟨[0, 0, 0, 0, 0, 0, 0, 0, 0, 0, 255, 255, 10, 0, 0, 0],
          [255, 255, 255, 0]⟩, []⟩]⟩ ∧
    (idleManager.updateFirewall iptablesOk id "alice".toList
        (resolveOf
          (policyOf "global\n\troute 10.0.0.0/24\ngroup dev\n\troute 10.0.0.0/24 80\nuser alice\n")
          "alice" [] noTopology)).Firewall.calls
      = [["--new-chain".toList, "user-alice".toList],
          appendAny "user-alice".toList "10.0.0.0/24".toList "tun0".toList] ∧
    (idleManager.updateFirewall iptablesOk id "alice".toList
        (resolveOf
          (policyOf "global\n\troute 10.0.0.0/24\ngroup dev\n\troute 10.0.0.0/24 80\nuser alice\n")
          "alice" ["dev"] noTopology)).Firewall.calls
      = [["--new-chain".toList, "user-alice".toList],
          appendPort "user-alice".toList "10.0.0.0/24".toList "tun0".toList 80] :=
  ⟨by decide, by decide, by decide, by decide, by decide⟩

/-- C5: for a policy read by `ParseConfig`, whose groups are kept in the order
of their first declaration, the DNS flag of the resolved policy is the flag of
the last section that sets it among the global section, the sections of the
user's groups in declaration order and the section of the user; it is unset
when none of them sets it, and it is the same for every group list with the
same names. -/
theorem dns_flag_in_declaration_order (pd : Str → Option Int) (text : Str)
    (config : ConfigFile) {ord : MapOrder} (hv : ord.Valid) (user : Str) (groups : List Str)
    (netinfo : NetworkInfo) (r : UserConfig)
    (hparse : ParseConfig pd text = .ok config)
    (h : GetUserConfig ord config user groups netinfo = .ok r) :
    config.Groups.map Prod.fst = declaredGroups text ∧
    r.DNSSetting = lastFlag NOT_SET ((declaredSections config user groups).map (·.DNSSetting)) ∧
    (∀ before s after, declaredSections config user groups = before ++ s :: after →
      s.DNSSetting ≠ NOT_SET → (∀ t ∈ after, t.DNSSetting = NOT_SET) →
      r.DNSSetting = s.DNSSetting) ∧
    ((∀ s ∈ declaredSections config user groups, s.DNSSetting = NOT_SET) →
      r.DNSSetting = NOT_SET) ∧
    (∀ groups1 r1, (∀ g, g ∈ groups1 ↔ g ∈ groups) →
      GetUserConfig ord config user groups1 netinfo = .ok r1 →
      r1.DNSSetting = r.DNSSetting) := by
  have hwf := ParseConfig_groupsWF hparse
  have hdns : ∀ (gs : List Str) (r0 : UserConfig),
      GetUserConfig ord config user gs netinfo = .ok r0 →
      r0.DNSSetting = lastFlag NOT_SET ((declaredSections config user gs).map (·.DNSSetting)) := by
    intro gs r0 h0
    rw [GetUserConfig_ok h0]
    simp only
    rw [(walkSections_fields ord config user gs netinfo).1, dns_eq_declared hv hwf]
  refine ⟨ParseConfig_groupNames hparse, hdns groups r h, ?_, ?_, ?_⟩
  · intro before s after hsplit hset hafter
    rw [hdns groups r h, hsplit, List.map_append, List.map_cons]
    exact lastFlag_decided _ _ _ _ hset (by
      intro g hg
      obtain ⟨t, ht, e⟩ := List.mem_map.1 hg
      rw [← e]
      exact hafter t ht)
  · intro hnone
    rw [hdns groups r h]
    exact lastFlag_unset _ _ (by
      intro g hg
      obtain ⟨t, ht, e⟩ := List.mem_map.1 hg
      rw [← e]
      exact hnone t ht)
  · intro groups1 r1 hsame h1
    rw [hdns groups r h, hdns groups1 r1 h1]
    unfold declaredSections
    have hf : (fun kv : Str × SectionConfig => decide (kv.1 ∈ groups1))
        = (fun kv => decide (kv.1 ∈ groups)) := by
      funext kv
      simp [hsame kv.1]
    rw [hf]

set_option maxRecDepth 100000 in
/-- Witness for C5: groups `a` and `b` declared in this order and listed as
`b`, `a`; the flag of `b` wins. -/
theorem dns_flag_in_declaration_order_witness :
    insertionOrder.Valid ∧
    ParseConfig parseSeconds "global\n\tdns off\ngroup a\n\tdns on\ngroup b\n\tdns off\n".toList
      = .ok (policyOf "global\n\tdns off\ngroup a\n\tdns on\ngroup b\n\tdns off\n") ∧
    GetUserConfig insertionOrder
        (policyOf "global\n\tdns off\ngroup a\n\tdns on\ngroup b\n\tdns off\n")
        "alice".toList ["b".toList, "a".toList] noTopology
      = .ok (resolveOf (policyOf "global\n\tdns off\ngroup a\n\tdns on\ngroup b\n\tdns off\n")
          "alice" ["b", "a"] noTopology) ∧
    (resolveOf (policyOf "global\n\tdns off\ngroup a\n\tdns on\ngroup b\n\tdns off\n")
          "alice" ["b", "a"] noTopology).DNSSetting = OFF :=
  ⟨insertionOrder_valid, by decide, by decide,
    (dns_flag_in_declaration_order parseSeconds
      "global\n\tdns off\ngroup a\n\tdns on\ngroup b\n\tdns off\n".toList
      (policyOf "global\n\tdns off\ngroup a\n\tdns on\ngroup b\n\tdns off\n")
      insertionOrder_valid "alice".toList ["b".toList, "a".toList] noTopology _
      (by decide) (by decide)).2.1.trans (by decide)⟩

/-- C6: when no contributing section lists a subnet, every network of the
topology's subnet map is among the resolved routes; when one does, every
resolved route comes from a route statement of a contributing section, from a
NAT source that the NAT mode allows, or from a listed subnet that the topology
knows; and whether the resolution fails does not depend on the topology, so an
unknown subnet id causes no error. -/
theorem GetUserConfig_subnets {ord : MapOrder} (hv : ord.Valid) (config : ConfigFile)
    (user : Str) (groups : List Str) (netinfo : NetworkInfo) (r : UserConfig)
    (h : GetUserConfig ord config user groups netinfo = .ok r) :
    ((∀ s, Contributing config user groups s → s.Subnets = []) →
      ∀ name n, mapGet netinfo.Subnets name = some n →
        ∃ rt ∈ r.Routes, rt.Network = toIPNet (toNetworkKey n)) ∧
    ((∃ s, Contributing config user groups s ∧ s.Subnets ≠ []) →
      ∀ rt ∈ r.Routes,
        (∃ s route, Contributing config user groups s ∧ route ∈ s.Routes ∧
          rt.Network = toIPNet (toNetworkKey route.Network)) ∨
        (∃ s subnet n, Contributing config user groups s ∧ subnet ∈ s.Subnets ∧
          mapGet netinfo.Subnets subnet.Name = some n ∧
          rt.Network = toIPNet (toNetworkKey n)) ∨
        (natMode ord config user groups = ALL ∧
          ∃ n ∈ netinfo.NAT, rt.Network = toIPNet (toNetworkKey n)) ∨
        (natMode ord config user groups ≠ OFF ∧ ∃ s route, Contributing config user groups s ∧
          route ∈ s.NATRoutes ∧ rt.Network = toIPNet (toNetworkKey route.Network))) ∧
    (∀ netinfo1 : NetworkInfo, ∃ r1, GetUserConfig ord config user groups netinfo1 = .ok r1) := by
  refine ⟨fun hnone name n hg => ?_, fun hsome rt hrt => ?_, fun netinfo1 => ?_⟩
  · have hc : (n, ([] : List Nat)) ∈ contributions ord config user groups netinfo :=
      (mem_contributions hv _ _ _ _ _).2 (Or.inr (Or.inr (Or.inr (Or.inr
        ⟨(allSubnets_iff hv _ _ _).2 hnone, name, n, hg, rfl⟩))))
    obtain ⟨rt, hrt, e, -⟩ := contribution_resolved hv h hc
    exact ⟨rt, hrt, e⟩
  · obtain ⟨c, hc, e, -⟩ := resolved_route_origin hv h hrt
    have hnot : ¬ allSubnets ord config user groups = true := by
      rw [allSubnets_iff hv]
      intro hall
      obtain ⟨s, hs, hne⟩ := hsome
      exact hne (hall s hs)
    rcases (mem_contributions hv _ _ _ _ _).1 hc with h1 | h1 | h1 | h1 | h1
    · obtain ⟨s, route, hs, hr, ec⟩ := h1
      exact Or.inl ⟨s, route, hs, hr, by rw [e, ec]⟩
    · obtain ⟨s, subnet, n, hs, hr, hg, ec⟩ := h1
      exact Or.inr (Or.inl ⟨s, subnet, n, hs, hr, hg, by rw [e, ec]⟩)
    · obtain ⟨hall, n, hn, ec⟩ := h1
      exact Or.inr (Or.inr (Or.inl ⟨hall, n, hn, by rw [e, ec]⟩))
    · obtain ⟨hoff, s, route, hs, hr, ec⟩ := h1
      exact Or.inr (Or.inr (Or.inr ⟨hoff, s, route, hs, hr, by rw [e, ec]⟩))
    · exact absurd h1.1 hnot
  · have h1 := (getUserConfig_error_iff ord config user groups netinfo).1
    have h2 := (getUserConfig_error_iff ord config user groups netinfo1).2
    apply h2
    intro hfail
    obtain ⟨e, he⟩ := h1.2 hfail
    rw [h] at he
    cases he

set_option maxRecDepth 100000 in
/-- Witness for C6: no section of the policy lists a subnet, and the subnet `s1`
of the topology is among the routes resolved for alice. -/
theorem GetUserConfig_subnets_witness :
    insertionOrder.Valid ∧
    GetUserConfig insertionOrder
        (policyOf "global\n  route 10.1.0.0/16\ngroup dev\n  route 10.2.0.0/16 443\n")
        "alice".toList ["dev".toList] twoSubnets
      = .ok (resolveOf (policyOf "global\n  route 10.1.0.0/16\ngroup dev\n  route 10.2.0.0/16 443\n")
          "alice" ["dev"] twoSubnets) ∧
    ∃ rt ∈ (resolveOf (policyOf "global\n  route 10.1.0.0/16\ngroup dev\n  route 10.2.0.0/16 443\n")
          "alice" ["dev"] twoSubnets).Routes,
      rt.Network = toIPNet (toNetworkKey ⟨[10, 0, 1, 0], CIDRMask 24 32⟩) :=
  ⟨insertionOrder_valid, by decide,
    (GetUserConfig_subnets insertionOrder_valid
      (policyOf "global\n  route 10.1.0.0/16\ngroup dev\n  route 10.2.0.0/16 443\n")
      "alice".toList ["dev".toList] twoSubnets _ (by decide)).1
      ((allSubnets_iff insertionOrder_valid _ _ _).1 (by decide))
      "s1".toList ⟨[10, 0, 1, 0], CIDRMask 24 32⟩ (by decide)⟩

/-- C7 (as amended): when a section holds `nat off` and no `nat` statement of
that section follows it, the parsed section has the NAT flag off; and for a user
whose NAT mode is decided by that section (no later contributing section sets
the flag) the NAT mode is off and every resolved route comes from a route
statement, from a listed subnet the topology knows, or from the subnets of the
topology included when no section lists one: neither the NAT routes nor the
NAT-egress networks of the topology are added. -/
theorem nat_off_last_drops_nat (pd : Str → Option Int) (text : Str) (config : ConfigFile)
    (pre post : List ConfigStatement) (st : ConfigStatement) (sec : SectionConfig)
    {ord : MapOrder} (hv : ord.Valid) (user : Str) (groups : List Str)
    (netinfo : NetworkInfo) (r : UserConfig) (before after : List SectionConfig)
    (hparse : ParseConfig pd text = .ok config)
    (hstmts : statements text = pre ++ st :: post)
    (hword : st.Word = "nat".toList) (hoff : st.Fields = ["off".toList])
    (hlast : ∀ s ∈ post, s.Word = "nat".toList → ¬ sameSection s st)
    (hsec : sectionOf config st.SectionType st.SectionName = some sec)
    (h : GetUserConfig ord config user groups netinfo = .ok r)
    (hdecides : userSections ord config user groups = before ++ sec :: after)
    (hafter : ∀ s ∈ after, s.NATSetting = NOT_SET) :
    sec.NATSetting = OFF ∧ natMode ord config user groups = OFF ∧
    ∀ rt ∈ r.Routes,
      (∃ s route, Contributing config user groups s ∧ route ∈ s.Routes ∧
        rt.Network = toIPNet (toNetworkKey route.Network)) ∨
      (∃ s subnet n, Contributing config user groups s ∧ subnet ∈ s.Subnets ∧
        mapGet netinfo.Subnets subnet.Name = some n ∧
        rt.Network = toIPNet (toNetworkKey n)) ∨
      (allSubnets ord config user groups = true ∧ ∃ name n,
        mapGet netinfo.Subnets name = some n ∧ rt.Network = toIPNet (toNetworkKey n)) := by
  have hOFF : OFF ≠ NOT_SET := by decide
  have hALL : ¬ OFF = ALL := by decide
  have happly := ParseConfig_eq_apply hparse
  rw [hstmts] at happly
  obtain ⟨c1, -, h2⟩ := applyStatements_append pd pre (st :: post) emptyConfig config happly
  rw [applyStatements] at h2
  have hflag : sec.NATSetting = OFF := by
    cases hp : parseStatement pd c1 st with
    | error e =>
      rw [hp] at h2
      cases h2
    | ok c2 =>
      rw [hp] at h2
      obtain ⟨sec1, hs1, hn1⟩ := parseStatement_nat_off (e := c2.2) hp hword hoff
      obtain ⟨sec2, hs2, hn2⟩ := applyStatements_keeps_nat pd st.SectionType st.SectionName
        post c2.1 config sec1 h2 hs1 (fun s hs hw hsame => hlast s hs hw hsame)
      rw [hsec] at hs2
      cases hs2
      rw [hn2, hn1]
  have hmode : natMode ord config user groups = OFF := by
    unfold natMode
    rw [hdecides, List.map_append, List.map_cons, hflag]
    exact lastFlag_decided ALL OFF _ _ hOFF (by
      intro g hg
      obtain ⟨s, hs, e⟩ := List.mem_map.1 hg
      rw [← e]
      exact hafter s hs)
  refine ⟨hflag, hmode, fun rt hrt => ?_⟩
  obtain ⟨c, hc, e, -⟩ := resolved_route_origin hv h hrt
  rcases (mem_contributions hv _ _ _ _ _).1 hc with h1 | h1 | h1 | h1 | h1
  · obtain ⟨s, route, hs, hr, ec⟩ := h1
    exact Or.inl ⟨s, route, hs, hr, by rw [e, ec]⟩
  · obtain ⟨s, subnet, n, hs, hr, hg, ec⟩ := h1
    exact Or.inr (Or.inl ⟨s, subnet, n, hs, hr, hg, by rw [e, ec]⟩)
  · rw [hmode] at h1
    exact absurd h1.1 hALL
  · exact absurd hmode h1.1
  · obtain ⟨hall, name, n, hg, ec⟩ := h1
    exact Or.inr (Or.inr ⟨hall, name, n, hg, by rw [e, ec]⟩)

set_option maxRecDepth 100000 in
/-- Witness for C7: the section of alice holds `nat 10.9.0.0/16` and then
`nat off`; its flag is off and the NAT mode of alice is off. -/
theorem nat_off_last_drops_nat_witness :
    insertionOrder.Valid ∧
    ParseConfig parseSeconds "global\nuser alice\n\tnat 10.9.0.0/16\n\tnat off\n".toList
      = .ok (policyOf "global\nuser alice\n\tnat 10.9.0.0/16\n\tnat off\n") ∧
    statements "global\nuser alice\n\tnat 10.9.0.0/16\n\tnat off\n".toList
      = [⟨"global".toList, [], [], [], 1⟩, ⟨"user".toList, "alice".toList, [], [], 2⟩,
          ⟨"user".toList, "alice".toList, "nat".toList, ["10.9.0.0/16".toList], 3⟩]
        ++ ⟨"user".toList, "alice".toList, "nat".toList, ["off".toList], 4⟩ :: [] ∧
    GetUserConfig insertionOrder (policyOf "global\nuser alice\n\tnat 10.9.0.0/16\n\tnat off\n")
        "alice".toList [] natTopology
      = .ok (resolveOf (policyOf "global\nuser alice\n\tnat 10.9.0.0/16\n\tnat off\n")
          "alice" [] natTopology) ∧
    (⟨USER, "alice".toList, 0, [], [], [⟨⟨[10, 9, 0, 0], [255, 255, 0, 0]⟩, []⟩], OFF, NOT_SET⟩
        : SectionConfig).NATSetting = OFF ∧
    natMode insertionOrder (policyOf "global\nuser alice\n\tnat 10.9.0.0/16\n\tnat off\n")
      "alice".toList [] = OFF :=
  ⟨insertionOrder_valid, by decide, by decide, by decide,
    (nat_off_last_drops_nat parseSeconds
      "global\nuser alice\n\tnat 10.9.0.0/16\n\tnat off\n".toList
      (policyOf "global\nuser alice\n\tnat 10.9.0.0/16\n\tnat off\n")
      [⟨"global".toList, [], [], [], 1⟩, ⟨"user".toList, "alice".toList, [], [], 2⟩,
        ⟨"user".toList, "alice".toList, "nat".toList, ["10.9.0.0/16".toList], 3⟩]
      [] ⟨"user".toList, "alice".toList, "nat".toList, ["off".toList], 4⟩
      ⟨USER, "alice".toList, 0, [], [], [⟨⟨[10, 9, 0, 0], [255, 255, 0, 0]⟩, []⟩], OFF, NOT_SET⟩
      insertionOrder_valid "alice".toList [] natTopology
      (resolveOf (policyOf "global\nuser alice\n\tnat 10.9.0.0/16\n\tnat off\n")
        "alice" [] natTopology)
      [⟨GLOBAL, [], 0, [], [], [], NOT_SET, NOT_SET⟩] []
      (by decide) (by decide) rfl rfl (by simp) (by decide) (by decide) (by decide)
      (by simp)).1,
    (nat_off_last_drops_nat parseSeconds
      "global\nuser alice\n\tnat 10.9.0.0/16\n\tnat off\n".toList
      (policyOf "global\nuser alice\n\tnat 10.9.0.0/16\n\tnat off\n")
      [⟨"global".toList, [], [], [], 1⟩, ⟨"user".toList, "alice".toList, [], [], 2⟩,
        ⟨"user".toList, "alice".toList, "nat".toList, ["10.9.0.0/16".toList], 3⟩]
      [] ⟨"user".toList, "alice".toList, "nat".toList, ["off".toList], 4⟩
      ⟨USER, "alice".toList, 0, [], [], [⟨⟨[10, 9, 0, 0], [255, 255, 0, 0]⟩, []⟩], OFF, NOT_SET⟩
      insertionOrder_valid "alice".toList [] natTopology
      (resolveOf (policyOf "global\nuser alice\n\tnat 10.9.0.0/16\n\tnat off\n")
        "alice" [] natTopology)
      [⟨GLOBAL, [], 0, [], [], [], NOT_SET, NOT_SET⟩] []
      (by decide) (by decide) rfl rfl (by simp) (by decide) (by decide) (by decide)
      (by simp)).2.1⟩

set_option maxRecDepth 100000 in
/-- Counterexample to C7 as stated: with `nat off` before `nat 10.9.0.0/16` in
the section of alice the parsed NAT flag is on, and the NAT route is among the
routes resolved for alice. -/
theorem nat_off_before_nat_route :
    (ParseConfig parseSeconds "user alice\n\tnat off\n\tnat 10.9.0.0/16\n".toList).map
        (fun config => (mapGet config.Users "alice".toList).map (·.NATSetting))
      = .ok (some ON) ∧
    (ParseConfig parseSeconds "user alice\n\tnat off\n\tnat 10.9.0.0/16\n".toList).bind
        (fun config => GetUserConfig insertionOrder config "alice".toList [] noTopology)
      = .ok ⟨NOT_SET, [⟨⟨[0, 0, 0, 0, 0, 0, 0, 0, 0, 0, 255, 255, 10, 9, 0, 0],
          [255, 255, 0, 0]⟩, []⟩]⟩ := by
  decide

/-- C8 (as amended): when every network of the policy and of the topology
carries a mask built by `net.CIDRMask`, no two entries of the returned route list
have the same network (16-byte address and mask). An IPv4 network and its
IPv4-mapped IPv6 form are different networks in this sense. -/
theorem GetUserConfig_routes_distinct {ord : MapOrder} (hv : ord.Valid) (config : ConfigFile)
    (user : Str) (groups : List Str) (netinfo : NetworkInfo) (r : UserConfig)
    (hok : netsOk config netinfo = true)
    (h : GetUserConfig ord config user groups netinfo = .ok r) :
    (r.Routes.map (·.Network)).Nodup :=
  routes_nodup hv hok h

set_option maxRecDepth 100000 in
/-- Witness for C8. -/
theorem GetUserConfig_routes_distinct_witness :
    insertionOrder.Valid ∧
    netsOk (policyOf "global\n\troute 10.0.0.0/24\n\troute ::ffff:10.0.0.0/120\nuser alice\n")
      twoSubnets = true ∧
    GetUserConfig insertionOrder
        (policyOf "global\n\troute 10.0.0.0/24\n\troute ::ffff:10.0.0.0/120\nuser alice\n")
        "alice".toList [] twoSubnets
      = .ok (resolveOf
          (policyOf "global\n\troute 10.0.0.0/24\n\troute ::ffff:10.0.0.0/120\nuser alice\n")
          "alice" [] twoSubnets) ∧
    ((resolveOf
          (policyOf "global\n\troute 10.0.0.0/24\n\troute ::ffff:10.0.0.0/120\nuser alice\n")
          "alice" [] twoSubnets).Routes.map (·.Network)).Nodup :=
  ⟨insertionOrder_valid, by decide, by decide,
    GetUserConfig_routes_distinct insertionOrder_valid
      (policyOf "global\n\troute 10.0.0.0/24\n\troute ::ffff:10.0.0.0/120\nuser alice\n")
      "alice".toList [] twoSubnets _ (by decide) (by decide)⟩

set_option maxRecDepth 100000 in
/-- Counterexample to C8 as stated: an IPv4 network and its IPv4-mapped IPv6
form give two routes that print the same CIDR. -/
theorem GetUserConfig_same_cidr_twice :
    (ParseConfig parseSeconds
        "global\n\troute 10.0.0.0/24\n\troute ::ffff:10.0.0.0/120\nuser alice\n".toList).bind
      (fun config => (GetUserConfig insertionOrder config "alice".toList [] noTopology).map
        (fun r => r.Routes.map (fun rt => IPNet.String rt.Network)))
      = .ok ["10.0.0.0/24".toList, "10.0.0.0/24".toList] := by
  decide

set_option maxRecDepth 100000 in
/-- C9 fails on the code: `parsePorts` has no check against port 0, the value
the packet filter reads as all ports. `route 10.0.0.0/24 0` is accepted and
resolves to a route with the port set `0`; `route 10.0.0.0/24 0 443` is
accepted and resolves to a route with the ports 0 and 443, for which
`updateFirewall` emits the command that accepts every port besides the command
for port 443. -/
theorem resolved_port_zero :
    (ParseConfig parseSeconds "global\n\troute 10.0.0.0/24 0\nuser alice\n".toList).bind
        (fun config => GetUserConfig insertionOrder config "alice".toList [] noTopology)
      = .ok ⟨NOT_SET, [⟨⟨[0, 0, 0, 0, 0, 0, 0, 0, 0, 0, 255, 255, 10, 0, 0, 0],
          [255, 255, 255, 0]⟩, [0]⟩]⟩ ∧
    parsePorts 2 ["0".toList, "443".toList] = .ok [0, 443] ∧
    (ParseConfig parseSeconds "global\n\troute 10.0.0.0/24 0 443\nuser alice\n".toList).bind
        (fun config => GetUserConfig insertionOrder config "alice".toList [] noTopology)
      = .ok ⟨NOT_SET, [⟨⟨[0, 0, 0, 0, 0, 0, 0, 0, 0, 0, 255, 255, 10, 0, 0, 0],
          [255, 255, 255, 0]⟩, [0, 443]⟩]⟩ ∧
    (idleManager.updateFirewall iptablesOk id "alice".toList
        ⟨NOT_SET, [⟨⟨[0, 0, 0, 0, 0, 0, 0, 0, 0, 0, 255, 255, 10, 0, 0, 0],
          [255, 255, 255, 0]⟩, [0, 443]⟩]⟩).Firewall.calls
      = [["--new-chain".toList, "user-alice".toList],
          appendAny "user-alice".toList "10.0.0.0/24".toList "tun0".toList,
          appendPort "user-alice".toList "10.0.0.0/24".toList "tun0".toList 443] :=
  ⟨by decide, by decide, by decide, by decide⟩

set_option maxRecDepth 100000 in
/-- C10 fails on the code: `parseSection` reports the malformed statement, but
the loop of `ParseConfig` overwrites that error with the result of the next
`Read`, so the text is accepted and the statement dropped, also when the
statement is the last one. -/
theorem ParseConfig_drops_section_errors :
    (parseSection emptyConfig.GlobalConfig
        ⟨"global".toList, [], "route".toList, ["not-an-ip".toList], 2⟩).2
      = some ⟨2, "cannot parse net"⟩ ∧
    ParseConfig parseSeconds "global\n\troute not-an-ip\n".toList = .ok emptyConfig ∧
    ParseConfig parseSeconds
        ("global\n\troute 10.0.0.0/24 99999\n\troute not-an-ip\n\tdns\n\tdns on off\n"
          ++ "\tnat on extra\n\troute\n\tnat 10.0.0.0/33\n\tsubnet-1 http\n").toList
      = .ok emptyConfig := by
  decide

set_option maxRecDepth 100000 in
/-- C11 fails on the code: the policy with the global route `10.0.0.0/24 80` is printed with
the word `route` twice; the printed text is accepted, but the policy read from
it has no route. The policy with `nat on` in the global section is printed
without a `nat` line, and the policy read from the printed text has the NAT
flag unset. Neither depends on the order of the groups and users or on the
rounding of the watch time. -/
theorem String_is_not_read_back (seconds : Int → Int) :
    ParseConfig parseSeconds "global\n\troute 10.0.0.0/24 80\n".toList
        = .ok (policyOf "global\n\troute 10.0.0.0/24 80\n") ∧
      (policyOf "global\n\troute 10.0.0.0/24 80\n").GlobalConfig.Routes
        = [⟨⟨[10, 0, 0, 0], CIDRMask 24 32⟩, [80]⟩] ∧
      (policyOf "global\n\troute 10.0.0.0/24 80\n").String seconds id
        = "global\n\troute route 10.0.0.0/24 80\n".toList ∧
      (∃ config, ParseConfig parseSeconds "global\n\troute route 10.0.0.0/24 80\n".toList
          = .ok config ∧ config.GlobalConfig.Routes = []) ∧
      ParseConfig parseSeconds "global\n\tnat on\n".toList = .ok (policyOf "global\n\tnat on\n") ∧
      (policyOf "global\n\tnat on\n").GlobalConfig.NATSetting = ALL ∧
      (policyOf "global\n\tnat on\n").String seconds id = "global\n".toList ∧
      (∃ config, ParseConfig parseSeconds "global\n".toList = .ok config ∧
        config.GlobalConfig.NATSetting = NOT_SET) :=
  ⟨by decide, by decide, rfl, ⟨_, rfl, by decide⟩, by decide, by decide, rfl, ⟨_, rfl, by decide⟩⟩

set_option maxRecDepth 100000 in
/-- C12 fails on the code: when the chain of `alice` holds the rules `ruleA` and `ruleB`
and the desired list is `ruleA` alone, `UpdateUser` returns without error,
whatever `iptables` answers, and the list stored for the chain still holds the
retired rule `ruleB`. -/
theorem UpdateUser_keeps_retired_rule (run : Iptables) :
    mapGet twoRuleFirewall.userChains "alice".toList = some [toChainRule ruleA, toChainRule ruleB] ∧
      (twoRuleFirewall.UpdateUser run id "alice".toList (some [ruleA])).2 = none ∧
      mapGet (twoRuleFirewall.UpdateUser run id "alice".toList (some [ruleA])).1.userChains
        "alice".toList = some [toChainRule ruleA, toChainRule ruleB] :=
  ⟨by decide, rfl, rfl⟩

set_option maxRecDepth 100000 in
/-- C13 fails on the code: when the chain of `alice` holds the rules `ruleA` and `ruleB`
and `UpdateUser` is called twice in a row with the desired list `ruleA`, the
second call runs `iptables --delete user-alice 1` once more. -/
theorem UpdateUser_second_call_deletes_again :
    ((twoRuleFirewall.UpdateUser iptablesOk id "alice".toList (some [ruleA])).1.UpdateUser
        iptablesOk id "alice".toList (some [ruleA])).1.calls
      = (twoRuleFirewall.UpdateUser iptablesOk id "alice".toList (some [ruleA])).1.calls
        ++ [["--delete".toList, "user-alice".toList, "1".toList]] ∧
      (twoRuleFirewall.UpdateUser iptablesOk id "alice".toList (some [ruleA])).1.calls
        = twoRuleFirewall.calls ++ [["--delete".toList, "user-alice".toList, "1".toList]] := by
  decide

set_option maxRecDepth 100000 in
/-- Counterexample to C15 as stated: when `alice` holds a session on client id 1 and a
`CONNECT` of her on client id 2 is authorized, `authorizeClient` sends
`client-kill 1` before the `client-auth` command for 2, and on return `clients`
still holds her old record under client id 1. -/
theorem connect_kills_before_auth :
    ((afterInputs [authEvent "CONNECT" 1 "alice" "h1"]).authorizeClient insertionOrder
        sessionBackend 2 7 (clientEnv "alice" "h1") false).sent
      = (afterInputs [authEvent "CONNECT" 1 "alice" "h1"]).sent ++
        [("client-kill 1".toList, false),
          (clientAuth [10, 8, 0, 1] 2 7
            ⟨NOT_SET, [⟨⟨v4InV6Header ++ [10, 0, 0, 0], CIDRMask 24 32⟩, []⟩]⟩, true)] ∧
      mapGet (afterInputs [authEvent "CONNECT" 1 "alice" "h1"]).userConnections "alice".toList
        = some 0 ∧
      ((afterInputs [authEvent "CONNECT" 1 "alice" "h1"]).deref 0).clientId = 1 ∧
      mapGet ((afterInputs [authEvent "CONNECT" 1 "alice" "h1"]).authorizeClient insertionOrder
        sessionBackend 2 7 (clientEnv "alice" "h1") false).clients 1 = some 0 := by
  decide

/-- C15 (as amended): when a user holds a session on client id `c1` and a
`CONNECT` of the same user with another client id `c2` is authorized,
`authorizeClient` sends `client-kill c1` and then the `client-auth` command
for `c2`; on return `userConnections` holds for the user a new record with
client id `c2`, `clients` holds that record under `c2`, and `clients` still
holds the old record under `c1`. -/
theorem connect_evicts_older_session (ord : MapOrder) (backend : Backend) (m : VPNManager)
    (c1 c2 keyId : Nat) (env : List (Str × Str)) (p1 : Nat)
    (htls : mapGet env "tls_digest_sha256_3".toList = none)
    (hauth : (authenticateUser ord backend m.users ((mapGet env "X509_1_CN".toList).getD [])
      ((mapGet env "X509_1_OU".toList).getD [])).1.err = none)
    (hu : mapGet m.userConnections ((mapGet env "X509_1_CN".toList).getD []) = some p1)
    (hcl : mapGet m.clients c1 = some p1)
    (hv : p1 < m.heap.length) (hc1 : (m.deref p1).clientId = c1) (hne : c1 ≠ c2) :
    (m.authorizeClient ord backend c2 keyId env false).sent
        = m.sent ++ [(clientKill c1, false),
            (clientAuth m.tunnelIP c2 keyId
              ((authenticateUser ord backend m.users ((mapGet env "X509_1_CN".toList).getD [])
                ((mapGet env "X509_1_OU".toList).getD [])).1.config.getD ⟨NOT_SET, []⟩), true)] ∧
      (∃ p2, mapGet (m.authorizeClient ord backend c2 keyId env false).userConnections
            ((mapGet env "X509_1_CN".toList).getD []) = some p2 ∧
          ((m.authorizeClient ord backend c2 keyId env false).deref p2).clientId = c2 ∧
          ((m.authorizeClient ord backend c2 keyId env false).deref p2).user
            = (mapGet env "X509_1_CN".toList).getD [] ∧
          mapGet (m.authorizeClient ord backend c2 keyId env false).clients c2 = some p2) ∧
      mapGet (m.authorizeClient ord backend c2 keyId env false).clients c1 = some p1 ∧
      (m.authorizeClient ord backend c2 keyId env false).deref p1 = m.deref p1 := by
  obtain ⟨k1, k2, k3, -, k5, k6⟩ :=
    authorizeClient_evicts ord backend m c1 c2 keyId env p1 htls hauth hu hv hc1 hne
  have hnew : ∀ q, (m.authorizeClient ord backend c2 keyId env false).deref q
      = (m.heap ++ [(⟨(mapGet env "X509_1_CN".toList).getD [], c2, none,
            (authenticateUser ord backend m.users ((mapGet env "X509_1_CN".toList).getD [])
              ((mapGet env "X509_1_OU".toList).getD [])).1.keyId,
            (authenticateUser ord backend m.users ((mapGet env "X509_1_CN".toList).getD [])
              ((mapGet env "X509_1_OU".toList).getD [])).1.config.getD ⟨NOT_SET, []⟩⟩ :
              clientConnection)]).getD q
          ⟨[], 0, none, [], ⟨NOT_SET, []⟩⟩ := by
    intro q
    unfold VPNManager.deref
    rw [k2]
  refine ⟨k1, ⟨m.heap.length, k3, ?_, ?_, k5⟩, ?_, ?_⟩
  · rw [hnew, List.getD_append_right _ _ _ _ (le_refl _)]
    simp
  · rw [hnew, List.getD_append_right _ _ _ _ (le_refl _)]
    simp
  · rw [k6 c1 hne, hcl]
  · rw [hnew, List.getD_append _ _ _ _ hv]
    rfl

set_option maxRecDepth 100000 in
/-- C15 (as amended) for `alice` moving from client id 1 to client id 2. -/
theorem connect_evicts_older_session_witness :
    mapGet (afterInputs [authEvent "CONNECT" 1 "alice" "h1"]).userConnections
        ((mapGet (clientEnv "alice" "h1") "X509_1_CN".toList).getD []) = some 0 ∧
      mapGet (afterInputs [authEvent "CONNECT" 1 "alice" "h1"]).clients 1 = some 0 ∧
      mapGet ((afterInputs [authEvent "CONNECT" 1 "alice" "h1"]).authorizeClient insertionOrder
        sessionBackend 2 7 (clientEnv "alice" "h1") false).clients 1 = some 0 :=
  ⟨by decide, by decide,
    (connect_evicts_older_session insertionOrder sessionBackend
      (afterInputs [authEvent "CONNECT" 1 "alice" "h1"]) 1 2 7 (clientEnv "alice" "h1") 0
      (by decide) (by decide) (by decide) (by decide) (by decide) (by decide) (by decide)).2.2.1⟩

/-- C16: after a `CONNECT` on client id `c2` has evicted the older session
`c1` of a user, the `DISCONNECT` event for `c1` is processed without panic and
leaves the new session untouched: `userConnections` is unchanged and holds for
the user the record with client id `c2`, `clients` holds the same unchanged
record under `c2`, and of `clients` only the entry of `c1` is removed. -/
theorem disconnect_of_evicted_session (run : Iptables) (ord : MapOrder) (backend : Backend)
    (m : VPNManager) (c1 c2 keyId : Nat) (env : List (Str × Str)) (p1 : Nat) (e : VPNClientEvent)
    (htls : mapGet env "tls_digest_sha256_3".toList = none)
    (hauth : (authenticateUser ord backend m.users ((mapGet env "X509_1_CN".toList).getD [])
      ((mapGet env "X509_1_OU".toList).getD [])).1.err = none)
    (hu : mapGet m.userConnections ((mapGet env "X509_1_CN".toList).getD []) = some p1)
    (hcl : mapGet m.clients c1 = some p1)
    (hv : p1 < m.heap.length) (hc1 : (m.deref p1).clientId = c1)
    (huser : (m.deref p1).user = (mapGet env "X509_1_CN".toList).getD []) (hne : c1 ≠ c2)
    (hkind : e.Kind = "DISCONNECT".toList) (hcid : e.ClientId = c1) :
    ∃ m2 p2, (m.authorizeClient ord backend c2 keyId env false).processClientEvent run ord backend e
          = some m2 ∧
      m2.userConnections = (m.authorizeClient ord backend c2 keyId env false).userConnections ∧
      mapGet m2.userConnections ((mapGet env "X509_1_CN".toList).getD []) = some p2 ∧
      (m2.deref p2).clientId = c2 ∧
      mapGet (m.authorizeClient ord backend c2 keyId env false).clients c2 = some p2 ∧
      mapGet m2.clients c2 = some p2 ∧
      m2.deref p2 = (m.authorizeClient ord backend c2 keyId env false).deref p2 ∧
      mapGet m2.clients c1 = none ∧
      (∀ c, c ≠ c1 → mapGet m2.clients c
        = mapGet (m.authorizeClient ord backend c2 keyId env false).clients c) := by
  obtain ⟨-, k2, k3, -, k5, k6⟩ :=
    authorizeClient_evicts ord backend m c1 c2 keyId env p1 htls hauth hu hv hc1 hne
  have hnew : ∀ q, (m.authorizeClient ord backend c2 keyId env false).deref q
      = (m.heap ++ [(⟨(mapGet env "X509_1_CN".toList).getD [], c2, none,
            (authenticateUser ord backend m.users ((mapGet env "X509_1_CN".toList).getD [])
              ((mapGet env "X509_1_OU".toList).getD [])).1.keyId,
            (authenticateUser ord backend m.users ((mapGet env "X509_1_CN".toList).getD [])
              ((mapGet env "X509_1_OU".toList).getD [])).1.config.getD ⟨NOT_SET, []⟩⟩ :
              clientConnection)]).getD q
          ⟨[], 0, none, [], ⟨NOT_SET, []⟩⟩ := by
    intro q
    unfold VPNManager.deref
    rw [k2]
  have hold : (m.authorizeClient ord backend c2 keyId env false).deref p1 = m.deref p1 := by
    rw [hnew, List.getD_append _ _ _ _ hv]
    rfl
  have hp2 : ((m.authorizeClient ord backend c2 keyId env false).deref m.heap.length).clientId
      = c2 := by
    rw [hnew, List.getD_append_right _ _ _ _ (le_refl _)]
    simp
  have hcl1 : mapGet (m.authorizeClient ord backend c2 keyId env false).clients e.ClientId
      = some p1 := by
    rw [hcid, k6 c1 hne, hcl]
  obtain ⟨m2, h1, h2, h3, h4, -⟩ := disconnect_evicted run ord backend
    (m.authorizeClient ord backend c2 keyId env false) e p1 m.heap.length hkind hcl1
    (by rw [hold, huser]; exact k3)
    (by rw [hp2, hcid]; exact fun h => hne h.symm)
  have hd : ∀ q, m2.deref q = (m.authorizeClient ord backend c2 keyId env false).deref q :=
    fun q => deref_eq_of_heap h4 q
  refine ⟨m2, m.heap.length, h1, h2, ?_, ?_, k5, ?_, hd _, ?_, ?_⟩
  · rw [h2]
    exact k3
  · rw [hd]
    exact hp2
  · rw [h3, mapGet_mapDelete, hcid, if_neg (fun h => hne h.symm)]
    exact k5
  · rw [h3, mapGet_mapDelete, hcid, if_pos rfl]
  · intro c hc
    rw [h3, mapGet_mapDelete, hcid, if_neg hc]

set_option maxRecDepth 100000 in
/-- C16 for `alice` moving from client id 1 to client id 2. -/
theorem disconnect_of_evicted_session_witness :
    mapGet (afterInputs [authEvent "CONNECT" 1 "alice" "h1"]).clients 1 = some 0 ∧
      ∃ m2 p2, ((afterInputs [authEvent "CONNECT" 1 "alice" "h1"]).authorizeClient insertionOrder
          sessionBackend 2 7 (clientEnv "alice" "h1") false).processClientEvent iptablesOk
          insertionOrder sessionBackend ⟨"DISCONNECT".toList, 1, 0, false, ⟨[], []⟩, []⟩ = some m2 ∧
        mapGet m2.userConnections "alice".toList = some p2 ∧ (m2.deref p2).clientId = 2 ∧
        mapGet m2.clients 1 = none :=
  ⟨by decide,
    (disconnect_of_evicted_session iptablesOk insertionOrder sessionBackend
      (afterInputs [authEvent "CONNECT" 1 "alice" "h1"]) 1 2 7 (clientEnv "alice" "h1") 0
      ⟨"DISCONNECT".toList, 1, 0, false, ⟨[], []⟩, []⟩
      (by decide) (by decide) (by decide) (by decide) (by decide) (by decide) (by decide)
      (by decide) (by decide) (by decide)).elim
      (fun m2 h => h.elim (fun p2 h2 => ⟨m2, p2, h2.1, h2.2.2.1, h2.2.2.2.1, h2.2.2.2.2.2.2.2.1⟩))⟩

set_option maxRecDepth 100000 in
/-- C17 fails on the code: after `CONNECT` and `ADDRESS` events for client id 1 the record
of `alice` carries the tunnel address; a successful `REAUTH` for client id 1
stores a new record without address under that client id (no `client-kill` is
sent), and the `DISCONNECT` that follows runs no `iptables` command, so the
forward rule of the address stays; without the `REAUTH` the `DISCONNECT`
deletes the forward rule. -/
theorem reauth_forgets_address :
    idleManager.steps [authEvent "CONNECT" 1 "alice" "h1", addressEvent 1,
          authEvent "REAUTH" 1 "alice" "h1", disconnectEvent 1]
        = some (afterInputs [authEvent "CONNECT" 1 "alice" "h1", addressEvent 1,
          authEvent "REAUTH" 1 "alice" "h1", disconnectEvent 1]) ∧
      mapGet (afterInputs [authEvent "CONNECT" 1 "alice" "h1", addressEvent 1]).clients 1 = some 0 ∧
      ((afterInputs [authEvent "CONNECT" 1 "alice" "h1", addressEvent 1]).deref 0).address
        = some ⟨v4InV6Header ++ [10, 8, 0, 2], CIDRMask 32 32⟩ ∧
      mapGet (afterInputs [authEvent "CONNECT" 1 "alice" "h1", addressEvent 1,
        authEvent "REAUTH" 1 "alice" "h1"]).clients 1 = some 1 ∧
      ((afterInputs [authEvent "CONNECT" 1 "alice" "h1", addressEvent 1,
        authEvent "REAUTH" 1 "alice" "h1"]).deref 1).user = "alice".toList ∧
      ((afterInputs [authEvent "CONNECT" 1 "alice" "h1", addressEvent 1,
        authEvent "REAUTH" 1 "alice" "h1"]).deref 1).address = none ∧
      (afterInputs [authEvent "CONNECT" 1 "alice" "h1", addressEvent 1,
        authEvent "REAUTH" 1 "alice" "h1"]).sent.map Prod.snd = [true, true] ∧
      (afterInputs [authEvent "CONNECT" 1 "alice" "h1", addressEvent 1,
        authEvent "REAUTH" 1 "alice" "h1", disconnectEvent 1]).Firewall.calls
        = (afterInputs [authEvent "CONNECT" 1 "alice" "h1", addressEvent 1]).Firewall.calls ∧
      (afterInputs [authEvent "CONNECT" 1 "alice" "h1", addressEvent 1,
        authEvent "REAUTH" 1 "alice" "h1", disconnectEvent 1]).Firewall.connections
        = (afterInputs [authEvent "CONNECT" 1 "alice" "h1", addressEvent 1]).Firewall.connections ∧
      (afterInputs [authEvent "CONNECT" 1 "alice" "h1", addressEvent 1,
        disconnectEvent 1]).Firewall.calls
        = (afterInputs [authEvent "CONNECT" 1 "alice" "h1", addressEvent 1]).Firewall.calls ++
          [["--delete".toList, "FORWARD".toList, "--in-interface".toList, "tun0".toList,
            "--source".toList, "10.8.0.2/32".toList, "--jump".toList, "user-alice".toList]] := by
  decide

set_option maxRecDepth 100000 in
/-- C19 fails on the code: on a tick whose `update` returns no error `updateConfig` changes
nothing but the user manager, whatever `update` found: no chain is reprogrammed
and no command is sent. So the session of `alice` with the alias `k1` stays
when a successful `update` finds only the alias `k2` for her, although
`killConn` holds for it; the same results with an error disconnect her. -/
theorem updateConfig_skips_successful_update (run : Iptables)
    (order : List chainRule → List chainRule)
    (userOrder : List (Str × vpnUser) → List (Str × vpnUser)) (m : VPNManager)
    (manager : userManager) (users : Option (List (Str × vpnUser))) (timerDuration : Option Int) :
    (m.updateConfig run order userOrder ⟨manager, users, timerDuration, none⟩).1
        = { m with users := manager } ∧
      mapGet (afterInputs [authEvent "CONNECT" 1 "alice" "h1"]).userConnections "alice".toList
        = some 0 ∧
      killConn ((afterInputs [authEvent "CONNECT" 1 "alice" "h1"]).deref 0)
        ⟨["k2".toList], ⟨NOT_SET, [⟨⟨v4InV6Header ++ [10, 0, 0, 0], CIDRMask 24 32⟩, []⟩]⟩⟩ = true ∧
      ((afterInputs [authEvent "CONNECT" 1 "alice" "h1"]).updateConfig iptablesOk id id
          (rotatedKeys none)).1.sent = (afterInputs [authEvent "CONNECT" 1 "alice" "h1"]).sent ∧
      ((afterInputs [authEvent "CONNECT" 1 "alice" "h1"]).updateConfig iptablesOk id id
          (rotatedKeys none)).1.userConnections
        = (afterInputs [authEvent "CONNECT" 1 "alice" "h1"]).userConnections ∧
      ((afterInputs [authEvent "CONNECT" 1 "alice" "h1"]).updateConfig iptablesOk id id
          (rotatedKeys none)).1.Firewall = emptyFirewall ∧
      ((afterInputs [authEvent "CONNECT" 1 "alice" "h1"]).updateConfig iptablesOk id id
          (rotatedKeys (some ⟨0, "failed"⟩))).1.sent
        = (afterInputs [authEvent "CONNECT" 1 "alice" "h1"]).sent
          ++ [("client-kill 1".toList, false)] := by
  refine ⟨?_, by decide, by decide, by decide, by decide, by decide, by decide⟩
  unfold VPNManager.updateConfig
  cases users <;> simp

set_option maxRecDepth 100000 in
/-- C20 fails on the code: when the index of `alice` holds the alias `k1` and the backend
lists no key for her, `updateKeys` returns without error, leaves her index as
it is and does not call the certificate manager; when the backend lists the
alias `k2` instead, `k1` is deleted from the index and handed to `Remove`. -/
theorem updateKeys_skips_empty_key_list {σ : Type} (ops : KeyOps σ) (ca : σ) :
    mapGet sessionUsers.users "alice".toList
        = some ⟨[("k1".toList, "h1".toList)], [("h1".toList, "k1".toList)]⟩ ∧
      (updateKeys keyInsertionOrder (keysBackend []) ops sessionUsers.users ca
          [("alice".toList, [])]).map (fun r => (r.1.users, r.2)) = some (sessionUsers.users, none) ∧
      (updateKeys keyInsertionOrder (keysBackend []) ops sessionUsers.users ca
          [("alice".toList, [])]).map (fun r => r.1.ca) = some ca ∧
      (updateKeys keyInsertionOrder (keysBackend []) recordingOps sessionUsers.users []
          [("alice".toList, [])]).map (fun r => r.1.ca) = some [] ∧
      (updateKeys keyInsertionOrder (keysBackend ["k2"]) recordingOps sessionUsers.users []
          [("alice".toList, [])]).map (fun r => (mapGet r.1.users "alice".toList, r.1.ca, r.2))
        = some (some ⟨[("k2".toList, [])], [([], "k2".toList)]⟩, [("Remove", "k1".toList)], none) :=
  ⟨by decide, rfl, rfl, by decide, by decide⟩

set_option maxRecDepth 100000 in
/-- Counterexample to C21 as stated: the policy resolved for `alice` has the
DNS flag unset, and the `client-auth` command sent for her holds the DNS
directive; the body for an unset flag differs from the body for `off`. -/
theorem unset_dns_is_pushed :
    (resolveOf sessionPolicy "alice" [] noTopology).DNSSetting = NOT_SET ∧
      (afterInputs [authEvent "CONNECT" 1 "alice" "h1"]).sent
        = [("client-auth 1 7\n".toList ++ dnsDirective [10, 8, 0, 1]
            ++ routeDirective ⟨⟨v4InV6Header ++ [10, 0, 0, 0], CIDRMask 24 32⟩, []⟩
            ++ "END".toList, true)] ∧
      clientAuth [10, 8, 0, 1] 1 7 ⟨NOT_SET, []⟩
        = "client-auth 1 7\n".toList ++ dnsDirective [10, 8, 0, 1] ++ "END".toList ∧
      clientAuth [10, 8, 0, 1] 1 7 ⟨OFF, []⟩ = "client-auth 1 7\nEND".toList := by
  decide

/-- C21 (as amended): when `authorizeClient` authorizes a client, the last
command it sends is the `client-auth` command for the policy resolved for the
user: the head line, the DNS directive, one route directive per resolved route
and `END`. The command holds the DNS directive if and only if the resolved DNS
flag is not off; for an unset flag the command is the one for `on`. -/
theorem authorizeClient_pushes_dns_unless_off (ord : MapOrder) (backend : Backend)
    (m : VPNManager) (clientId keyId : Nat) (env : List (Str × Str)) (reauth : Bool)
    (htls : mapGet env "tls_digest_sha256_3".toList = none)
    (hauth : (authenticateUser ord backend m.users ((mapGet env "X509_1_CN".toList).getD [])
      ((mapGet env "X509_1_OU".toList).getD [])).1.err = none) :
    ∃ conf, (authenticateUser ord backend m.users ((mapGet env "X509_1_CN".toList).getD [])
        ((mapGet env "X509_1_OU".toList).getD [])).1.config = some conf ∧
      (m.authorizeClient ord backend clientId keyId env reauth).sent.getLast?
        = some (clientAuth m.tunnelIP clientId keyId conf, true) ∧
      clientAuth m.tunnelIP clientId keyId conf
        = "client-auth ".toList ++ uitoa clientId ++ [' '] ++ uitoa keyId ++ "\n".toList
          ++ (if conf.DNSSetting ≠ OFF then dnsDirective m.tunnelIP else [])
          ++ conf.Routes.flatMap routeDirective ++ "END".toList ∧
      (dnsDirective m.tunnelIP <:+: clientAuth m.tunnelIP clientId keyId conf
        ↔ conf.DNSSetting ≠ OFF) ∧
      (conf.DNSSetting = NOT_SET →
        clientAuth m.tunnelIP clientId keyId conf
          = clientAuth m.tunnelIP clientId keyId ⟨ON, conf.Routes⟩) := by
  obtain ⟨conf, hconf⟩ := authenticateUser_config_of_ok ord backend m.users _ _ hauth
  refine ⟨conf, hconf,
    authorizeClient_last_command ord backend m clientId keyId env reauth conf htls hauth hconf,
    clientAuth_eq _ _ _ _, dnsDirective_infix_iff _ _ _ _, ?_⟩
  intro hunset
  rw [clientAuth_eq, clientAuth_eq, hunset]
  rfl

set_option maxRecDepth 100000 in
/-- C21 (as amended) for the `CONNECT` of `alice`, whose resolved DNS flag is
unset. -/
theorem authorizeClient_pushes_dns_unless_off_witness :
    mapGet (clientEnv "alice" "h1") "tls_digest_sha256_3".toList = none ∧
      ∃ conf, (idleManager.authorizeClient insertionOrder sessionBackend 1 7
          (clientEnv "alice" "h1") false).sent.getLast?
          = some (clientAuth idleManager.tunnelIP 1 7 conf, true) ∧
        (dnsDirective idleManager.tunnelIP <:+: clientAuth idleManager.tunnelIP 1 7 conf
          ↔ conf.DNSSetting ≠ OFF) :=
  ⟨by decide,
    (authorizeClient_pushes_dns_unless_off insertionOrder sessionBackend idleManager 1 7
      (clientEnv "alice" "h1") false (by decide) (by decide)).elim
      (fun conf h => ⟨conf, h.2.1, h.2.2.2.1⟩)⟩

set_option maxRecDepth 100000 in
/-- C22 fails on the code: when the backend lists two aliases `a` and `b` of
`alice` that carry the same key, both get the same hash and `keyByHash` maps
the hash to `b` only; when `a` is no longer listed, the entry of the hash is
deleted although `b` still has it; and two aliases without key body both get
the empty hash. -/
theorem key_index_not_inverse :
    (afterKeyRuns (some [1]) [["a", "b"]]).map Prod.fst
        = some [("alice".toList, ⟨[("a".toList, "07".toList), ("b".toList, "07".toList)],
            [("07".toList, "b".toList)]⟩)] ∧
      (afterKeyRuns (some [1]) [["a", "b"], ["b"]]).map Prod.fst
        = some [("alice".toList, ⟨[("b".toList, "07".toList)], []⟩)] ∧
      (afterKeyRuns none [["a", "b"]]).map Prod.fst
        = some [("alice".toList, ⟨[("a".toList, []), ("b".toList, [])], [([], "b".toList)]⟩)] := by
  decide

set_option maxRecDepth 100000 in
/-- C23 fails on the code: when the backend lists the alias `k1` for `alice`
and has no key body for it, `update` succeeds and indexes `k1` with the empty
hash, while the certificate manager has written no file and knows no alias; on
the next run that no longer lists `k1`, `Remove` panics. -/
theorem update_indexes_alias_without_certificate :
    (update parseSeconds updateInsertionOrder (textBackend "user alice\n\troute 10.0.0.0/24\n")
        (keysBackend ["k1"]) (exampleKeyOps none) ⟨emptyConfig, noTopology, [], []⟩ emptyCA).map
        (fun r => (r.1.err, r.1.manager.users, r.2))
      = some (none, [("alice".toList, ⟨[("k1".toList, [])], [([], "k1".toList)]⟩)], emptyCA) ∧
      (update parseSeconds updateInsertionOrder (textBackend "user alice\n\troute 10.0.0.0/24\n")
        (keysBackend ["k1"]) (exampleKeyOps none) ⟨emptyConfig, noTopology, [], []⟩ emptyCA).map
        (fun r => r.1.users.map (fun l => l.map (fun kv => (kv.1, kv.2.keys))))
      = some (some [("alice".toList, ["k1".toList])]) ∧
      afterKeyRuns none [["k1"]]
        = some ([("alice".toList, ⟨[("k1".toList, [])], [([], "k1".toList)]⟩)], emptyCA) ∧
      afterKeyRuns none [["k1"], ["k2"]] = none :=
  ⟨by decide, by decide, by decide, by decide⟩

set_option maxRecDepth 100000 in
/-- C24 fails on the code. With the chain `ruleA`, `ruleB` in memory and the
desired rules `ruleA`, `ruleC`, the rule `ruleC`, which has a port, takes the
slot of the retired `ruleB` by an `--append` command that carries the slot
number, not by `--replace`. With the chain `ruleB`, `ruleA`, `ruleC` in memory
and the desired rule `ruleA`, the retired slots 0 and 2 are deleted by two
commands that both name rule 0. -/
theorem UpdateUser_diff_commands :
    mapGet twoRuleFirewall.userChains "alice".toList = some [toChainRule ruleA, toChainRule ruleB] ∧
      (twoRuleFirewall.UpdateUser iptablesOk id "alice".toList (some [ruleA, ruleC])).1.calls
        = twoRuleFirewall.calls ++
          [["--append".toList, "user-alice".toList, "1".toList, "--destination".toList,
            "10.0.3.0/24".toList, "--in-interface".toList, "tun0".toList, "--protocol".toList,
            "tcp".toList, "--match".toList, "tcp".toList, "--dport".toList, "22".toList,
            "--match".toList, "conntrack".toList, "--ctstate".toList, "NEW".toList,
            "--jump".toList, "ACCEPT".toList]] ∧
      mapGet threeRuleFirewall.userChains "alice".toList
        = some [toChainRule ruleB, toChainRule ruleA, toChainRule ruleC] ∧
      (threeRuleFirewall.UpdateUser iptablesOk id "alice".toList (some [ruleA])).1.calls
        = threeRuleFirewall.calls ++
          [["--delete".toList, "user-alice".toList, "0".toList],
            ["--delete".toList, "user-alice".toList, "0".toList]] := by
  decide

set_option maxRecDepth 100000 in
/-- C25 fails on the code: a route restricted to a port yields a port-less
rule. The policy `route 10.0.0.0/24 0` is accepted, the route resolved for
`alice` has the port set `0`, not the empty one, and the rule `updateFirewall`
makes of it is emitted as the command that accepts every port, because
`addRule` reads port 0 as all ports and `parsePorts` does not reject it. -/
theorem port_zero_rule_is_portless :
    ParseConfig parseSeconds "user alice\n\troute 10.0.0.0/24 0\n".toList
        = .ok (policyOf "user alice\n\troute 10.0.0.0/24 0\n") ∧
      (resolveOf (policyOf "user alice\n\troute 10.0.0.0/24 0\n") "alice" [] noTopology).Routes
        = [⟨⟨v4InV6Header ++ [10, 0, 0, 0], CIDRMask 24 32⟩, [0]⟩] ∧
      (idleManager.updateFirewall iptablesOk id "alice".toList
        (resolveOf (policyOf "user alice\n\troute 10.0.0.0/24 0\n") "alice" []
          noTopology)).Firewall.calls
        = [["--new-chain".toList, "user-alice".toList],
            appendAny "user-alice".toList "10.0.0.0/24".toList "tun0".toList] := by
  decide

set_option maxRecDepth 100000 in
/-- C26 fails on the code. After `Add` has written `capath/dn-alice.0` for the
alias `a` and `capath/dn-alice.1` for the alias `b`, `Remove` of `a` renames
`capath/dn-alice/1` to `capath/dn-alice/0`, and `Remove` of `b` alone removes
`capath/dn-alice/1`: paths inside a directory `dn-alice`, not the files that
were written. After `Remove` the alias still resolves to its entry. -/
theorem Remove_uses_another_layout :
    (afterKeyRuns (some [1]) [["a", "b"]]).map (fun r => r.2.ops)
        = some [.write "capath/dn-alice.0".toList "CERTIFICATE".toList [1],
            .write "capath/dn-alice.1".toList "CERTIFICATE".toList [1]] ∧
      ((afterKeyRuns (some [1]) [["a", "b"]]).bind
          (fun r => r.2.Remove fileSystemOk "a".toList)).map
          (fun r => (r.1.ops.drop 2, mapGet r.1.byName "a".toList, mapGet r.1.byHash "dn-alice".toList,
            r.1.file 1))
        = some ([.rename "capath/dn-alice/1".toList "capath/dn-alice/0".toList], some 0, some [1],
            ⟨"dn-alice".toList, 0⟩) ∧
      ((afterKeyRuns (some [1]) [["a", "b"]]).bind
          (fun r => r.2.Remove fileSystemOk "b".toList)).map
          (fun r => (r.1.ops.drop 2, mapGet r.1.byName "b".toList, mapGet r.1.byHash "dn-alice".toList))
        = some ([.remove "capath/dn-alice/1".toList], some 1, some [0]) := by
  decide

set_option maxRecDepth 100000 in
/-- C27 fails on the code: for the line
`>CLIENT:ADDRESS,5,10.8.0.6/255.255.255.0,1` the event has the client id 5,
the address `10.8.0.6`, the flag `Primary` and no environment, and the reader
is untouched, but the mask is `0.0.0.0`, the first four bytes of the 16-byte
form of `255.255.255.0`; without a mask the mask is `/32`. -/
theorem parseClientEvent_address_mask :
    parseClientEvent ">CLIENT:ADDRESS,5,10.8.0.6/255.255.255.0,1".toList "next\n".toList
        = some (.ok (⟨"ADDRESS".toList, 5, 0, true,
            ⟨v4InV6Header ++ [10, 8, 0, 6], [0, 0, 0, 0]⟩, []⟩, "next\n".toList)) ∧
      ParseIP "255.255.255.0".toList = some (v4InV6Header ++ [255, 255, 255, 0]) ∧
      parseClientEvent ">CLIENT:ADDRESS,5,10.8.0.6,1".toList "next\n".toList
        = some (.ok (⟨"ADDRESS".toList, 5, 0, true,
            ⟨v4InV6Header ++ [10, 8, 0, 6], CIDRMask 32 32⟩, []⟩, "next\n".toList)) := by
  decide

set_option maxRecDepth 100000 in
/-- C28 fails on the code: `updateConfig` schedules the next tick after 5
minutes whenever `update` returns no watch time, whatever else it returns;
`update` returns none for the policy `global` without `watch`, for which
`BootVPN` schedules the first tick after 30 seconds, and none when the policy
cannot be loaded. -/
theorem updateConfig_default_is_five_minutes (run : Iptables)
    (order : List chainRule → List chainRule)
    (userOrder : List (Str × vpnUser) → List (Str × vpnUser)) (m : VPNManager)
    (manager : userManager) (users : Option (List (Str × vpnUser))) (err : Option Error) :
    (m.updateConfig run order userOrder ⟨manager, users, none, err⟩).2 = 300000000000 ∧
      ParseConfig parseSeconds "global\n".toList = .ok (policyOf "global\n") ∧
      bootTimerDuration (policyOf "global\n") = 30000000000 ∧
      (update parseSeconds updateInsertionOrder (textBackend "global\n") (keysBackend [])
          (exampleKeyOps none) sessionUsers emptyCA).map (fun r => (r.1.timerDuration, r.1.err))
        = some (none, none) ∧
      (update parseSeconds updateInsertionOrder ⟨fun _ => (none, some ⟨0, "no file"⟩),
          (some noTopology, none), fun _ => (some [], none)⟩ (keysBackend [])
          (exampleKeyOps none) sessionUsers emptyCA).map (fun r => r.1.timerDuration)
        = some none ∧
      bootTimerDuration (policyOf "global\n\twatch 90s\n") = 90000000000 ∧
      (update parseSeconds updateInsertionOrder (textBackend "global\n\twatch 90s\n") (keysBackend [])
          (exampleKeyOps none) sessionUsers emptyCA).map (fun r => r.1.timerDuration)
        = some (some 90000000000) := by
  refine ⟨?_, by decide, by decide, by decide, by decide, by decide, by decide⟩
  unfold VPNManager.updateConfig
  cases users with
  | none => rfl
  | some l =>
    simp only
    split <;> rfl

set_option maxRecDepth 100000 in
/-- C29 fails on the code. After `CONNECT` events of `alice` on the client ids
1 and 2 and the `DISCONNECT` of 2, `clients` still holds her record under 1
but `userConnections` has no entry for her, and the `DISCONNECT` of 1 panics.
After an authorized `CONNECT` on client id 1 and `DisconnectUser`, `clients`
has no entry for 1 and the `ADDRESS` event for 1 panics. -/
theorem events_dereference_missing_entries :
    mapGet (afterInputs [authEvent "CONNECT" 1 "alice" "h1", authEvent "CONNECT" 2 "alice" "h1",
        disconnectEvent 2]).clients 1 = some 0 ∧
      ((afterInputs [authEvent "CONNECT" 1 "alice" "h1", authEvent "CONNECT" 2 "alice" "h1",
        disconnectEvent 2]).deref 0).user = "alice".toList ∧
      mapGet (afterInputs [authEvent "CONNECT" 1 "alice" "h1", authEvent "CONNECT" 2 "alice" "h1",
        disconnectEvent 2]).userConnections "alice".toList = none ∧
      idleManager.steps [authEvent "CONNECT" 1 "alice" "h1", authEvent "CONNECT" 2 "alice" "h1",
        disconnectEvent 2]
        = some (afterInputs [authEvent "CONNECT" 1 "alice" "h1", authEvent "CONNECT" 2 "alice" "h1",
          disconnectEvent 2]) ∧
      idleManager.steps [authEvent "CONNECT" 1 "alice" "h1", authEvent "CONNECT" 2 "alice" "h1",
        disconnectEvent 2, disconnectEvent 1] = none ∧
      idleManager.steps [authEvent "CONNECT" 1 "alice" "h1", .disconnectUser "alice".toList]
        = some (afterInputs [authEvent "CONNECT" 1 "alice" "h1", .disconnectUser "alice".toList]) ∧
      (afterInputs [authEvent "CONNECT" 1 "alice" "h1"]).sent.map Prod.fst
        = [clientAuth [10, 8, 0, 1] 1 7
            ⟨NOT_SET, [⟨⟨v4InV6Header ++ [10, 0, 0, 0], CIDRMask 24 32⟩, []⟩]⟩] ∧
      mapGet (afterInputs [authEvent "CONNECT" 1 "alice" "h1",
        .disconnectUser "alice".toList]).clients 1 = none ∧
      idleManager.steps [authEvent "CONNECT" 1 "alice" "h1", .disconnectUser "alice".toList,
        addressEvent 1] = none := by
  decide

/-- C30: for every policy text `s` (whether or not it ends with a line feed)
and every fragment `f` without line feed, `ParseConfig` returns for `s`
followed by `f` what it returns for `s`: the unterminated last line is dropped
without error, whatever it contains. -/
theorem ParseConfig_drops_unterminated_line (parseDuration : Str → Option Int) (s f : Str)
    (hf : Char.ofNat 10 ∉ f) :
    ParseConfig parseDuration (s ++ f) = ParseConfig parseDuration s := by
  unfold ParseConfig
  rw [readLines_append s f hf]

set_option maxRecDepth 100000 in
/-- C30 for a policy followed by a malformed line without line feed. -/
theorem ParseConfig_drops_unterminated_line_witness :
    Char.ofNat 10 ∉ "\troute not-a-network".toList ∧
      ParseConfig parseSeconds ("global\n\tdns on\n".toList ++ "\troute not-a-network".toList)
        = ParseConfig parseSeconds "global\n\tdns on\n".toList :=
  ⟨by decide, ParseConfig_drops_unterminated_line parseSeconds "global\n\tdns on\n".toList
    "\troute not-a-network".toList (by decide)⟩

end OpenvpnAws
